import Mathlib

/-!
Verification of the `vizible-cartesian` charting library.

This file gives a shallow embedding, in Lean 4, of the parts of the library
that the specification's claims are about:

* the JavaScript value/number model needed by the data pipeline
  (`JSNum`, `JSVal`, `toNumber`), with IEEE special values `NaN` and
  `±Infinity` represented exactly and finite numbers modelled as rationals
  (we work in exact arithmetic; floating-point rounding is not modelled);
* the d3 scale derivation used by `CartesianPlane`'s constructor:
  `d3-array`'s `tickIncrement`/`tickStep`, `d3-scale`'s `linear.nice` and
  `time.nice` (via `d3-time`'s tick-interval ladder and calendar
  intervals, in UTC, following the ECMA-262 date decomposition);
* `getXDomain` / `getYDomain` and the `CartesianPlane` constructor
  (src/unnamed/part_006, the revision that reads the svg size and uses
  `field` accessors);
* the chart renderers (`ScatterChart`, `CustomScatterChart`, `LineChart`)
  over a small DOM model with d3's by-index data joins, and the
  `LineChart` cursor handler;
* a heap-based record model for the dataset-copy (aliasing) claim.

Definitions come first, then the theorems/lemmas about them.
-/

/-! ## JavaScript numbers (exact model: rationals plus NaN and infinities) -/

/-- A JavaScript number: a finite value (exact rational; rounding is not
modelled), `NaN`, or one of the two infinities. Negative zero is identified
with zero. -/
inductive JSNum where
  | fin (q : ℚ)
  | nan
  | posInf
  | negInf
deriving DecidableEq

/-- Whether a JS number is finite. -/
def JSNum.isFin : JSNum → Bool
  | .fin _ => true
  | _ => false

/-- Whether a JS number is `NaN`. -/
def JSNum.isNaN : JSNum → Bool
  | .nan => true
  | _ => false

/-- JavaScript `<` on numbers: any comparison with `NaN` is false. -/
def JSNum.lt : JSNum → JSNum → Bool
  | .fin a, .fin b => a < b
  | .fin _, .posInf => true
  | .negInf, .fin _ => true
  | .negInf, .posInf => true
  | _, _ => false

/-- JavaScript `<=` on numbers: any comparison with `NaN` is false. -/
def JSNum.le : JSNum → JSNum → Bool
  | .fin a, .fin b => a ≤ b
  | .fin _, .posInf => true
  | .negInf, .fin _ => true
  | .negInf, .negInf => true
  | .negInf, .posInf => true
  | .posInf, .posInf => true
  | _, _ => false

/-- JS unary minus. -/
def JSNum.neg : JSNum → JSNum
  | .fin q => .fin (-q)
  | .nan => .nan
  | .posInf => .negInf
  | .negInf => .posInf

/-- JS addition with IEEE special-value rules (exact on finite values). -/
def JSNum.add : JSNum → JSNum → JSNum
  | .fin a, .fin b => .fin (a + b)
  | .nan, _ => .nan
  | _, .nan => .nan
  | .posInf, .negInf => .nan
  | .negInf, .posInf => .nan
  | .posInf, _ => .posInf
  | _, .posInf => .posInf
  | .negInf, _ => .negInf
  | _, .negInf => .negInf

/-- JS subtraction. -/
def JSNum.sub (a b : JSNum) : JSNum := a.add b.neg

/-- JS multiplication with IEEE special-value rules (`0 * ±∞ = NaN`). -/
def JSNum.mul : JSNum → JSNum → JSNum
  | .fin a, .fin b => .fin (a * b)
  | .nan, _ => .nan
  | _, .nan => .nan
  | .posInf, .posInf => .posInf
  | .posInf, .negInf => .negInf
  | .negInf, .posInf => .negInf
  | .negInf, .negInf => .posInf
  | .posInf, .fin b => if b = 0 then .nan else if 0 < b then .posInf else .negInf
  | .negInf, .fin b => if b = 0 then .nan else if 0 < b then .negInf else .posInf
  | .fin a, .posInf => if a = 0 then .nan else if 0 < a then .posInf else .negInf
  | .fin a, .negInf => if a = 0 then .nan else if 0 < a then .negInf else .posInf

/-- JS division with IEEE special-value rules; `x / 0` is `±∞` (or `NaN`
for `0 / 0`; negative zero is not modelled). -/
def JSNum.div : JSNum → JSNum → JSNum
  | .fin a, .fin b =>
      if b = 0 then (if a = 0 then .nan else if 0 < a then .posInf else .negInf)
      else .fin (a / b)
  | .nan, _ => .nan
  | _, .nan => .nan
  | .posInf, .posInf => .nan
  | .posInf, .negInf => .nan
  | .negInf, .posInf => .nan
  | .negInf, .negInf => .nan
  | .fin _, .posInf => .fin 0
  | .fin _, .negInf => .fin 0
  | .posInf, .fin b => if 0 ≤ b then .posInf else .negInf
  | .negInf, .fin b => if 0 ≤ b then .negInf else .posInf

/-- JS `Math.abs`. -/
def JSNum.abs : JSNum → JSNum
  | .fin q => .fin |q|
  | .nan => .nan
  | .posInf => .posInf
  | .negInf => .posInf

/-- JS `Math.min` of two numbers: `NaN` if either argument is `NaN`. -/
def JSNum.min2 (a b : JSNum) : JSNum :=
  if a.isNaN ∨ b.isNaN then .nan else if a.le b then a else b

/-- JS `Math.max` of two numbers: `NaN` if either argument is `NaN`. -/
def JSNum.max2 (a b : JSNum) : JSNum :=
  if a.isNaN ∨ b.isNaN then .nan else if a.le b then b else a

/-- JS `Math.min(...list)`: the empty spread gives `Infinity`. -/
def JSNum.listMin (l : List JSNum) : JSNum := l.foldl JSNum.min2 .posInf

/-- JS `Math.max(...list)`: the empty spread gives `-Infinity`. -/
def JSNum.listMax (l : List JSNum) : JSNum := l.foldl JSNum.max2 .negInf

/-! ## JavaScript values appearing in dataset records -/

/-- A JavaScript value as it can appear in a dataset record: a number, a
`Date` (carrying its timestamp in milliseconds), a string, a boolean,
`null`, or `undefined`. -/
inductive JSVal where
  | num (x : JSNum)
  | date (t : ℚ)
  | str (s : String)
  | boolV (b : Bool)
  | nullV
  | undefV
deriving DecidableEq

/-- The `v !== undefined && v !== null` filter used by `getXDomain`. -/
def JSVal.isDefined : JSVal → Bool
  | .undefV => false
  | .nullV => false
  | _ => true

/-- Whether the value is a `Date` (`v instanceof Date`). -/
def JSVal.isDate : JSVal → Bool
  | .date _ => true
  | _ => false

/-- Whether `typeof v === "number"`. -/
def JSVal.isNumber : JSVal → Bool
  | .num _ => true
  | _ => false

/-- JS string-to-number coercion, restricted to the shapes exercised here:
the empty/whitespace string coerces to `0`, a (possibly `-`-signed) digit
string to the corresponding integer, anything else to `NaN`. (Fractional
and exponent literals are not needed by any claim.) -/
def jsStringToNumber (s : String) : JSNum :=
  let t := s.trim
  if t = ("") then .fin 0
  else
    match t.toInt? with
    | some n => .fin n
    | none => .nan

/-- JS `Number(v)` coercion: numbers pass through, a `Date` yields its
timestamp, `null` is `0`, booleans are `0`/`1`, `undefined` is `NaN`. -/
def JSVal.toNumber : JSVal → JSNum
  | .num x => x
  | .date t => .fin t
  | .str s => jsStringToNumber s
  | .boolV b => .fin (if b then 1 else 0)
  | .nullV => .fin 0
  | .undefV => .nan

/-- JS `(v as Date).getTime()`: a `TypeError` is thrown unless the value
actually is a `Date`. -/
def JSVal.getTimeE : JSVal → Except String ℚ
  | .date t => Except.ok t
  | _ => Except.error ("TypeError: v.getTime is not a function")

/-! ## d3-array tick arithmetic (exact rational model)

`tickIncrement` and `tickStep` from d3-array v3 (as bundled with d3 7.9),
with `Math.log10`/`Math.sqrt` comparisons carried out exactly:
`error >= Math.sqrt 50` is decided as `50 <= error ^ 2` (valid since
`error > 0`), and `Math.floor (Math.log10 step)` is computed exactly for
positive rationals. -/

/-- Fuel-driven base-10 logarithm on naturals: `natLog10 fuel n` is
`Nat.log 10 n` for `n ≥ 1` once `fuel ≥ n`. Structural recursion keeps it
kernel-reducible. -/
def natLog10 : ℕ → ℕ → ℕ
  | 0, _ => 0
  | _ + 1, n => if n < 10 then 0 else natLog10 (n / 10) (n / 10) + 1

/-- Smallest `p` with `n ≤ 10 ^ p` (a ceiling log), fuel-driven. -/
def natClog10 : ℕ → ℕ → ℕ
  | 0, _ => 0
  | _ + 1, n => if n ≤ 1 then 0 else natClog10 ((n + 9) / 10) ((n + 9) / 10) + 1

/-- Exact `Math.floor (Math.log10 q)` for a positive rational `q`
(arbitrary value on `q ≤ 0`, which no caller reaches). -/
def floorLog10 (q : ℚ) : ℤ :=
  if 1 ≤ q then (natLog10 ⌊q⌋.toNat ⌊q⌋.toNat : ℤ)
  else -(natClog10 ⌈q⁻¹⌉.toNat ⌈q⁻¹⌉.toNat : ℤ)

/-- The `1 / 2 / 5 / 10` factor choice shared by `tickIncrement` and
`tickStep`: `error >= sqrt 50 → 10`, `error >= sqrt 10 → 5`,
`error >= sqrt 2 → 2`, else `1` (decided by squaring; `error > 0`). -/
def tickFactor (error : ℚ) : ℚ :=
  if 50 ≤ error ^ 2 then 10 else if 10 ≤ error ^ 2 then 5
  else if 2 ≤ error ^ 2 then 2 else 1

/-- d3-array `tickIncrement start stop count` over exact rationals.
Returns the tick increment: a positive value is the step itself, a
negative value `-k` encodes the substep `1 / k`. A non-positive raw step
(degenerate or reversed domain) yields `0`, matching the JS trace where
the nice loop then leaves the domain unchanged. -/
def tickIncrementQ (start stop : ℚ) (count : ℕ) : ℚ :=
  let step := (stop - start) / count
  if 0 < step then
    let power := floorLog10 step
    let error := step / (10 : ℚ) ^ power
    if 0 ≤ power then tickFactor error * (10 : ℚ) ^ power
    else -((10 : ℚ) ^ (-power).toNat) / tickFactor error
  else 0

/-- d3-array `tickStep start stop count` over exact rationals: the
positive tick step size for `start < stop` (for a non-positive raw step
the JS code returns a non-positive value; `0` stands for all of those,
which every caller here clamps or guards). -/
def tickStepQ (start stop : ℚ) (count : ℕ) : ℚ :=
  let step0 := |stop - start| / count
  if 0 < step0 then
    let power := floorLog10 step0
    if 0 ≤ power then tickFactor (step0 / (10 : ℚ) ^ power) * (10 : ℚ) ^ power
    else ((10 : ℚ) ^ (-power).toNat)⁻¹ * tickFactor (step0 * (10 : ℚ) ^ (-power).toNat)
  else 0

/-! ## d3-scale `linear.nice` (default tick count 10)

The JS loop (d3-scale v4 `nice.js` inlined in `continuous`): repeatedly
compute `tickIncrement`, floor/ceil the endpoints onto that grid, and stop
when the increment stabilises, writing the endpoints back; on `break`
(zero increment) or fuel exhaustion the original domain is kept.
Non-finite endpoints: tracing the JS arithmetic, any `NaN`/infinite
endpoint makes the loop break without writing, so the domain is returned
unchanged; `niceLinearPair` therefore only runs the rational loop on two
finite endpoints. -/

/-- One rounding step of the nice loop: positive increments floor/ceil the
endpoints onto multiples of the step, negative increments use the inverse
grid exactly as the JS does. -/
def niceRound (start stop step : ℚ) : ℚ × ℚ :=
  if 0 < step then ((⌊start / step⌋ : ℤ) * step, (⌈stop / step⌉ : ℤ) * step)
  else ((⌈start * step⌉ : ℤ) / step, (⌊stop * step⌋ : ℤ) / step)

/-- The nice loop with fuel (`maxIter = 10` in d3): returns `some` of the
stabilised endpoints, or `none` for break/exhaustion (domain kept). -/
def niceLoop (count : ℕ) : ℕ → Option ℚ → ℚ → ℚ → Option (ℚ × ℚ)
  | 0, _, _, _ => none
  | fuel + 1, prestep, start, stop =>
    let step := tickIncrementQ start stop count
    if prestep = some step then some (start, stop)
    else if step ≠ 0 then
      niceLoop count fuel (some step) (niceRound start stop step).1 (niceRound start stop step).2
    else none

/-- `scale.nice()` on a linear scale's domain pair, default count 10.
Finite endpoints (ordered, as every call site guarantees `min ≤ max`) run
the rational loop; otherwise the traced JS behaviour is to leave the
domain unchanged. -/
def niceLinearPair : JSNum × JSNum → JSNum × JSNum
  | (.fin a, .fin b) =>
    if b < a then
      match niceLoop 10 10 none b a with
      | some (s, t) => (.fin t, .fin s)
      | none => (.fin a, .fin b)
    else
      match niceLoop 10 10 none a b with
      | some (s, t) => (.fin s, .fin t)
      | none => (.fin a, .fin b)
  | p => p

/-! ## Calendar (ECMA-262, UTC) and d3-time intervals

d3's time scale nices its domain with calendar intervals that go through
the JS `Date` accessors; those are specified by ECMA-262 in terms of
`Day(t) = floor(t / msPerDay)`, `DayFromYear`, `YearFromTime` (the largest
year whose first day is at or before the given day) and day-within-year
month ranges. We model them over exact rationals / integers, in UTC. -/

/-- ECMA-262 `DayFromYear`: the day number (days since 1970-01-01) of the
first day of year `y`, proleptic Gregorian. -/
def dayFromYear (y : ℤ) : ℤ :=
  365 * (y - 1970) + (y - 1969) / 4 - (y - 1901) / 100 + (y - 1601) / 400

/-- Candidate-testing step of `YearFromTime`: given the approximation `y`,
the correct year (largest with `dayFromYear ≤ n`) is one of
`y - 1, y, y + 1`. -/
def yearFromDayAux (n y : ℤ) : ℤ :=
  if n < dayFromYear y then y - 1
  else if n < dayFromYear (y + 1) then y
  else y + 1

/-- ECMA-262 `YearFromTime` on day numbers: the unique `y` with
`dayFromYear y ≤ n < dayFromYear (y + 1)`. -/
def yearFromDay (n : ℤ) : ℤ :=
  yearFromDayAux n (1970 + 400 * n / 146097)

/-- Gregorian leap-year predicate (ECMA-262 `DaysInYear`). -/
def isLeapYear (y : ℤ) : Bool :=
  y % 4 = 0 ∧ (¬ y % 100 = 0 ∨ y % 400 = 0)

/-- The leap-day indicator as an integer. -/
def leapInd : Bool → ℤ
  | true => 1
  | false => 0

/-- Days before civil month `m` (1-based) within a year, with the leap-day
included from March on. -/
def cumDaysBefore (leap : Bool) (m : ℤ) : ℤ :=
  (if m ≤ 1 then 0 else if m ≤ 2 then 31 else if m ≤ 3 then 59 else if m ≤ 4 then 90
   else if m ≤ 5 then 120 else if m ≤ 6 then 151 else if m ≤ 7 then 181 else if m ≤ 8 then 212
   else if m ≤ 9 then 243 else if m ≤ 10 then 273 else if m ≤ 11 then 304 else 334)
  + leapInd leap * (if 3 ≤ m then 1 else 0)

/-- ECMA-262 `MonthFromTime` (1-based): the month is read off the
day-within-year by the cumulative ranges. -/
def monthFromDin (leap : Bool) (din : ℤ) : ℤ :=
  if din < 31 then 1 else if din < 59 + leapInd leap then 2 else if din < 90 + leapInd leap then 3
  else if din < 120 + leapInd leap then 4 else if din < 151 + leapInd leap then 5
  else if din < 181 + leapInd leap then 6 else if din < 212 + leapInd leap then 7
  else if din < 243 + leapInd leap then 8 else if din < 273 + leapInd leap then 9
  else if din < 304 + leapInd leap then 10 else if din < 334 + leapInd leap then 11 else 12

/-- Milliseconds per day. -/
def msPerDay : ℚ := 86400000

/-- ECMA-262 `Day(t)`: the day number containing timestamp `t`. -/
def dayOfT (t : ℚ) : ℤ := ⌊t / msPerDay⌋

/-- The day-within-year of day number `n`. -/
def dinOfDay (n : ℤ) : ℤ := n - dayFromYear (yearFromDay n)

/-- ECMA-262 `DateFromTime` (1-based day of the month) of day number `n`. -/
def domOfDay (n : ℤ) : ℤ :=
  dinOfDay n - cumDaysBefore (isLeapYear (yearFromDay n)) (monthFromDin (isLeapYear (yearFromDay n)) (dinOfDay n)) + 1

/-- The d3-time tick intervals reachable from `timeTickInterval`
(`d3-time` `ticker.js` ladder plus its two `every` escapes). -/
inductive TInterval where
  | msEvery (k : ℤ)
  | secondE (k : ℚ)
  | minuteE (k : ℚ)
  | hourE (k : ℚ)
  | day1
  | day2
  | week
  | month1
  | month3
  | year1
  | yearEvery (k : ℤ)
deriving DecidableEq

/-- Floor onto the grid of step `dur` anchored at 0. -/
def gridFloor (dur t : ℚ) : ℚ := (⌊t / dur⌋ : ℤ) * dur

/-- Ceiling onto the grid of step `dur` anchored at 0. -/
def gridCeil (dur t : ℚ) : ℚ := (⌈t / dur⌉ : ℤ) * dur

/-- Start (in ms) of the month containing day number `n`. -/
def monthStartMs (n : ℤ) : ℚ :=
  ((dayFromYear (yearFromDay n) + cumDaysBefore (isLeapYear (yearFromDay n)) (monthFromDin (isLeapYear (yearFromDay n)) (dinOfDay n)) : ℤ) : ℚ) * msPerDay

/-- Start (in ms) of the quarter (Jan/Apr/Jul/Oct) containing day `n`. -/
def quarterStartMs (n : ℤ) : ℚ :=
  ((dayFromYear (yearFromDay n) + cumDaysBefore (isLeapYear (yearFromDay n)) (monthFromDin (isLeapYear (yearFromDay n)) (dinOfDay n) - (monthFromDin (isLeapYear (yearFromDay n)) (dinOfDay n) - 1) % 3) : ℤ) : ℚ) * msPerDay

/-- `interval.floor` for each reachable d3-time interval (UTC). -/
def TInterval.floorI : TInterval → ℚ → ℚ
  | .msEvery k, t => if k ≤ 1 then t else gridFloor (k : ℚ) t
  | .secondE k, t => gridFloor (1000 * k) t
  | .minuteE k, t => gridFloor (60000 * k) t
  | .hourE k, t => gridFloor (3600000 * k) t
  | .day1, t => gridFloor msPerDay t
  | .day2, t =>
      if (domOfDay (dayOfT t) - 1) % 2 = 0 then gridFloor msPerDay t
      else gridFloor msPerDay t - msPerDay
  | .week, t => ((dayOfT t - (dayOfT t - 3) % 7 : ℤ) : ℚ) * msPerDay
  | .month1, t => monthStartMs (dayOfT t)
  | .month3, t => quarterStartMs (dayOfT t)
  | .year1, t => ((dayFromYear (yearFromDay (dayOfT t)) : ℤ) : ℚ) * msPerDay
  | .yearEvery k, t =>
      if k ≤ 1 then ((dayFromYear (yearFromDay (dayOfT t)) : ℤ) : ℚ) * msPerDay
      else ((dayFromYear (k * (yearFromDay (dayOfT t) / k)) : ℤ) : ℚ) * msPerDay

/-- `interval.ceil` for each reachable d3-time interval (UTC): the
smallest grid point at or after `t`. -/
def TInterval.ceilI : TInterval → ℚ → ℚ
  | .msEvery k, t => if k ≤ 1 then t else gridCeil (k : ℚ) t
  | .secondE k, t => gridCeil (1000 * k) t
  | .minuteE k, t => gridCeil (60000 * k) t
  | .hourE k, t => gridCeil (3600000 * k) t
  | .day1, t => gridCeil msPerDay t
  | .day2, t =>
      if (domOfDay (⌈t / msPerDay⌉) - 1) % 2 = 0 then gridCeil msPerDay t
      else gridCeil msPerDay t + msPerDay
  | .week, t =>
      if TInterval.floorI .week t = t then t else TInterval.floorI .week t + 7 * msPerDay
  | .month1, t =>
      if monthStartMs (dayOfT t) = t then t
      else if monthFromDin (isLeapYear (yearFromDay (dayOfT t))) (dinOfDay (dayOfT t)) ≤ 11 then
        ((dayFromYear (yearFromDay (dayOfT t)) + cumDaysBefore (isLeapYear (yearFromDay (dayOfT t))) (monthFromDin (isLeapYear (yearFromDay (dayOfT t))) (dinOfDay (dayOfT t)) + 1) : ℤ) : ℚ) * msPerDay
      else ((dayFromYear (yearFromDay (dayOfT t) + 1) : ℤ) : ℚ) * msPerDay
  | .month3, t =>
      if quarterStartMs (dayOfT t) = t then t
      else if monthFromDin (isLeapYear (yearFromDay (dayOfT t))) (dinOfDay (dayOfT t)) - (monthFromDin (isLeapYear (yearFromDay (dayOfT t))) (dinOfDay (dayOfT t)) - 1) % 3 ≤ 9 then
        ((dayFromYear (yearFromDay (dayOfT t)) + cumDaysBefore (isLeapYear (yearFromDay (dayOfT t))) (monthFromDin (isLeapYear (yearFromDay (dayOfT t))) (dinOfDay (dayOfT t)) - (monthFromDin (isLeapYear (yearFromDay (dayOfT t))) (dinOfDay (dayOfT t)) - 1) % 3 + 3) : ℤ) : ℚ) * msPerDay
      else ((dayFromYear (yearFromDay (dayOfT t) + 1) : ℤ) : ℚ) * msPerDay
  | .year1, t =>
      if ((dayFromYear (yearFromDay (dayOfT t)) : ℤ) : ℚ) * msPerDay = t then t
      else ((dayFromYear (yearFromDay (dayOfT t) + 1) : ℤ) : ℚ) * msPerDay
  | .yearEvery k, t =>
      if k ≤ 1 then
        (if ((dayFromYear (yearFromDay (dayOfT t)) : ℤ) : ℚ) * msPerDay = t then t
         else ((dayFromYear (yearFromDay (dayOfT t) + 1) : ℤ) : ℚ) * msPerDay)
      else if ((dayFromYear (k * (yearFromDay (dayOfT t) / k)) : ℤ) : ℚ) * msPerDay = t then t
      else ((dayFromYear (k * (yearFromDay (dayOfT t) / k) + k) : ℤ) : ℚ) * msPerDay

/-- The step column (ms durations) of d3-time's tick-interval ladder. -/
def ladderSteps : List ℚ :=
  [1000, 5000, 15000, 30000, 60000, 300000, 900000, 1800000,
   3600000, 10800000, 21600000, 43200000, 86400000, 172800000,
   604800000, 2592000000, 7776000000, 31536000000]

/-- The interval column of the ladder, indexed as in d3-time. -/
def ladderInterval : ℕ → TInterval
  | 0 => .secondE 1
  | 1 => .secondE 5
  | 2 => .secondE 15
  | 3 => .secondE 30
  | 4 => .minuteE 1
  | 5 => .minuteE 5
  | 6 => .minuteE 15
  | 7 => .minuteE 30
  | 8 => .hourE 1
  | 9 => .hourE 3
  | 10 => .hourE 6
  | 11 => .hourE 12
  | 12 => .day1
  | 13 => .day2
  | 14 => .week
  | 15 => .month1
  | 16 => .month3
  | _ => .year1

/-- d3-time `tickInterval start stop count`: pick the ladder interval whose
step is nearest the target span-per-tick; below the ladder fall back to
`millisecond.every`, above it to `year.every` with a `tickStep` count
(`every` returns null — here `none` — for a non-positive count, in which
case `scale.nice` leaves the domain alone). -/
def timeTickInterval (start stop : ℚ) (count : ℕ) : Option TInterval :=
  let target := |stop - start| / count
  let i := ladderSteps.countP (fun st => decide (st ≤ target))
  if i = ladderSteps.length then
    let k := ⌊tickStepQ (start / 31536000000) (stop / 31536000000) count⌋
    if k ≤ 0 then none
    else if k = 1 then some .year1
    else some (.yearEvery k)
  else if i = 0 then
    some (.msEvery ⌊max (tickStepQ start stop count) 1⌋)
  else
    let sLo := ladderSteps.getD (i - 1) 1
    let sHi := ladderSteps.getD i 1
    some (ladderInterval (if target * target < sLo * sHi then i - 1 else i))

/-- `scale.nice()` on a time scale's domain (default count 10): floor the
lower endpoint and ceil the upper with the chosen tick interval (with
d3-scale's orientation-preserving swap for a reversed domain; every call
site here passes an ordered pair). -/
def niceTimePair (a b : ℚ) : ℚ × ℚ :=
  match timeTickInterval a b 10 with
  | none => (a, b)
  | some i =>
    if b < a then (i.ceilI a, i.floorI b)
    else (i.floorI a, i.ceilI b)

/-! ## Records, series descriptors, options, and the constructor

This embeds `getXDomain`, `getYDomain` and the `CartesianPlane`
constructor of `src/unnamed/part_006` (the revision whose constructor is
`(svgSelection, dataset, seriesConfig, options)` and whose series
descriptors carry a `field` accessor). The svg selection enters only
through its measured size, so the embedding takes the measured `width`
and `height` as parameters. -/

/-- A dataset record: a JS object used as a field-to-value map (property
access on an absent key yields `undefined`). -/
def Rec : Type := List (String × JSVal)

instance : DecidableEq Rec := by
  unfold Rec
  infer_instance

/-- JS property access `d[k]`. -/
def recGet (d : Rec) (k : String) : JSVal :=
  match d.find? (fun p => p.1 = k) with
  | some p => p.2
  | none => .undefV

/-- A series descriptor (`SeriesOptions` in types.ts): a value-extraction
function, a display label, and an optional colour. -/
structure SeriesOpt where
  field : Rec → JSVal
  label : String
  color : Option String := none

/-- Scatter series descriptor: adds the optional configured radius. -/
structure ScatterSeriesOpt extends SeriesOpt where
  radii : Option ℚ := none

/-- Custom-scatter series descriptor: adds the optional icon path string
and size factor. -/
structure CustomSeriesOpt extends SeriesOpt where
  icon : Option String := none
  size : Option JSNum := none

/-- The `seriesConfig` argument. A missing `xSerie` is `none`; a missing
`ySeries` array is identified with the empty list (both fail the same
constructor check). -/
structure SeriesConfig where
  xSerie : Option SeriesOpt
  ySeries : List SeriesOpt

/-- A margin box. -/
structure Margin where
  top : ℚ
  right : ℚ
  bottom : ℚ
  left : ℚ
deriving DecidableEq

/-- The chart options as passed by the caller (all optional). -/
structure OptionsIn where
  margin : Option Margin := none
  lineWidth : Option ℚ := none
  isCurved : Option Bool := none
  tickSize : Option ℚ := none
  tickPadding : Option ℚ := none
  isChartStatic : Option Bool := none

/-- The resolved options stored in `this.#options` (the constructor's
destructuring defaults; `transitionTime` is not stored by this revision,
so every later read of it yields `undefined` — transitions are modelled
by their end states anyway). -/
structure Options where
  margin : Margin
  lineWidth : ℚ
  isCurved : Bool
  tickSize : ℚ
  tickPadding : ℚ
  isChartStatic : Bool
deriving DecidableEq

/-- Apply the constructor's destructuring defaults. -/
def resolveOptions (o : OptionsIn) : Options where
  margin := o.margin.getD ⟨30, 30, 30, 30⟩
  lineWidth := o.lineWidth.getD (3 / 2)
  isCurved := o.isCurved.getD false
  tickSize := o.tickSize.getD 5
  tickPadding := o.tickPadding.getD 10
  isChartStatic := o.isChartStatic.getD false

/-- Result of `getXDomain`: either a `Date` pair or a numeric pair. -/
inductive XDomain where
  | dates (lo hi : ℚ)
  | nums (lo hi : JSNum)
deriving DecidableEq

/-- `Math.min` over a nonempty rational list (spread over timestamps). -/
def qListMin : List ℚ → ℚ
  | [] => 0
  | h :: tl => tl.foldl min h

/-- `Math.max` over a nonempty rational list. -/
def qListMax : List ℚ → ℚ
  | [] => 0
  | h :: tl => tl.foldl max h

/-- `values.map (v => (v as Date).getTime())` with JS throw semantics:
the first non-`Date` value aborts with its `TypeError`. -/
def mapGetTimes : List JSVal → Except String (List ℚ)
  | [] => Except.ok []
  | v :: vs =>
    match v.getTimeE with
    | Except.error e => Except.error e
    | Except.ok t =>
      match mapGetTimes vs with
      | Except.error e => Except.error e
      | Except.ok ts => Except.ok (t :: ts)

/-- `getXDomain dataset xAccessor` from part_006: keep the defined
extracted values, fail on an empty result, then branch on the type of the
first defined value: `Date`s go through `getTime` (a non-`Date` value
then throws a `TypeError`), numbers through `Number` coercion; anything
else throws. -/
def getXDomain (dataset : List Rec) (xAccessor : Rec → JSVal) : Except String XDomain :=
  let values := (dataset.map xAccessor).filter JSVal.isDefined
  match values with
  | [] => Except.error ("No values found for xKey in dataset")
  | first :: _ =>
    if first.isDate then
      match mapGetTimes values with
      | Except.error e => Except.error e
      | Except.ok timestamps =>
          Except.ok (XDomain.dates (qListMin timestamps) (qListMax timestamps))
    else if first.isNumber then
      Except.ok (XDomain.nums (JSNum.listMin (values.map JSVal.toNumber))
        (JSNum.listMax (values.map JSVal.toNumber)))
    else
      Except.error ("x values must be Date or number")

/-- `getYDomain dataset series` from part_006: all `Number`-coerced
extractions of every y descriptor on every record, dropping `NaN`s, then
`Math.min`/`Math.max` (so the empty value list yields the degenerate
domain `(Infinity, -Infinity)`). -/
def getYDomain (dataset : List Rec) (series : List SeriesOpt) : JSNum × JSNum :=
  let values := dataset.flatMap
    (fun d => (series.map (fun s => (s.field d).toNumber)).filter (fun v => ¬ v.isNaN))
  (JSNum.listMin values, JSNum.listMax values)

/-- A d3 linear scale as configured by the constructor: its (niced)
domain and its pixel range. -/
structure LinScale where
  domain : JSNum × JSNum
  range : ℚ × ℚ
deriving DecidableEq

/-- A d3 time scale as configured by the constructor. -/
structure TimeScale where
  domain : ℚ × ℚ
  range : ℚ × ℚ
deriving DecidableEq

/-- The x-scale: `scaleTime` or `scaleLinear` depending on the data. -/
inductive XScale where
  | time (s : TimeScale)
  | linear (s : LinScale)
deriving DecidableEq

/-- Whether the x-scale is a time scale. -/
def XScale.isTime : XScale → Bool
  | .time _ => true
  | _ => false

/-- The pixel range of the x-scale. -/
def XScale.range : XScale → ℚ × ℚ
  | .time s => s.range
  | .linear s => s.range

/-- A constructed `CartesianPlane`: the copied dataset and descriptors,
the resolved options, the measured svg size, and the derived scales. -/
structure Chart where
  width : ℚ
  height : ℚ
  dataset : List Rec
  xSerie : SeriesOpt
  ySeries : List SeriesOpt
  options : Options
  xScale : XScale
  yScale : LinScale

/-- The `CartesianPlane` constructor (part_006, svg-measuring revision):
resolve option defaults, validate the dataset and the series config,
shallow-copy dataset / descriptors, derive the x domain (possibly
throwing), build the niced x scale over `margin.left .. width -
margin.right`, and the niced linear y scale over the inverted range
`height - margin.bottom .. margin.top`. -/
def construct (width height : ℚ) (dataset : List Rec) (cfg : SeriesConfig)
    (optsIn : OptionsIn) : Except String Chart :=
  let opts := resolveOptions optsIn
  if dataset.isEmpty then Except.error ("Dataset must be a non-empty array.")
  else match cfg.xSerie with
  | none => Except.error ("seriesConfig must have xSerie and a non-empty ySeries array.")
  | some xs =>
    if cfg.ySeries.isEmpty then
      Except.error ("seriesConfig must have xSerie and a non-empty ySeries array.")
    else
      match getXDomain dataset xs.field with
      | Except.error e => Except.error e
      | Except.ok xdom =>
        let m := opts.margin
        let xrange : ℚ × ℚ := (m.left, width - m.right)
        let xScale : XScale :=
          match xdom with
          | .dates lo hi => .time ⟨niceTimePair lo hi, xrange⟩
          | .nums lo hi => .linear ⟨niceLinearPair (lo, hi), xrange⟩
        let ydom := getYDomain dataset cfg.ySeries
        Except.ok
          { width := width
            height := height
            dataset := dataset
            xSerie := xs
            ySeries := cfg.ySeries
            options := opts
            xScale := xScale
            yScale := ⟨niceLinearPair ydom, (height - m.bottom, m.top)⟩ }

/-! ## Applying scales

A d3 continuous scale coerces its input with unary `+`, normalises over
the domain (`(x - a) / (b - a)`, with the constant `1/2` for a degenerate
domain and `NaN` for an undefined one) and interpolates over the range
(`r0 * (1 - t) + r1 * t`). A `NaN` input makes the scale return its
`unknown` value (`undefined`); arithmetic on that value behaves as `NaN`,
which is how it is represented here. -/

/-- Interpolation core of a continuous scale over JS numbers. -/
def applyLinJS (domain : JSNum × JSNum) (range : ℚ × ℚ) (x : JSNum) : JSNum :=
  if x.isNaN then .nan
  else
    let d := domain.2.sub domain.1
    let t : JSNum :=
      if d = .fin 0 then .fin (1 / 2)
      else if d.isNaN then .nan
      else (x.sub domain.1).div d
    ((JSNum.fin range.1).mul ((JSNum.fin 1).sub t)).add ((JSNum.fin range.2).mul t)

/-- Apply the x-scale to an extracted value (time scales run the same
continuous machinery over timestamps). -/
def XScale.applyX : XScale → JSVal → JSNum
  | .linear s, v => applyLinJS s.domain s.range v.toNumber
  | .time s, v => applyLinJS (.fin s.domain.1, .fin s.domain.2) s.range v.toNumber

/-- Apply the y-scale to an extracted value. -/
def LinScale.applyY (s : LinScale) (v : JSVal) : JSNum :=
  applyLinJS s.domain s.range v.toNumber

/-! ## A small DOM model and the d3 by-index data join

The renderers use `selectAll(sel).data(ds).join(...)` with no key
function, i.e. a by-index join: existing elements matching the selector
are updated in place pairwise with the data, surplus elements are removed
(exit), surplus data produce new elements appended at the end of the
parent (enter), and non-matching siblings are untouched. The charts
select by class (and `data-label` attribute); descendant selection
coincides with child selection on targets that do not hide the marker
classes elsewhere, which the count theorems assume. -/

/-- An attribute value: strings, numbers, and structured stand-ins for
the few computed strings the renderers build (path data, transforms, and
the measured `getTotalLength` used by the line-reveal animation). -/
inductive AttrV where
  | s (v : String)
  | n (v : JSNum)
  | pathIcon (d : String)
  | pathCircle (r : JSNum)
  | pathLine (curved : Bool) (pts : List (JSNum × JSNum))
  | translateScale (x y k : JSNum)
  | dashLen (curved : Bool) (pts : List (JSNum × JSNum))
deriving DecidableEq

/-- A DOM element: tag, attributes (in document order), children. -/
inductive Node where
  | mk (tag : String) (attrs : List (String × AttrV)) (children : List Node)

/-- The tag of an element. -/
def Node.tag : Node → String
  | .mk t _ _ => t

/-- The attribute list of an element. -/
def Node.attrs : Node → List (String × AttrV)
  | .mk _ a _ => a

/-- The children of an element. -/
def Node.children : Node → List Node
  | .mk _ _ c => c

/-- Replace the children of an element. -/
def Node.withChildren (nd : Node) (cs : List Node) : Node :=
  .mk nd.tag nd.attrs cs

/-- Look up an attribute. -/
def Node.getAttr (nd : Node) (k : String) : Option AttrV :=
  match nd.attrs.find? (fun p => p.1 = k) with
  | some p => some p.2
  | none => none

/-- Set an attribute in place (append if absent), as `selection.attr`. -/
def setAttrList (k : String) (v : AttrV) : List (String × AttrV) → List (String × AttrV)
  | [] => [(k, v)]
  | (k', v') :: rest => if k' = k then (k, v) :: rest else (k', v') :: setAttrList k v rest

/-- `selection.attr k v` on one element. -/
def Node.setA (nd : Node) (k : String) (v : AttrV) : Node :=
  .mk nd.tag (setAttrList k v nd.attrs) nd.children

/-- `selection.attr k null` (attribute removal) on one element. -/
def Node.removeA (nd : Node) (k : String) : Node :=
  .mk nd.tag (nd.attrs.filter (fun p => ¬ p.1 = k)) nd.children

/-- Split a character list into whitespace-separated tokens (the CSS
class-token view of a class attribute), with an accumulator for the
token being read. -/
def tokensAux : List Char → List Char → List String
  | [], acc => if acc.isEmpty then [] else [String.mk acc.reverse]
  | ch :: rest, acc =>
    if ch = ' ' then
      if acc.isEmpty then tokensAux rest []
      else String.mk acc.reverse :: tokensAux rest []
    else tokensAux rest (ch :: acc)

/-- The class tokens of a class-attribute string. -/
def classTokens (s : String) : List String := tokensAux s.toList []

/-- CSS class-token test (`.foo` selector against the class attribute). -/
def Node.hasClass (nd : Node) (c : String) : Bool :=
  match nd.getAttr ("class") with
  | some (.s str) => (classTokens str).contains c
  | _ => false

/-- `[data-label="l"]` attribute test. -/
def Node.labelIs (nd : Node) (l : String) : Bool :=
  nd.getAttr ("data-label") = some (.s l)

/-- Walk the children in order, pairing selector-matching elements with
the data by index: matched elements beyond the data are dropped (exit),
matched element/datum pairs are updated in place, and the datums left
over are returned for the enter phase. -/
def joinGo {δ : Type} (pred : Node → Bool) (upd : δ → Node → Node) :
    List Node → List δ → List Node × List δ
  | [], ds => ([], ds)
  | c :: cs, ds =>
    if pred c then
      match ds with
      | [] => joinGo pred upd cs []
      | d :: ds' =>
        let r := joinGo pred upd cs ds'
        (upd d c :: r.1, r.2)
    else
      let r := joinGo pred upd cs ds
      (c :: r.1, r.2)

/-- The full by-index `data(ds).join(enter, update, exit)` on a parent's
child list: update/exit in place, enters appended at the end. -/
def joinByIndex {δ : Type} (cs : List Node) (pred : Node → Bool) (ds : List δ)
    (ent : δ → Node) (upd : δ → Node → Node) : List Node :=
  (joinGo pred upd cs ds).1 ++ (joinGo pred upd cs ds).2.map ent

/-! ## The chart renderers -/

/-- Walk the child list pairing the selector-matching elements (in
document order) with the data in order, applying `f`; used for the nested
join stage, where d3 hands each merged parent its bound datum. -/
def mapMatchedWith {δ : Type} (pred : Node → Bool) (f : δ → Node → Node) :
    List Node → List δ → List Node
  | [], _ => []
  | c :: cs, ds =>
    if pred c then
      match ds with
      | [] => c :: mapMatchedWith pred f cs []
      | d :: ds' => f d c :: mapMatchedWith pred f cs ds'
    else c :: mapMatchedWith pred f cs ds

/-- The per-record radius rule shared by the scatter renderers:
`typeof d.radii === "number" && !isNaN(d.radii) ? d.radii : fallback`. -/
def radiusOverride (d : Rec) (fallback : ℚ) : JSNum :=
  match recGet d ("radii") with
  | .num x => if x.isNaN then .fin fallback else x
  | _ => .fin fallback

/-- One datum of `ScatterChart.#renderSerie`'s mapped data. -/
structure ScatterDatum where
  x : JSVal
  y : JSVal
  color : String
  radius : JSNum
  label : String

/-- The circle produced by the scatter enter phase, with the transition
end state for `r` (it starts at 0 and transitions to the radius). -/
def scatterEnter (c : Chart) (dat : ScatterDatum) : Node :=
  Node.mk ("circle")
    [("class", .s ("scatter-point")), ("data-label", .s dat.label),
     ("fill", .s dat.color), ("r", .n dat.radius),
     ("cx", .n (c.xScale.applyX dat.x)), ("cy", .n (c.yScale.applyY dat.y))] []

/-- The scatter update phase: only `cx`/`cy` are transitioned. -/
def scatterUpdate (c : Chart) (dat : ScatterDatum) (nd : Node) : Node :=
  (nd.setA ("cx") (.n (c.xScale.applyX dat.x))).setA ("cy") (.n (c.yScale.applyY dat.y))

/-- The `svg.selectAll(".series").data([null]).join("g")` stage shared by
the renderers: one `g.series` child, keyed by the class. -/
def seriesGroupJoin (cs : List Node) : List Node :=
  joinByIndex cs (fun nd => nd.hasClass ("series")) [()]
    (fun _ => Node.mk ("g") [("class", AttrV.s ("series"))] [])
    (fun _ nd => nd.setA ("class") (.s ("series")))

/-- `ScatterChart.#renderSerie yField pointColor radii label`. -/
def scatterRenderSerie (c : Chart) (yField : Rec → JSVal) (pointColor : String)
    (radii : ℚ) (label : String) (svg : Node) : Node :=
  let data := c.dataset.map (fun d =>
    ScatterDatum.mk (c.xSerie.field d) (yField d) pointColor (radiusOverride d radii) label)
  let pred := fun nd => nd.hasClass ("scatter-point") && nd.labelIs label
  let cs1 := seriesGroupJoin svg.children
  Node.mk svg.tag svg.attrs (cs1.map (fun g =>
    if g.hasClass ("series") then
      g.withChildren (joinByIndex g.children pred data (scatterEnter c) (scatterUpdate c))
    else g))

/-- A `ScatterChart`: the base plane plus its scatter descriptors. -/
structure ScatterChart where
  base : Chart
  ySeriesS : List ScatterSeriesOpt

/-- The `ScatterChart` constructor: delegates every check to the base
constructor and keeps its own copy of the scatter descriptors. -/
def constructScatter (width height : ℚ) (dataset : List Rec) (xs : Option SeriesOpt)
    (ys : List ScatterSeriesOpt) (optsIn : OptionsIn) : Except String ScatterChart :=
  (construct width height dataset ⟨xs, ys.map (fun s => s.toSeriesOpt)⟩ optsIn).map
    (fun c => ⟨c, ys⟩)

/-- `ScatterChart.renderSeries`: one `#renderSerie` pass per descriptor,
with the parameter defaults `steelblue` / radius 4. -/
def scatterRenderSeries (sc : ScatterChart) (svg : Node) : Node :=
  sc.ySeriesS.foldl (fun acc s =>
    scatterRenderSerie sc.base s.field (s.color.getD ("steelblue")) (s.radii.getD 4) s.label acc) svg

/-- The per-record icon rule of `CustomScatterChart.#renderSerie`:
`d.icon ?? icon` (the nullish-coalescing keeps any defined record value,
of whatever type). -/
def iconOverride (d : Rec) (iconParam : String) : JSVal :=
  match recGet d ("icon") with
  | .nullV => .str iconParam
  | .undefV => .str iconParam
  | v => v

/-- The path-data rule: the icon if it is a nonempty string, else the
generated circle path of the given radius. -/
def pathDAttr (iconVal : JSVal) (radius : JSNum) : AttrV :=
  match iconVal with
  | .str s => if 0 < s.length then .pathIcon s else .pathCircle radius
  | _ => .pathCircle radius

/-- One datum of `CustomScatterChart.#renderSerie`'s mapped data. -/
structure CustomDatum where
  x : JSVal
  y : JSVal
  color : String
  radius : JSNum
  icon : JSVal
  label : String

/-- The path produced by the custom-scatter enter phase (transition end
state for the transform). -/
def customEnter (c : Chart) (size : JSNum) (dat : CustomDatum) : Node :=
  Node.mk ("path")
    [("class", .s ("scatter-point")), ("data-label", .s dat.label),
     ("d", pathDAttr dat.icon dat.radius), ("fill", .s dat.color),
     ("transform", .translateScale (c.xScale.applyX dat.x) (c.yScale.applyY dat.y) size)] []

/-- The custom-scatter update phase: only the transform is transitioned
(the path data is not rewritten on update). -/
def customUpdate (c : Chart) (size : JSNum) (dat : CustomDatum) (nd : Node) : Node :=
  nd.setA ("transform") (.translateScale (c.xScale.applyX dat.x) (c.yScale.applyY dat.y) size)

/-- `CustomScatterChart.#renderSerie yField pointColor icon size label`. -/
def customRenderSerie (c : Chart) (yField : Rec → JSVal) (pointColor : String)
    (iconParam : String) (size : JSNum) (label : String) (svg : Node) : Node :=
  let data := c.dataset.map (fun d =>
    CustomDatum.mk (c.xSerie.field d) (yField d) pointColor (radiusOverride d 4)
      (iconOverride d iconParam) label)
  let pred := fun nd => nd.hasClass ("scatter-point") && nd.labelIs label
  let cs1 := seriesGroupJoin svg.children
  Node.mk svg.tag svg.attrs (cs1.map (fun g =>
    if g.hasClass ("series") then
      g.withChildren (joinByIndex g.children pred data (customEnter c size) (customUpdate c size))
    else g))

/-- A `CustomScatterChart`: the base plane plus its descriptors. -/
structure CustomScatterChart where
  base : Chart
  ySeriesC : List CustomSeriesOpt

/-- The `CustomScatterChart` constructor. -/
def constructCustomScatter (width height : ℚ) (dataset : List Rec) (xs : Option SeriesOpt)
    (ys : List CustomSeriesOpt) (optsIn : OptionsIn) : Except String CustomScatterChart :=
  (construct width height dataset ⟨xs, ys.map (fun s => s.toSeriesOpt)⟩ optsIn).map
    (fun c => ⟨c, ys⟩)

/-- The validated size factor: `typeof size === "number" && size > 0 ?
size : 1`. -/
def customValidSize : Option JSNum → JSNum
  | some x => if JSNum.lt (.fin 0) x then x else .fin 1
  | none => .fin 1

/-- `CustomScatterChart.renderSeries`. -/
def customRenderSeries (cc : CustomScatterChart) (svg : Node) : Node :=
  cc.ySeriesC.foldl (fun acc s =>
    customRenderSerie cc.base s.field (s.color.getD ("steelblue")) (s.icon.getD (""))
      (customValidSize s.size) s.label acc) svg

/-- The coordinate list fed to the line generator for one y descriptor:
dataset order, mapped through both scales. -/
def lineCoords (c : Chart) (yField : Rec → JSVal) : List (JSNum × JSNum) :=
  c.dataset.map (fun d => (c.xScale.applyX (c.xSerie.field d), c.yScale.applyY (yField d)))

/-- The path produced by the line enter phase: the interpolated path data
and the dash-reveal animation end state (`stroke-dasharray` at the
measured total length, offset transitioned to 0). -/
def lineEnter (c : Chart) (s : SeriesOpt) : Node :=
  Node.mk ("path")
    [("class", .s ("serie")), ("data-label", .s s.label),
     ("d", .pathLine c.options.isCurved (lineCoords c s.field)),
     ("style:stroke", .s (s.color.getD ("steelblue"))),
     ("stroke-dasharray", .dashLen c.options.isCurved (lineCoords c s.field)),
     ("stroke-dashoffset", .n (.fin 0))] []

/-- The line update phase: drop the dash attributes, transition the
stroke style and the path data. -/
def lineUpdate (c : Chart) (s : SeriesOpt) (nd : Node) : Node :=
  (((nd.removeA ("stroke-dasharray")).removeA ("stroke-dashoffset")).setA
    ("style:stroke") (.s (s.color.getD ("steelblue")))).setA
    ("d") (.pathLine c.options.isCurved (lineCoords c s.field))

/-- The series-group enter phase of `LineChart.renderSeries`. -/
def lineGroupEnter (s : SeriesOpt) : Node :=
  Node.mk ("g") [("class", .s ("series-group")), ("data-label", .s s.label)] []

/-- The series-group update phase. -/
def lineGroupUpdate (s : SeriesOpt) (nd : Node) : Node :=
  (nd.setA ("class") (.s ("series-group"))).setA ("data-label") (.s s.label)

/-- The nested `.serie` join inside one series group. -/
def lineInnerJoin (c : Chart) (s : SeriesOpt) (g : Node) : Node :=
  g.withChildren (joinByIndex g.children (fun nd => nd.hasClass ("serie")) [s]
    (fun s' => lineEnter c s') (fun s' nd => lineUpdate c s' nd))

/-- `LineChart.renderSeries` (also `TimeChart`'s, which inherits it):
one `g.series-group` per y descriptor under the shared `g.series`, each
holding a single `.serie` path over the full coordinate list. -/
def lineRenderSeries (c : Chart) (svg : Node) : Node :=
  let cs1 := seriesGroupJoin svg.children
  Node.mk svg.tag svg.attrs (cs1.map (fun g =>
    if g.hasClass ("series") then
      g.withChildren
        (mapMatchedWith (fun nd => nd.hasClass ("series-group")) (lineInnerJoin c)
          (joinByIndex g.children (fun nd => nd.hasClass ("series-group")) c.ySeries
            lineGroupEnter lineGroupUpdate)
          c.ySeries)
    else g))

/-! ## Cursor tracking (`LineChart.#handleCursor` / `renderCursor`) -/

/-- The pointer-distance score of one record:
`Math.abs(xScale(xField d) - mouseX)`. -/
def cursorScore (c : Chart) (mouseX : ℚ) (d : Rec) : JSNum :=
  ((c.xScale.applyX (c.xSerie.field d)).sub (.fin mouseX)).abs

/-- The `reduce` of `#handleCursor`: a single linear scan keeping the
record whose x-pixel is strictly closer to the pointer, seeded with the
first record (so ties keep the earlier record). -/
def closestDatum (c : Chart) (mouseX : ℚ) : Option Rec :=
  match c.dataset with
  | [] => none
  | first :: _ =>
    some (c.dataset.foldl (fun closest d =>
      if JSNum.lt (cursorScore c mouseX d) (cursorScore c mouseX closest) then d else closest)
      first)

/-- The in-bounds test of `#handleCursor`: the pointer must lie within
the x-scale range and the y-scale range (the latter is destructured as
`[yMaxRange, yMinRange]` since the y range runs top value first). -/
def withinBounds (c : Chart) (mouseX mouseY : ℚ) : Bool :=
  decide (c.xScale.range.1 ≤ mouseX) && decide (mouseX ≤ c.xScale.range.2) &&
  decide (c.yScale.range.2 ≤ mouseY) && decide (mouseY ≤ c.yScale.range.1)

/-- The record the cursor handler selects for an in-bounds pointer
position (`none` when the pointer is out of bounds and the cursor
artifacts are removed instead). -/
def handleCursorSelect (c : Chart) (mouseX mouseY : ℚ) : Option Rec :=
  if withinBounds c mouseX mouseY then closestDatum c mouseX else none

/-- Removal of every `.cursor` element (modelled over the depths the
cursor renderer can place them: svg children, grandchildren and
great-grandchildren). -/
def cursorRemove (svg : Node) : Node :=
  Node.mk svg.tag svg.attrs
    ((svg.children.filter (fun c => ¬ c.hasClass ("cursor"))).map (fun c =>
      c.withChildren ((c.children.filter (fun cc => ¬ cc.hasClass ("cursor"))).map (fun cc =>
        cc.withChildren (cc.children.filter (fun c3 => ¬ c3.hasClass ("cursor")))))))

/-- One datum of `#renderCursor`'s series mapping. -/
structure CursorDatum where
  label : String
  color : String
  x : JSVal
  y : JSVal

/-- The circle `#renderCursor` draws (or re-draws) inside one series
group for the selected record. -/
def cursorPoint (c : Chart) (dat : CursorDatum) (nd : Node) : Node :=
  ((((((nd.setA ("class") (.s ("cursor point"))).setA ("data-label") (.s dat.label)).setA
    ("cx") (.n (c.xScale.applyX dat.x))).setA
    ("cy") (.n (c.yScale.applyY dat.y))).setA
    ("r") (.n (.fin 4))).setA
    ("stroke") (.s dat.color))

/-- The nested `.cursor.point` join inside one series group. -/
def cursorPointJoin (c : Chart) (dat : CursorDatum) (g : Node) : Node :=
  g.withChildren (joinByIndex g.children
    (fun nd => nd.hasClass ("cursor") && nd.hasClass ("point")) [dat]
    (fun dat' => cursorPoint c dat' (Node.mk ("circle") [] []))
    (fun dat' nd => cursorPoint c dat' nd))

/-- `LineChart.#renderCursor closestDatum`: per-descriptor circles under
the series groups plus the shared vertical guide line. -/
def cursorDraw (c : Chart) (cd : Rec) (svg : Node) : Node :=
  let data := c.ySeries.map (fun s =>
    CursorDatum.mk s.label (s.color.getD ("steelblue")) (c.xSerie.field cd) (s.field cd))
  let vline := fun (nd : Node) =>
    ((((nd.setA ("class") (.s ("cursor vertical-line"))).setA
      ("x1") (.n (c.xScale.applyX (c.xSerie.field cd)))).setA
      ("y1") (.n (.fin c.yScale.range.1))).setA
      ("x2") (.n (c.xScale.applyX (c.xSerie.field cd)))).setA
      ("y2") (.n (.fin c.yScale.range.2))
  let cs1 := seriesGroupJoin svg.children
  Node.mk svg.tag svg.attrs (cs1.map (fun g =>
    if g.hasClass ("series") then
      let cs2 := joinByIndex g.children (fun nd => nd.hasClass ("series-group")) data
        (fun dat => cursorPointJoin c dat (Node.mk ("g")
          [("class", .s ("series-group")), ("data-label", .s dat.label)] []))
        (fun dat nd => cursorPointJoin c dat
          ((nd.setA ("class") (.s ("series-group"))).setA ("data-label") (.s dat.label)))
      g.withChildren (joinByIndex cs2
        (fun nd => nd.hasClass ("cursor") && nd.hasClass ("vertical-line")) [cd]
        (fun _ => vline (Node.mk ("line") [] []))
        (fun _ nd => vline nd))
    else g))

/-- `#handleCursor`: remove the cursor artifacts when the pointer is out
of the plotted bounds, otherwise redraw them at the selected record. -/
def handleCursor (c : Chart) (mouse : ℚ × ℚ) (svg : Node) : Node :=
  if withinBounds c mouse.1 mouse.2 then
    match closestDatum c mouse.1 with
    | some cd => cursorDraw c cd svg
    | none => svg
  else cursorRemove svg

/-- The state of the render target: the tree plus the registered
`mousemove` listener. -/
structure SvgState where
  root : Node
  mousemove : Option (ℚ × ℚ → Node → Node)

/-- `LineChart.renderCursor`: a no-op in static mode, otherwise register
the cursor handler for pointer movement. -/
def renderCursor (c : Chart) (s : SvgState) : SvgState :=
  if c.options.isChartStatic then s
  else { s with mousemove := some (fun mouse nd => handleCursor c mouse nd) }

/-! ## Heap model for dataset ingestion (aliasing) -/

/-- The slice of the JS heap the dataset-copy claim is about: array
objects hold lists of record references, record objects hold field
maps. -/
structure JSHeap where
  arrays : ℕ → List ℕ
  recs : ℕ → Rec

/-- `this.#dataset = [...dataset]`: the constructor copies the array
(capturing the record references it currently contains), not the
records. -/
def datasetSnapshot (h : JSHeap) (arrRef : ℕ) : List ℕ :=
  h.arrays arrRef

/-- The records the chart sees when it later reads its dataset under heap
state `h`. -/
def viewDataset (snapshot : List ℕ) (h : JSHeap) : List Rec :=
  snapshot.map h.recs

/-- Spec-side definition (from the claim's words, for comparison): the
`q`-valued score used to state "the record minimizing the pixel
distance"; junk value 0 on non-finite scores, which the cursor theorem
excludes by hypothesis. -/
def scoreQ (c : Chart) (mouseX : ℚ) (d : Rec) : ℚ :=
  match cursorScore c mouseX d with
  | .fin q => q
  | _ => 0

/-- Spec-side definition (from the claim's words): the earliest record of
the dataset whose score is minimal over the whole dataset. -/
def specNearest (c : Chart) (mouseX : ℚ) : Option Rec :=
  c.dataset.find? (fun d => decide (∀ e ∈ c.dataset, scoreQ c mouseX d ≤ scoreQ c mouseX e))

/-- The side conditions under which the interval operations are used:
the fixed ladder intervals always carry a positive step (this holds for
every interval `timeTickInterval` can return). -/
def TInterval.valid : TInterval → Prop
  | .secondE k => 0 < k
  | .minuteE k => 0 < k
  | .hourE k => 0 < k
  | _ => True

/-! ## Counting drawn elements -/

/-- Count the elements satisfying `pred` within the depths the renderers
populate (children, grandchildren, great-grandchildren of the target). -/
def countDepth3 (pred : Node → Bool) (svg : Node) : ℕ :=
  (svg.children.map (fun c =>
    (if pred c then 1 else 0) +
    (c.children.map (fun cc =>
      (if pred cc then 1 else 0) + cc.children.countP pred)).sum)).sum

/-- The class tokens the renderers key their joins on. -/
def markedNode (nd : Node) : Bool :=
  nd.hasClass ("series") || nd.hasClass ("series-group") ||
  nd.hasClass ("serie") || nd.hasClass ("scatter-point")

/-- A clean render target: none of the join marker classes appear in it
(at the modelled depths). On such targets descendant selection and
child selection agree, so the join model is faithful. -/
def cleanTarget (svg : Node) : Bool :=
  decide (countDepth3 markedNode svg = 0)

/-- The children of the `g.series` container(s) of the target. -/
def seriesChildren (svg : Node) : List Node :=
  (svg.children.filter (fun c => c.hasClass ("series"))).flatMap Node.children

/-- The defined extracted x values, in dataset order (the list whose head
`getXDomain` inspects). -/
def definedXValues (dataset : List Rec) (f : Rec → JSVal) : List JSVal :=
  (dataset.map f).filter JSVal.isDefined

/-! # Theorems -/

/-! ## Outwardness of the linear nice -/

/-- Each rounding pass of the nice loop moves the lower endpoint down and
the upper endpoint up (or keeps them). -/
theorem niceRound_outward (start stop step : ℚ) (hs : step ≠ 0) :
    (niceRound start stop step).1 ≤ start ∧ stop ≤ (niceRound start stop step).2 := by
  unfold niceRound
  rcases lt_or_gt_of_ne hs with hneg | hpos
  · rw [if_neg (by linarith)]
    constructor
    · simp only
      rw [div_le_iff_of_neg hneg]
      exact Int.le_ceil _
    · simp only
      rw [le_div_iff_of_neg hneg]
      exact Int.floor_le _
  · rw [if_pos hpos]
    constructor
    · simp only
      calc ((⌊start / step⌋ : ℚ)) * step ≤ (start / step) * step := by
            exact mul_le_mul_of_nonneg_right (Int.floor_le _) (le_of_lt hpos)
        _ = start := div_mul_cancel₀ start hs
    · simp only
      calc stop = (stop / step) * step := (div_mul_cancel₀ stop hs).symm
        _ ≤ ((⌈stop / step⌉ : ℚ)) * step :=
            mul_le_mul_of_nonneg_right (Int.le_ceil _) (le_of_lt hpos)

/-- The nice loop only ever moves the endpoints outward. -/
theorem niceLoop_outward (count : ℕ) :
    ∀ (fuel : ℕ) (prestep : Option ℚ) (start stop s t : ℚ),
      niceLoop count fuel prestep start stop = some (s, t) → s ≤ start ∧ stop ≤ t := by
  intro fuel
  induction fuel with
  | zero => intro prestep start stop s t h; simp [niceLoop] at h
  | succ n ih =>
    intro prestep start stop s t h
    rw [niceLoop] at h
    by_cases hpre : prestep = some (tickIncrementQ start stop count)
    · rw [if_pos hpre] at h
      simp only [Option.some.injEq, Prod.mk.injEq] at h
      exact ⟨le_of_eq h.1.symm, le_of_eq h.2⟩
    · rw [if_neg hpre] at h
      by_cases hz : tickIncrementQ start stop count ≠ 0
      · rw [if_pos hz] at h
        have hrec := ih (some (tickIncrementQ start stop count))
          (niceRound start stop (tickIncrementQ start stop count)).1
          (niceRound start stop (tickIncrementQ start stop count)).2 s t h
        have hout := niceRound_outward start stop (tickIncrementQ start stop count) hz
        exact ⟨le_trans hrec.1 hout.1, le_trans hout.2 hrec.2⟩
      · rw [if_neg hz] at h
        exact absurd h (by simp)

/-- `linear.nice()` on an ordered finite domain only widens it. -/
theorem niceLinearPair_outward (a b : ℚ) (hab : a ≤ b) :
    ∃ s t, niceLinearPair (.fin a, .fin b) = (.fin s, .fin t) ∧ s ≤ a ∧ b ≤ t := by
  show ∃ s t,
    (if b < a then
      match niceLoop 10 10 none b a with
      | some (s, t) => (JSNum.fin t, JSNum.fin s)
      | none => (JSNum.fin a, JSNum.fin b)
    else
      match niceLoop 10 10 none a b with
      | some (s, t) => (JSNum.fin s, JSNum.fin t)
      | none => (JSNum.fin a, JSNum.fin b)) = (.fin s, .fin t) ∧ s ≤ a ∧ b ≤ t
  rw [if_neg (not_lt_of_le hab)]
  cases h : niceLoop 10 10 none a b with
  | none => exact ⟨a, b, rfl, le_refl a, le_refl b⟩
  | some p =>
    obtain ⟨s, t⟩ := p
    have := niceLoop_outward 10 10 none a b s t h
    exact ⟨s, t, rfl, this.1, this.2⟩

/-! ## Outwardness of the time nice: calendar lemmas -/

/-- `dayFromYear` is monotone. -/
theorem dayFromYear_mono {a b : ℤ} (h : a ≤ b) : dayFromYear a ≤ dayFromYear b := by
  unfold dayFromYear
  omega

/-- The candidate search of `YearFromTime` brackets its day number as
long as the initial approximation is the floored 400-year estimate. -/
theorem yearFromDayAux_bracket (n y : ℤ)
    (hy : 146097 * (y - 1970) ≤ 400 * n ∧ 400 * n < 146097 * (y - 1969)) :
    dayFromYear (yearFromDayAux n y) ≤ n ∧ n < dayFromYear (yearFromDayAux n y + 1) := by
  unfold yearFromDayAux
  split_ifs with h1 h2 <;> unfold dayFromYear at * <;> ring_nf at * <;> omega

/-- `YearFromTime` is the year whose first day is at or before the given
day, with the next year's first day strictly after it. -/
theorem yearFromDay_bracket (n : ℤ) :
    dayFromYear (yearFromDay n) ≤ n ∧ n < dayFromYear (yearFromDay n + 1) := by
  apply yearFromDayAux_bracket
  constructor <;> omega

/-- The day-within-year is nonnegative. -/
theorem dinOfDay_nonneg (n : ℤ) : 0 ≤ dinOfDay n := by
  unfold dinOfDay
  have := yearFromDay_bracket n
  omega

set_option maxHeartbeats 800000 in
/-- The month read off the day-within-year is between 1 and 12. -/
theorem monthFromDin_range (leap : Bool) (din : ℤ) :
    1 ≤ monthFromDin leap din ∧ monthFromDin leap din ≤ 12 := by
  unfold monthFromDin
  cases leap <;> simp only [leapInd] <;> omega

set_option maxHeartbeats 800000 in
/-- `cumDaysBefore` is monotone in the month. -/
theorem cumDaysBefore_mono (leap : Bool) {m1 m2 : ℤ} (h : m1 ≤ m2) :
    cumDaysBefore leap m1 ≤ cumDaysBefore leap m2 := by
  unfold cumDaysBefore
  cases leap <;> simp only [leapInd] <;> omega

set_option maxHeartbeats 800000 in
/-- The month's first day is at or before the given day-within-year. -/
theorem cumDaysBefore_monthFromDin_le (leap : Bool) (din : ℤ) (h : 0 ≤ din) :
    cumDaysBefore leap (monthFromDin leap din) ≤ din := by
  unfold cumDaysBefore monthFromDin
  cases leap <;> simp only [leapInd] <;> omega

set_option maxHeartbeats 800000 in
/-- Below December, the next month starts strictly after the given
day-within-year. -/
theorem lt_cumDaysBefore_next (leap : Bool) (din : ℤ)
    (h : monthFromDin leap din ≤ 11) :
    din < cumDaysBefore leap (monthFromDin leap din + 1) := by
  unfold cumDaysBefore monthFromDin at *
  cases leap <;> simp only [leapInd] at * <;> omega

/-- The quarter start month `m - (m - 1) % 3` is at most `m` and at most
two months earlier. -/
theorem quarterMonth_bounds (m : ℤ) : m - 2 ≤ m - (m - 1) % 3 ∧ m - (m - 1) % 3 ≤ m := by
  omega

/-- A positive-step grid floor is at or below the input. -/
theorem gridFloor_le {dur : ℚ} (hd : 0 < dur) (t : ℚ) : gridFloor dur t ≤ t := by
  unfold gridFloor
  calc ((⌊t / dur⌋ : ℚ)) * dur ≤ (t / dur) * dur :=
        mul_le_mul_of_nonneg_right (Int.floor_le _) (le_of_lt hd)
    _ = t := div_mul_cancel₀ t (ne_of_gt hd)

/-- A positive-step grid ceiling is at or above the input. -/
theorem le_gridCeil {dur : ℚ} (hd : 0 < dur) (t : ℚ) : t ≤ gridCeil dur t := by
  unfold gridCeil
  calc t = (t / dur) * dur := (div_mul_cancel₀ t (ne_of_gt hd)).symm
    _ ≤ ((⌈t / dur⌉ : ℚ)) * dur :=
        mul_le_mul_of_nonneg_right (Int.le_ceil _) (le_of_lt hd)

/-- `msPerDay` is positive. -/
theorem msPerDay_pos : (0 : ℚ) < msPerDay := by norm_num [msPerDay]

/-- The start of the day containing `t` is at or before `t`. -/
theorem dayOfT_le (t : ℚ) : ((dayOfT t : ℤ) : ℚ) * msPerDay ≤ t := by
  unfold dayOfT
  exact gridFloor_le msPerDay_pos t

/-- `t` lies strictly before the start of the next day. -/
theorem lt_dayOfT_succ (t : ℚ) : t < ((dayOfT t + 1 : ℤ) : ℚ) * msPerDay := by
  unfold dayOfT
  have h := Int.lt_floor_add_one (t / msPerDay)
  have h2 : t / msPerDay * msPerDay < ((⌊t / msPerDay⌋ + 1 : ℤ) : ℚ) * msPerDay := by
    push_cast
    exact mul_lt_mul_of_pos_right (by linarith) msPerDay_pos
  calc t = t / msPerDay * msPerDay := (div_mul_cancel₀ t (ne_of_gt msPerDay_pos)).symm
    _ < ((⌊t / msPerDay⌋ + 1 : ℤ) : ℚ) * msPerDay := h2

/-- Transfer a day-number inequality to timestamps: if day `a` is at or
before the day containing `t`, its start is at or before `t`. -/
theorem dayLe_ms {a : ℤ} {t : ℚ} (h : a ≤ dayOfT t) : ((a : ℤ) : ℚ) * msPerDay ≤ t := by
  calc ((a : ℤ) : ℚ) * msPerDay ≤ ((dayOfT t : ℤ) : ℚ) * msPerDay := by
        apply mul_le_mul_of_nonneg_right _ (le_of_lt msPerDay_pos)
        exact_mod_cast h
    _ ≤ t := dayOfT_le t

/-- Transfer a strict day-number inequality to timestamps: if the day
containing `t` is strictly before day `b`, then `t` is strictly before
the start of day `b`. -/
theorem ms_lt_day {b : ℤ} {t : ℚ} (h : dayOfT t < b) : t < ((b : ℤ) : ℚ) * msPerDay := by
  calc t < ((dayOfT t + 1 : ℤ) : ℚ) * msPerDay := lt_dayOfT_succ t
    _ ≤ ((b : ℤ) : ℚ) * msPerDay := by
        apply mul_le_mul_of_nonneg_right _ (le_of_lt msPerDay_pos)
        exact_mod_cast h

/-- Every reachable d3-time interval floors at or below the input. -/
theorem tfloorI_le (I : TInterval) (hI : I.valid) (t : ℚ) : I.floorI t ≤ t := by
  cases I with
  | msEvery k =>
    simp only [TInterval.floorI]
    by_cases hk : k ≤ 1
    · rw [if_pos hk]
    · rw [if_neg hk]
      exact gridFloor_le (by exact_mod_cast (by omega : (0 : ℤ) < k)) t
  | secondE k =>
    exact gridFloor_le (by have : (0 : ℚ) < k := hI; linarith) t
  | minuteE k =>
    exact gridFloor_le (by have : (0 : ℚ) < k := hI; linarith) t
  | hourE k =>
    exact gridFloor_le (by have : (0 : ℚ) < k := hI; linarith) t
  | day1 => exact gridFloor_le msPerDay_pos t
  | day2 =>
    simp only [TInterval.floorI]
    split_ifs
    · exact gridFloor_le msPerDay_pos t
    · have := gridFloor_le msPerDay_pos t
      have := msPerDay_pos
      linarith
  | week =>
    simp only [TInterval.floorI]
    apply dayLe_ms
    have := Int.emod_nonneg (dayOfT t - 3) (by norm_num : (7 : ℤ) ≠ 0)
    omega
  | month1 =>
    simp only [TInterval.floorI]
    unfold monthStartMs
    apply dayLe_ms
    have hb := yearFromDay_bracket (dayOfT t)
    have hc := cumDaysBefore_monthFromDin_le (isLeapYear (yearFromDay (dayOfT t)))
      (dinOfDay (dayOfT t)) (dinOfDay_nonneg (dayOfT t))
    unfold dinOfDay at *
    omega
  | month3 =>
    simp only [TInterval.floorI]
    unfold quarterStartMs
    apply dayLe_ms
    have hb := yearFromDay_bracket (dayOfT t)
    have hc := cumDaysBefore_monthFromDin_le (isLeapYear (yearFromDay (dayOfT t)))
      (dinOfDay (dayOfT t)) (dinOfDay_nonneg (dayOfT t))
    have hq := quarterMonth_bounds (monthFromDin (isLeapYear (yearFromDay (dayOfT t))) (dinOfDay (dayOfT t)))
    have hm := cumDaysBefore_mono (isLeapYear (yearFromDay (dayOfT t))) hq.2
    unfold dinOfDay at *
    omega
  | year1 =>
    simp only [TInterval.floorI]
    apply dayLe_ms
    exact (yearFromDay_bracket (dayOfT t)).1
  | yearEvery k =>
    simp only [TInterval.floorI]
    split_ifs with hk
    · apply dayLe_ms
      exact (yearFromDay_bracket (dayOfT t)).1
    · apply dayLe_ms
      have hb := (yearFromDay_bracket (dayOfT t)).1
      have hdiv := Int.ediv_add_emod (yearFromDay (dayOfT t)) k
      have hmod := Int.emod_nonneg (yearFromDay (dayOfT t)) (by omega : k ≠ 0)
      have hle : k * (yearFromDay (dayOfT t) / k) ≤ yearFromDay (dayOfT t) := by omega
      exact le_trans (dayFromYear_mono hle) hb

/-- Every reachable d3-time interval ceils at or above the input. -/
theorem le_tceilI (I : TInterval) (hI : I.valid) (t : ℚ) : t ≤ I.ceilI t := by
  cases I with
  | msEvery k =>
    simp only [TInterval.ceilI]
    by_cases hk : k ≤ 1
    · rw [if_pos hk]
    · rw [if_neg hk]
      exact le_gridCeil (by exact_mod_cast (by omega : (0 : ℤ) < k)) t
  | secondE k =>
    exact le_gridCeil (by have : (0 : ℚ) < k := hI; linarith) t
  | minuteE k =>
    exact le_gridCeil (by have : (0 : ℚ) < k := hI; linarith) t
  | hourE k =>
    exact le_gridCeil (by have : (0 : ℚ) < k := hI; linarith) t
  | day1 => exact le_gridCeil msPerDay_pos t
  | day2 =>
    simp only [TInterval.ceilI]
    split_ifs
    · exact le_gridCeil msPerDay_pos t
    · have := le_gridCeil msPerDay_pos t
      have := msPerDay_pos
      linarith
  | week =>
    simp only [TInterval.ceilI]
    split_ifs with ha
    · exact le_refl t
    · simp only [TInterval.floorI]
      have hmod := Int.emod_nonneg (dayOfT t - 3) (by norm_num : (7 : ℤ) ≠ 0)
      have hmod2 := Int.emod_lt_of_pos (dayOfT t - 3) (by norm_num : (0 : ℤ) < 7)
      have hlt : t < ((dayOfT t - (dayOfT t - 3) % 7 + 7 : ℤ) : ℚ) * msPerDay :=
        ms_lt_day (by omega)
      push_cast at hlt ⊢
      linarith
  | month1 =>
    simp only [TInterval.ceilI]
    split_ifs with ha hm
    · exact le_refl t
    · apply le_of_lt
      apply ms_lt_day
      have hb := yearFromDay_bracket (dayOfT t)
      have hc := lt_cumDaysBefore_next (isLeapYear (yearFromDay (dayOfT t)))
        (dinOfDay (dayOfT t)) hm
      unfold dinOfDay at *
      omega
    · apply le_of_lt
      apply ms_lt_day
      exact (yearFromDay_bracket (dayOfT t)).2
  | month3 =>
    simp only [TInterval.ceilI]
    split_ifs with ha hm
    · exact le_refl t
    · apply le_of_lt
      apply ms_lt_day
      have hb := yearFromDay_bracket (dayOfT t)
      have hq := quarterMonth_bounds (monthFromDin (isLeapYear (yearFromDay (dayOfT t))) (dinOfDay (dayOfT t)))
      have hc := lt_cumDaysBefore_next (isLeapYear (yearFromDay (dayOfT t)))
        (dinOfDay (dayOfT t)) (by omega)
      have hmn := cumDaysBefore_mono (isLeapYear (yearFromDay (dayOfT t)))
        (by omega : monthFromDin (isLeapYear (yearFromDay (dayOfT t))) (dinOfDay (dayOfT t)) + 1 ≤
          monthFromDin (isLeapYear (yearFromDay (dayOfT t))) (dinOfDay (dayOfT t)) -
          (monthFromDin (isLeapYear (yearFromDay (dayOfT t))) (dinOfDay (dayOfT t)) - 1) % 3 + 3)
      unfold dinOfDay at *
      omega
    · apply le_of_lt
      apply ms_lt_day
      exact (yearFromDay_bracket (dayOfT t)).2
  | year1 =>
    simp only [TInterval.ceilI]
    split_ifs with ha
    · exact le_refl t
    · exact le_of_lt (ms_lt_day (yearFromDay_bracket (dayOfT t)).2)
  | yearEvery k =>
    simp only [TInterval.ceilI]
    split_ifs with hk ha ha
    · exact le_refl t
    · exact le_of_lt (ms_lt_day (yearFromDay_bracket (dayOfT t)).2)
    · exact le_refl t
    · apply le_of_lt
      apply ms_lt_day
      have hb := (yearFromDay_bracket (dayOfT t)).2
      have hdiv := Int.ediv_add_emod (yearFromDay (dayOfT t)) k
      have hmod := Int.emod_lt_of_pos (yearFromDay (dayOfT t)) (by omega : (0 : ℤ) < k)
      have hle : yearFromDay (dayOfT t) + 1 ≤ k * (yearFromDay (dayOfT t) / k) + k := by omega
      exact lt_of_lt_of_le hb (dayFromYear_mono hle)

/-- Every ladder interval satisfies the side conditions. -/
theorem ladderInterval_valid (i : ℕ) : (ladderInterval i).valid := by
  unfold ladderInterval
  split <;> simp only [TInterval.valid] <;> norm_num

/-- Every interval `timeTickInterval` returns satisfies the side
conditions. -/
theorem timeTickInterval_valid (a b : ℚ) (c : ℕ) (I : TInterval)
    (h : timeTickInterval a b c = some I) : I.valid := by
  unfold timeTickInterval at h
  dsimp only [] at h
  split_ifs at h
  all_goals first
    | (obtain rfl := Option.some.inj h; trivial)
    | (obtain rfl := Option.some.inj h; exact ladderInterval_valid _)

/-- `time.nice()` on an ordered domain only widens it. -/
theorem niceTimePair_outward (a b : ℚ) (hab : a ≤ b) :
    (niceTimePair a b).1 ≤ a ∧ b ≤ (niceTimePair a b).2 := by
  unfold niceTimePair
  cases h : timeTickInterval a b 10 with
  | none => exact ⟨le_refl a, le_refl b⟩
  | some i =>
    have hv := timeTickInterval_valid a b 10 i h
    simp only [if_neg (not_lt_of_le hab)]
    exact ⟨tfloorI_le i hv a, le_tceilI i hv b⟩

/-! ## Order facts about JS min/max -/

/-- JS `<=` is reflexive away from `NaN`. -/
theorem jsle_refl {a : JSNum} (h : ¬ a.isNaN = true) : a.le a = true := by
  cases a <;> simp_all [JSNum.le, JSNum.isNaN]

/-- JS `<=` is transitive. -/
theorem jsle_trans {a b c : JSNum} (h1 : a.le b = true) (h2 : b.le c = true) :
    a.le c = true := by
  cases a <;> cases b <;> cases c <;> simp_all [JSNum.le] <;> linarith

/-- JS `<=` is total away from `NaN`. -/
theorem jsle_total {a b : JSNum} (ha : ¬ a.isNaN = true) (hb : ¬ b.isNaN = true) :
    a.le b = true ∨ b.le a = true := by
  cases a <;> cases b <;> simp_all [JSNum.le, JSNum.isNaN] <;> exact le_total _ _

/-- `Math.min` of non-`NaN` inputs is not `NaN`. -/
theorem min2_not_nan {a b : JSNum} (ha : ¬ a.isNaN = true) (hb : ¬ b.isNaN = true) :
    ¬ (JSNum.min2 a b).isNaN = true := by
  unfold JSNum.min2
  rw [if_neg (by simp_all)]
  split_ifs <;> assumption

/-- `Math.max` of non-`NaN` inputs is not `NaN`. -/
theorem max2_not_nan {a b : JSNum} (ha : ¬ a.isNaN = true) (hb : ¬ b.isNaN = true) :
    ¬ (JSNum.max2 a b).isNaN = true := by
  unfold JSNum.max2
  rw [if_neg (by simp_all)]
  split_ifs <;> assumption

/-- `Math.min` is a lower bound of its two non-`NaN` inputs. -/
theorem min2_le_left {a b : JSNum} (ha : ¬ a.isNaN = true) (hb : ¬ b.isNaN = true) :
    (JSNum.min2 a b).le a = true := by
  unfold JSNum.min2
  rw [if_neg (by simp_all)]
  split_ifs with h
  · exact jsle_refl ha
  · rcases jsle_total ha hb with hc | hc
    · exact absurd hc h
    · exact hc

/-- `Math.max` is an upper bound of its two non-`NaN` inputs. -/
theorem le_max2_left {a b : JSNum} (ha : ¬ a.isNaN = true) (hb : ¬ b.isNaN = true) :
    a.le (JSNum.max2 a b) = true := by
  unfold JSNum.max2
  rw [if_neg (by simp_all)]
  split_ifs with h
  · exact h
  · exact jsle_refl ha

/-- Folding `Math.min` over non-`NaN` values stays at or below the seed
and produces no `NaN`. -/
theorem foldl_min2_le (l : List JSNum) :
    ∀ acc : JSNum, ¬ acc.isNaN = true → (∀ v ∈ l, ¬ v.isNaN = true) →
      (l.foldl JSNum.min2 acc).le acc = true ∧ ¬ (l.foldl JSNum.min2 acc).isNaN = true := by
  induction l with
  | nil => intro acc ha _; exact ⟨jsle_refl ha, ha⟩
  | cons h t ih =>
    intro acc ha hall
    have hh : ¬ h.isNaN = true := hall h (List.mem_cons_self h t)
    have hmin := min2_not_nan ha hh
    have hrec := ih (JSNum.min2 acc h) hmin (fun v hv => hall v (List.mem_cons_of_mem h hv))
    refine ⟨jsle_trans hrec.1 ?_, hrec.2⟩
    exact min2_le_left ha hh

/-- Folding `Math.max` over non-`NaN` values stays at or above the seed
and produces no `NaN`. -/
theorem le_foldl_max2 (l : List JSNum) :
    ∀ acc : JSNum, ¬ acc.isNaN = true → (∀ v ∈ l, ¬ v.isNaN = true) →
      acc.le (l.foldl JSNum.max2 acc) = true ∧ ¬ (l.foldl JSNum.max2 acc).isNaN = true := by
  induction l with
  | nil => intro acc ha _; exact ⟨jsle_refl ha, ha⟩
  | cons h t ih =>
    intro acc ha hall
    have hh : ¬ h.isNaN = true := hall h (List.mem_cons_self h t)
    have hmax := max2_not_nan ha hh
    have hrec := ih (JSNum.max2 acc h) hmax (fun v hv => hall v (List.mem_cons_of_mem h hv))
    refine ⟨jsle_trans ?_ hrec.1, hrec.2⟩
    exact le_max2_left ha hh

/-- `Math.min(posInf, a) = a` for a non-`NaN` value. -/
theorem min2_posInf {a : JSNum} (ha : ¬ a.isNaN = true) :
    JSNum.min2 .posInf a = a := by
  cases a <;> simp_all [JSNum.min2, JSNum.le, JSNum.isNaN]

/-- `Math.max(negInf, a) = a` for a non-`NaN` value. -/
theorem max2_negInf {a : JSNum} (ha : ¬ a.isNaN = true) :
    JSNum.max2 .negInf a = a := by
  cases a <;> simp_all [JSNum.max2, JSNum.le, JSNum.isNaN]

/-- For a nonempty `NaN`-free list, `Math.min(...l)` is a non-`NaN` value
at or below `Math.max(...l)`. -/
theorem listMin_le_listMax {l : List JSNum} (hne : l ≠ [])
    (hall : ∀ v ∈ l, ¬ v.isNaN = true) :
    ¬ (JSNum.listMin l).isNaN = true ∧ ¬ (JSNum.listMax l).isNaN = true ∧
      (JSNum.listMin l).le (JSNum.listMax l) = true := by
  cases l with
  | nil => exact absurd rfl hne
  | cons h t =>
    have hh : ¬ h.isNaN = true := hall h (List.mem_cons_self h t)
    have htall : ∀ v ∈ t, ¬ v.isNaN = true := fun v hv => hall v (List.mem_cons_of_mem h hv)
    have hmin : JSNum.listMin (h :: t) = t.foldl JSNum.min2 h := by
      unfold JSNum.listMin
      rw [List.foldl_cons, min2_posInf hh]
    have hmax : JSNum.listMax (h :: t) = t.foldl JSNum.max2 h := by
      unfold JSNum.listMax
      rw [List.foldl_cons, max2_negInf hh]
    have h1 := foldl_min2_le t h hh htall
    have h2 := le_foldl_max2 t h hh htall
    rw [hmin, hmax]
    exact ⟨h1.2, h2.2, jsle_trans h1.1 h2.1⟩

/-- `Math.min` over a nonempty rational list is at most `Math.max`. -/
theorem qListMin_le_qListMax {l : List ℚ} (hne : l ≠ []) :
    qListMin l ≤ qListMax l := by
  cases l with
  | nil => exact absurd rfl hne
  | cons h t =>
    unfold qListMin qListMax
    have h1 : ∀ (t' : List ℚ) (acc : ℚ), t'.foldl min acc ≤ acc := by
      intro t'
      induction t' with
      | nil => intro acc; exact le_refl acc
      | cons x xs ih =>
        intro acc
        exact le_trans (ih (min acc x)) (min_le_left acc x)
    have h2 : ∀ (t' : List ℚ) (acc : ℚ), acc ≤ t'.foldl max acc := by
      intro t'
      induction t' with
      | nil => intro acc; exact le_refl acc
      | cons x xs ih =>
        intro acc
        exact le_trans (le_max_left acc x) (ih (max acc x))
    exact le_trans (h1 t h) (h2 t h)

/-- `linear.nice` only widens any `NaN`-free ordered domain pair (the
non-finite cases are left unchanged by the traced JS loop). -/
theorem niceLinearPair_outward_js (lo hi : JSNum) (hlo : ¬ lo.isNaN = true)
    (hhi : ¬ hi.isNaN = true) (hle : lo.le hi = true) :
    ((niceLinearPair (lo, hi)).1).le lo = true ∧ hi.le ((niceLinearPair (lo, hi)).2) = true := by
  cases lo with
  | fin a =>
    cases hi with
    | fin b =>
      have hab : a ≤ b := by simpa [JSNum.le] using hle
      obtain ⟨s, t, heq, hs, ht⟩ := niceLinearPair_outward a b hab
      rw [heq]
      exact ⟨by simpa [JSNum.le] using hs, by simpa [JSNum.le] using ht⟩
    | nan => simp [JSNum.isNaN] at hhi
    | posInf => exact ⟨by simp [niceLinearPair, JSNum.le], by simp [niceLinearPair, JSNum.le]⟩
    | negInf => exact absurd hle (by simp [JSNum.le])
  | nan => simp [JSNum.isNaN] at hlo
  | posInf =>
    cases hi with
    | fin b => exact absurd hle (by simp [JSNum.le])
    | nan => simp [JSNum.isNaN] at hhi
    | posInf => exact ⟨by simp [niceLinearPair, JSNum.le], by simp [niceLinearPair, JSNum.le]⟩
    | negInf => exact absurd hle (by simp [JSNum.le])
  | negInf =>
    cases hi with
    | fin b => exact ⟨by simp [niceLinearPair, JSNum.le], by simp [niceLinearPair, JSNum.le]⟩
    | nan => simp [JSNum.isNaN] at hhi
    | posInf => exact ⟨by simp [niceLinearPair, JSNum.le], by simp [niceLinearPair, JSNum.le]⟩
    | negInf => exact ⟨by simp [niceLinearPair, JSNum.le], by simp [niceLinearPair, JSNum.le]⟩

/-- Mapping `getTime` over a list of `Date` values succeeds. -/
theorem mapGetTimes_ok {l : List JSVal} (h : ∀ v ∈ l, v.isDate = true) :
    ∃ ts : List ℚ, mapGetTimes l = Except.ok ts := by
  induction l with
  | nil => exact ⟨[], rfl⟩
  | cons v vs ih =>
    have hv := h v (List.mem_cons_self v vs)
    cases v with
    | date t =>
      obtain ⟨ts, hts⟩ := ih (fun u hu => h u (List.mem_cons_of_mem _ hu))
      exact ⟨t :: ts, by simp [mapGetTimes, JSVal.getTimeE, hts]⟩
    | num x => simp [JSVal.isDate] at hv
    | str s => simp [JSVal.isDate] at hv
    | boolV b => simp [JSVal.isDate] at hv
    | nullV => simp [JSVal.isDate] at hv
    | undefV => simp [JSVal.isDate] at hv

/-- Mapping `getTime` fails exactly when some value is not a `Date`. -/
theorem mapGetTimes_error_iff {l : List JSVal} :
    (∃ e, mapGetTimes l = Except.error e) ↔ ∃ u ∈ l, u.isDate = false := by
  induction l with
  | nil =>
    constructor
    · rintro ⟨e, he⟩
      exact absurd he (by simp [mapGetTimes])
    · rintro ⟨u, hu, _⟩
      exact absurd hu (List.not_mem_nil u)
  | cons v vs ih =>
    cases v with
    | date t =>
      constructor
      · rintro ⟨e, he⟩
        simp only [mapGetTimes, JSVal.getTimeE] at he
        cases hvs : mapGetTimes vs with
        | error e' =>
          obtain ⟨u, hu, hud⟩ := ih.mp ⟨e', hvs⟩
          exact ⟨u, List.mem_cons_of_mem _ hu, hud⟩
        | ok ts => rw [hvs] at he; exact absurd he (by simp)
      · rintro ⟨u, hu, hud⟩
        rcases List.mem_cons.mp hu with rfl | hmem
        · simp [JSVal.isDate] at hud
        · obtain ⟨e, he⟩ := ih.mpr ⟨u, hmem, hud⟩
          exact ⟨e, by simp [mapGetTimes, JSVal.getTimeE, he]⟩
    | num x => exact ⟨fun _ => ⟨.num x, List.mem_cons_self _ _, rfl⟩, fun _ => ⟨_, rfl⟩⟩
    | str s => exact ⟨fun _ => ⟨.str s, List.mem_cons_self _ _, rfl⟩, fun _ => ⟨_, rfl⟩⟩
    | boolV b => exact ⟨fun _ => ⟨.boolV b, List.mem_cons_self _ _, rfl⟩, fun _ => ⟨_, rfl⟩⟩
    | nullV => exact ⟨fun _ => ⟨.nullV, List.mem_cons_self _ _, rfl⟩, fun _ => ⟨_, rfl⟩⟩
    | undefV => exact ⟨fun _ => ⟨.undefV, List.mem_cons_self _ _, rfl⟩, fun _ => ⟨_, rfl⟩⟩

/-! ## Reducing the constructor -/

/-- The constructor on inputs that pass validation: the result is decided
by `getXDomain`, with the scales as built in part_006. -/
theorem construct_cons (w h : ℚ) (d0 : Rec) (ds' : List Rec) (xs y0 : SeriesOpt)
    (ys' : List SeriesOpt) (optsIn : OptionsIn) :
    construct w h (d0 :: ds') ⟨some xs, y0 :: ys'⟩ optsIn =
      match getXDomain (d0 :: ds') xs.field with
      | Except.error e => Except.error e
      | Except.ok xdom =>
        Except.ok
          { width := w
            height := h
            dataset := d0 :: ds'
            xSerie := xs
            ySeries := y0 :: ys'
            options := resolveOptions optsIn
            xScale :=
              match xdom with
              | .dates lo hi =>
                .time ⟨niceTimePair lo hi,
                  ((resolveOptions optsIn).margin.left, w - (resolveOptions optsIn).margin.right)⟩
              | .nums lo hi =>
                .linear ⟨niceLinearPair (lo, hi),
                  ((resolveOptions optsIn).margin.left, w - (resolveOptions optsIn).margin.right)⟩
            yScale := ⟨niceLinearPair (getYDomain (d0 :: ds') (y0 :: ys')),
              (h - (resolveOptions optsIn).margin.bottom, (resolveOptions optsIn).margin.top)⟩ } := by
  rfl

/-- `getXDomain` once the defined-value list is known. -/
theorem getXDomain_cons (ds : List Rec) (f : Rec → JSVal) (v : JSVal) (vs : List JSVal)
    (hvals : (ds.map f).filter JSVal.isDefined = v :: vs) :
    getXDomain ds f =
      (if v.isDate then
        match mapGetTimes (v :: vs) with
        | Except.error e => Except.error e
        | Except.ok timestamps =>
            Except.ok (XDomain.dates (qListMin timestamps) (qListMax timestamps))
      else if v.isNumber then
        Except.ok (XDomain.nums (JSNum.listMin ((v :: vs).map JSVal.toNumber))
          (JSNum.listMax ((v :: vs).map JSVal.toNumber)))
      else
        Except.error ("x values must be Date or number")) := by
  unfold getXDomain
  simp only [hvals]

/-- `mapGetTimes` of a nonempty list, when it succeeds, is nonempty. -/
theorem mapGetTimes_ne_nil {v : JSVal} {vs : List JSVal} {ts : List ℚ}
    (h : mapGetTimes (v :: vs) = Except.ok ts) : ts ≠ [] := by
  unfold mapGetTimes at h
  cases hv : v.getTimeE with
  | error e => rw [hv] at h; exact absurd h (by simp)
  | ok t =>
    rw [hv] at h
    cases hvs : mapGetTimes vs with
    | error e => rw [hvs] at h; exact absurd h (by simp)
    | ok ts' =>
      rw [hvs] at h
      simp only [Except.ok.injEq] at h
      rw [← h]
      simp

/-- `getXDomain` in the all-dates case. -/
theorem getXDomain_dates_eq (ds : List Rec) (f : Rec → JSVal) (v : JSVal) (vs : List JSVal)
    (ts : List ℚ) (hvals : (ds.map f).filter JSVal.isDefined = v :: vs)
    (hdate : v.isDate = true) (hts : mapGetTimes (v :: vs) = Except.ok ts) :
    getXDomain ds f = Except.ok (XDomain.dates (qListMin ts) (qListMax ts)) := by
  rw [getXDomain_cons ds f v vs hvals, if_pos hdate]
  simp only [hts]

/-- `getXDomain` in the first-value-numeric case. -/
theorem getXDomain_nums_eq (ds : List Rec) (f : Rec → JSVal) (v : JSVal) (vs : List JSVal)
    (hvals : (ds.map f).filter JSVal.isDefined = v :: vs)
    (hnd : v.isDate = false) (hnum : v.isNumber = true) :
    getXDomain ds f = Except.ok (XDomain.nums (JSNum.listMin ((v :: vs).map JSVal.toNumber))
      (JSNum.listMax ((v :: vs).map JSVal.toNumber))) := by
  rw [getXDomain_cons ds f v vs hvals, if_neg (by rw [hnd]; exact Bool.false_ne_true),
    if_pos hnum]

/-- The chart the constructor produces for a given successful x-domain. -/
theorem construct_ok_of_xdom (w h : ℚ) (d0 : Rec) (ds' : List Rec) (xs y0 : SeriesOpt)
    (ys' : List SeriesOpt) (optsIn : OptionsIn) (xdom : XDomain)
    (hx : getXDomain (d0 :: ds') xs.field = Except.ok xdom) :
    construct w h (d0 :: ds') ⟨some xs, y0 :: ys'⟩ optsIn =
      Except.ok
        { width := w
          height := h
          dataset := d0 :: ds'
          xSerie := xs
          ySeries := y0 :: ys'
          options := resolveOptions optsIn
          xScale :=
            match xdom with
            | .dates lo hi =>
              .time ⟨niceTimePair lo hi,
                ((resolveOptions optsIn).margin.left, w - (resolveOptions optsIn).margin.right)⟩
            | .nums lo hi =>
              .linear ⟨niceLinearPair (lo, hi),
                ((resolveOptions optsIn).margin.left, w - (resolveOptions optsIn).margin.right)⟩
          yScale := ⟨niceLinearPair (getYDomain (d0 :: ds') (y0 :: ys')),
            (h - (resolveOptions optsIn).margin.bottom, (resolveOptions optsIn).margin.top)⟩ } := by
  rw [construct_cons]
  simp only [hx]
  cases xdom <;> rfl

/-! ## Claim C1 -/

/-- Claim C1, counterexample to the claim as stated: for the dataset
`[{x: Date(0)}, {x: "a"}]` the first defined extracted x value is a
`Date`, yet construction does not produce a time scale (or any scale):
it throws the `TypeError` from calling `getTime` on the string, so the
claim's universally quantified consequent fails. -/
theorem C1_counterexample :
    (definedXValues [[("x", JSVal.date 0)], [("x", JSVal.str ("a"))]]
        (fun r => recGet r ("x"))).head?.any JSVal.isDate = true ∧
    construct 800 600 [[("x", JSVal.date 0)], [("x", JSVal.str ("a"))]]
      ⟨some ⟨fun r => recGet r ("x"), "x", none⟩, [⟨fun r => recGet r ("y"), "y", none⟩]⟩
      {} = Except.error ("TypeError: v.getTime is not a function") := by
  constructor
  · rfl
  · rfl

/-- Claim C1 (amended): for every non-empty dataset passing validation,
scale derivation inspects the first defined extracted x value. If it is
a `Date` and (as the `getTime` calls require on pain of a thrown
`TypeError`) every defined value is a `Date`, the x-scale is a time
scale whose domain is the min/max of the extracted timestamps, then
niced outward (the niced domain contains `[min, max]`). If it is a
number and every defined value coerces to a non-`NaN` number, the
x-scale is a linear scale whose domain is `Math.min`/`Math.max` of the
coerced values, then niced outward, never inward. -/
theorem C1_amended_thm (w h : ℚ) (d0 : Rec) (ds' : List Rec) (xs y0 : SeriesOpt)
    (ys' : List SeriesOpt) (optsIn : OptionsIn) (v : JSVal) (vs : List JSVal)
    (hvals : definedXValues (d0 :: ds') xs.field = v :: vs) :
    (v.isDate = true → (∀ u ∈ v :: vs, u.isDate = true) →
      ∃ ts c, mapGetTimes (v :: vs) = Except.ok ts ∧
        construct w h (d0 :: ds') ⟨some xs, y0 :: ys'⟩ optsIn = Except.ok c ∧
        c.xScale = XScale.time ⟨niceTimePair (qListMin ts) (qListMax ts),
          ((resolveOptions optsIn).margin.left, w - (resolveOptions optsIn).margin.right)⟩ ∧
        (niceTimePair (qListMin ts) (qListMax ts)).1 ≤ qListMin ts ∧
        qListMax ts ≤ (niceTimePair (qListMin ts) (qListMax ts)).2) ∧
    (v.isNumber = true → (∀ u ∈ v :: vs, ¬ (u.toNumber).isNaN = true) →
      ∃ c, construct w h (d0 :: ds') ⟨some xs, y0 :: ys'⟩ optsIn = Except.ok c ∧
        c.xScale = XScale.linear ⟨niceLinearPair
            (JSNum.listMin ((v :: vs).map JSVal.toNumber),
             JSNum.listMax ((v :: vs).map JSVal.toNumber)),
          ((resolveOptions optsIn).margin.left, w - (resolveOptions optsIn).margin.right)⟩ ∧
        ((niceLinearPair (JSNum.listMin ((v :: vs).map JSVal.toNumber),
            JSNum.listMax ((v :: vs).map JSVal.toNumber))).1).le
          (JSNum.listMin ((v :: vs).map JSVal.toNumber)) = true ∧
        (JSNum.listMax ((v :: vs).map JSVal.toNumber)).le
          ((niceLinearPair (JSNum.listMin ((v :: vs).map JSVal.toNumber),
            JSNum.listMax ((v :: vs).map JSVal.toNumber))).2) = true) := by
  have hvals' : ((d0 :: ds').map xs.field).filter JSVal.isDefined = v :: vs := hvals
  constructor
  · intro hdate hall
    obtain ⟨ts, hts⟩ := mapGetTimes_ok hall
    have hd := getXDomain_dates_eq (d0 :: ds') xs.field v vs ts hvals' hdate hts
    have hcon := construct_ok_of_xdom w h d0 ds' xs y0 ys' optsIn _ hd
    have hne := mapGetTimes_ne_nil hts
    have hout := niceTimePair_outward (qListMin ts) (qListMax ts) (qListMin_le_qListMax hne)
    exact ⟨ts, _, hts, hcon, rfl, hout.1, hout.2⟩
  · intro hnum hall
    have hnd : v.isDate = false := by
      cases v <;> simp_all [JSVal.isNumber, JSVal.isDate]
    have hd := getXDomain_nums_eq (d0 :: ds') xs.field v vs hvals' hnd hnum
    have hcon := construct_ok_of_xdom w h d0 ds' xs y0 ys' optsIn _ hd
    have hallm : ∀ x ∈ (v :: vs).map JSVal.toNumber, ¬ x.isNaN = true := by
      intro x hx
      obtain ⟨u, hu, rfl⟩ := List.mem_map.mp hx
      exact hall u hu
    have hmm := listMin_le_listMax (by simp) hallm
    have hout := niceLinearPair_outward_js _ _ hmm.1 hmm.2.1 hmm.2.2
    exact ⟨_, hcon, rfl, hout.1, hout.2⟩

/-- Claim C1 witness: the amended theorem applied to the concrete
two-point numeric dataset `[{x: 0}, {x: 10}]` with default options. -/
theorem C1_witness :
    definedXValues [[(("x"), JSVal.num (JSNum.fin 0))], [(("x"), JSVal.num (JSNum.fin 10))]]
        (fun r => recGet r ("x")) = [JSVal.num (JSNum.fin 0), JSVal.num (JSNum.fin 10)] ∧
    (JSVal.num (JSNum.fin 0)).isNumber = true ∧
    ∃ c, construct 800 600 [[(("x"), JSVal.num (JSNum.fin 0))], [(("x"), JSVal.num (JSNum.fin 10))]]
        ⟨some ⟨fun r => recGet r ("x"), ("x"), none⟩, [⟨fun r => recGet r ("y"), ("y"), none⟩]⟩
        {} = Except.ok c ∧
      c.xScale = XScale.linear ⟨niceLinearPair
          (JSNum.listMin ([JSVal.num (JSNum.fin 0), JSVal.num (JSNum.fin 10)].map JSVal.toNumber),
           JSNum.listMax ([JSVal.num (JSNum.fin 0), JSVal.num (JSNum.fin 10)].map JSVal.toNumber)),
        ((resolveOptions {}).margin.left, 800 - (resolveOptions {}).margin.right)⟩ := by
  refine ⟨rfl, rfl, ?_⟩
  obtain ⟨c, hc, hx, -, -⟩ :=
    (C1_amended_thm 800 600 [(("x"), JSVal.num (JSNum.fin 0))]
      [[(("x"), JSVal.num (JSNum.fin 10))]] ⟨fun r => recGet r ("x"), ("x"), none⟩
      ⟨fun r => recGet r ("y"), ("y"), none⟩ [] {} (JSVal.num (JSNum.fin 0))
      [JSVal.num (JSNum.fin 10)] rfl).2 rfl
      (by simp [JSVal.toNumber, JSNum.isNaN])
  exact ⟨c, hc, hx⟩

/-! ## Claim C2 -/

/-- `getXDomain` throws exactly when there is no defined value, the
first defined value is neither a `Date` nor a number, or the first is a
`Date` but some defined value is not. -/
theorem getXDomain_error_iff (ds : List Rec) (f : Rec → JSVal) :
    (∃ e, getXDomain ds f = Except.error e) ↔
      ((ds.map f).filter JSVal.isDefined = [] ∨
       ∃ v vs, (ds.map f).filter JSVal.isDefined = v :: vs ∧
         ((v.isDate = false ∧ v.isNumber = false) ∨
          (v.isDate = true ∧ ∃ u ∈ v :: vs, u.isDate = false))) := by
  cases hvals : (ds.map f).filter JSVal.isDefined with
  | nil =>
    constructor
    · intro _
      exact Or.inl rfl
    · intro _
      refine ⟨("No values found for xKey in dataset"), ?_⟩
      unfold getXDomain
      simp only [hvals]
  | cons v vs =>
    rw [getXDomain_cons ds f v vs hvals]
    by_cases hd : v.isDate = true
    · rw [if_pos hd]
      cases hmt : mapGetTimes (v :: vs) with
      | error e =>
        constructor
        · intro _
          exact Or.inr ⟨v, vs, rfl, Or.inr ⟨hd, mapGetTimes_error_iff.mp ⟨e, hmt⟩⟩⟩
        · intro _
          exact ⟨e, rfl⟩
      | ok ts =>
        constructor
        · rintro ⟨e, he⟩
          exact absurd he (by simp)
        · rintro (hnil | ⟨v', vs', heq, hcase⟩)
          · exact absurd hnil (by simp)
          · injection heq with h1 h2
            subst h1
            subst h2
            rcases hcase with ⟨hdf, _⟩ | ⟨_, u, hu, hud⟩
            · rw [hd] at hdf
              exact absurd hdf (by simp)
            · obtain ⟨e, he⟩ := mapGetTimes_error_iff.mpr ⟨u, hu, hud⟩
              rw [hmt] at he
              exact absurd he (by simp)
    · rw [if_neg hd]
      have hdf : v.isDate = false := by
        cases hb : v.isDate
        · rfl
        · exact absurd hb hd
      by_cases hn : v.isNumber = true
      · rw [if_pos hn]
        constructor
        · rintro ⟨e, he⟩
          exact absurd he (by simp)
        · rintro (hnil | ⟨v', vs', heq, hcase⟩)
          · exact absurd hnil (by simp)
          · injection heq with h1 h2
            subst h1
            subst h2
            rcases hcase with ⟨_, hnf⟩ | ⟨hdt, _⟩
            · rw [hn] at hnf
              exact absurd hnf (by simp)
            · rw [hdf] at hdt
              exact absurd hdt (by simp)
      · rw [if_neg hn]
        have hnf : v.isNumber = false := by
          cases hb : v.isNumber
          · rfl
          · exact absurd hb hn
        constructor
        · intro _
          exact Or.inr ⟨v, vs, rfl, Or.inl ⟨hdf, hnf⟩⟩
        · intro _
          exact ⟨("x values must be Date or number"), rfl⟩

/-- Claim C2, counterexample to the claim as stated: the dataset
`[{x: Date(5)}, {x: "b"}]` makes construction throw (the `getTime`
`TypeError`), although none of the claimed conditions hold: the dataset
is a non-empty array, both descriptors are present and non-empty, and it
is not the case that the extracted x values are neither `Date`s nor
numbers (the first one is a `Date`). -/
theorem C2_counterexample :
    construct 800 600 [[(("x"), JSVal.date 5)], [(("x"), JSVal.str ("b"))]]
      ⟨some ⟨fun r => recGet r ("x"), ("x"), none⟩, [⟨fun r => recGet r ("y"), ("y"), none⟩]⟩
      {} = Except.error ("TypeError: v.getTime is not a function") ∧
    ([[(("x"), JSVal.date 5)], [(("x"), JSVal.str ("b"))]] : List Rec) ≠ [] ∧
    (some ⟨fun r => recGet r ("x"), ("x"), none⟩ : Option SeriesOpt) ≠ none ∧
    ([⟨fun r => recGet r ("y"), ("y"), none⟩] : List SeriesOpt) ≠ [] ∧
    ¬ (∀ v ∈ definedXValues [[(("x"), JSVal.date 5)], [(("x"), JSVal.str ("b"))]]
        (fun r => recGet r ("x")), v.isDate = false ∧ v.isNumber = false) := by
  refine ⟨rfl, by simp, by simp, by simp, ?_⟩
  intro hall
  have := hall (JSVal.date 5) (by left)
  simp [JSVal.isDate] at this

/-- Claim C2 (amended): construction throws synchronously, before any
scale is computed, if and only if the dataset is empty, the x descriptor
is missing, the y descriptor list is missing/empty, all extracted x
values are dropped as null/undefined, the first defined extracted x
value is neither a `Date` nor a number, or the first defined value is a
`Date` while some later defined value is not (the `getTime` `TypeError`).
Otherwise (in particular whenever the first defined value is a number)
construction succeeds. -/
theorem C2_amended_thm (w h : ℚ) (ds : List Rec) (cfg : SeriesConfig) (optsIn : OptionsIn) :
    (∃ e, construct w h ds cfg optsIn = Except.error e) ↔
      (ds = [] ∨ cfg.xSerie = none ∨ cfg.ySeries = [] ∨
        ∃ xs, cfg.xSerie = some xs ∧
          ((ds.map xs.field).filter JSVal.isDefined = [] ∨
           ∃ v vs, (ds.map xs.field).filter JSVal.isDefined = v :: vs ∧
             ((v.isDate = false ∧ v.isNumber = false) ∨
              (v.isDate = true ∧ ∃ u ∈ v :: vs, u.isDate = false)))) := by
  obtain ⟨oxs, ys⟩ := cfg
  cases ds with
  | nil => exact ⟨fun _ => Or.inl rfl, fun _ => ⟨_, rfl⟩⟩
  | cons d0 ds' =>
    cases oxs with
    | none => exact ⟨fun _ => Or.inr (Or.inl rfl), fun _ => ⟨_, rfl⟩⟩
    | some xs =>
      cases ys with
      | nil => exact ⟨fun _ => Or.inr (Or.inr (Or.inl rfl)), fun _ => ⟨_, rfl⟩⟩
      | cons y0 ys' =>
        rw [construct_cons]
        constructor
        · intro herr
          cases hx : getXDomain (d0 :: ds') xs.field with
          | error e =>
            exact Or.inr (Or.inr (Or.inr ⟨xs, rfl,
              (getXDomain_error_iff (d0 :: ds') xs.field).mp ⟨e, hx⟩⟩))
          | ok xdom =>
            obtain ⟨e, he⟩ := herr
            rw [hx] at he
            exact absurd he (by simp)
        · rintro (hnil | hnone | hysnil | ⟨xs', hxs, hinner⟩)
          · exact absurd hnil (by simp)
          · exact absurd hnone (by simp)
          · exact absurd hysnil (by simp)
          · injection hxs with h1
            subst h1
            obtain ⟨e, he⟩ := (getXDomain_error_iff (d0 :: ds') xs.field).mpr hinner
            rw [he]
            exact ⟨e, rfl⟩


/-! ## Claim C5 -/

/-- The y-scale every successful construction stores: the niced
`getYDomain` pair over the inverted range. -/
theorem construct_ok_yScale (w h : ℚ) (ds : List Rec) (cfg : SeriesConfig)
    (optsIn : OptionsIn) (c : Chart) (hok : construct w h ds cfg optsIn = Except.ok c) :
    c.yScale = ⟨niceLinearPair (getYDomain ds cfg.ySeries),
      (h - (resolveOptions optsIn).margin.bottom, (resolveOptions optsIn).margin.top)⟩ := by
  obtain ⟨oxs, ys⟩ := cfg
  cases ds with
  | nil => exact absurd hok (by simp [construct])
  | cons d0 ds' =>
    cases oxs with
    | none => exact absurd hok (by simp [construct])
    | some xs =>
      cases ys with
      | nil => exact absurd hok (by simp [construct])
      | cons y0 ys' =>
        rw [construct_cons] at hok
        cases hxd : getXDomain (d0 :: ds') xs.field with
        | error e =>
          simp only [hxd] at hok
          exact absurd hok (by simp)
        | ok xdom =>
          simp only [hxd] at hok
          rw [← Except.ok.inj hok]

/-- A continuous scale on a finite non-degenerate domain evaluates to
the usual interpolation formula. -/
theorem applyLinJS_fin (d0 d1 r0 r1 x : ℚ) (hd : d1 - d0 ≠ 0) :
    applyLinJS (.fin d0, .fin d1) (r0, r1) (.fin x) =
      .fin (r0 * (1 - (x - d0) / (d1 - d0)) + r1 * ((x - d0) / (d1 - d0))) := by
  have hd' : d1 + -d0 ≠ 0 := by rw [← sub_eq_add_neg]; exact hd
  unfold applyLinJS
  rw [if_neg (by simp [JSNum.isNaN])]
  have hsub : (JSNum.fin d1).sub (JSNum.fin d0) = JSNum.fin (d1 - d0) := by
    simp [JSNum.sub, JSNum.neg, JSNum.add, sub_eq_add_neg]
  dsimp only []
  rw [hsub, if_neg (by simp [hd]), if_neg (by simp [JSNum.isNaN])]
  have hsub2 : (JSNum.fin x).sub (JSNum.fin d0) = JSNum.fin (x - d0) := by
    simp [JSNum.sub, JSNum.neg, JSNum.add, sub_eq_add_neg]
  rw [hsub2]
  have hdiv : (JSNum.fin (x - d0)).div (JSNum.fin (d1 - d0)) =
      JSNum.fin ((x - d0) / (d1 - d0)) := by
    simp [JSNum.div, hd]
  rw [hdiv]
  simp [JSNum.mul, JSNum.add, JSNum.sub, JSNum.neg, sub_eq_add_neg]

/-- With an increasing domain and a decreasing (inverted) range, the
scale is strictly decreasing: larger values land at smaller pixels. -/
theorem applyLinJS_strictAnti (d0 d1 r0 r1 a b : ℚ) (hd : d0 < d1) (hr : r1 < r0)
    (hab : a < b) :
    ((applyLinJS (.fin d0, .fin d1) (r0, r1) (.fin b)).lt
      (applyLinJS (.fin d0, .fin d1) (r0, r1) (.fin a))) = true := by
  have hpos : 0 < d1 - d0 := by linarith
  have hdd : d1 - d0 ≠ 0 := ne_of_gt hpos
  rw [applyLinJS_fin d0 d1 r0 r1 a hdd, applyLinJS_fin d0 d1 r0 r1 b hdd]
  simp only [JSNum.lt, decide_eq_true_eq]
  have ht : (a - d0) / (d1 - d0) < (b - d0) / (d1 - d0) := by
    apply div_lt_div_of_pos_right ?ha hpos
    case ha => linarith
  nlinarith [mul_pos (sub_pos.mpr ht) (sub_pos.mpr hr)]

/-- Claim C5: for every successfully constructed chart, the y-scale is
the linear scale whose domain is the min/max of the Number-coerced
extractions of every y descriptor over every record with NaNs dropped,
niced, and whose pixel range runs from `height - margin.bottom` down to
`margin.top`; on a finite increasing (niced) domain with a proper
vertical band, larger values map to strictly smaller pixel
coordinates. -/
theorem C5_thm (w h : ℚ) (ds : List Rec) (cfg : SeriesConfig) (optsIn : OptionsIn)
    (c : Chart) (hok : construct w h ds cfg optsIn = Except.ok c) :
    c.yScale = ⟨niceLinearPair (getYDomain ds cfg.ySeries),
        (h - (resolveOptions optsIn).margin.bottom, (resolveOptions optsIn).margin.top)⟩ ∧
      ∀ e0 e1 a b : ℚ, c.yScale.domain = (.fin e0, .fin e1) → e0 < e1 →
        (resolveOptions optsIn).margin.top < h - (resolveOptions optsIn).margin.bottom →
        a < b →
        ((c.yScale.applyY (JSVal.num (.fin b))).lt
          (c.yScale.applyY (JSVal.num (.fin a)))) = true := by
  have hy := construct_ok_yScale w h ds cfg optsIn c hok
  refine ⟨hy, ?_⟩
  intro e0 e1 a b hdom hlt hmr hab
  have hrange : c.yScale.range =
      (h - (resolveOptions optsIn).margin.bottom, (resolveOptions optsIn).margin.top) := by
    rw [hy]
  unfold LinScale.applyY
  rw [hdom, hrange]
  simp only [JSVal.toNumber]
  exact applyLinJS_strictAnti e0 e1 _ _ a b hlt hmr hab

/-- Evaluation: the d3 tick increment for the witness domain `[0, 10]`
at the default count 10 is `1`. -/
theorem tickIncrementQ_0_10 : tickIncrementQ 0 10 10 = 1 := by
  norm_num [tickIncrementQ, floorLog10, natLog10, tickFactor]

/-- Evaluation: rounding `[0, 10]` onto the step-1 grid keeps it. -/
theorem niceRound_0_10 : niceRound 0 10 1 = (0, 10) := by
  norm_num [niceRound]

/-- Evaluation: the nice loop stabilises immediately on `[0, 10]`. -/
theorem niceLoop_0_10 : niceLoop 10 10 none 0 10 = some (0, 10) := by
  norm_num [niceLoop, tickIncrementQ_0_10, niceRound_0_10]

/-- Evaluation: `nice()` leaves the witness domain `[0, 10]` unchanged. -/
theorem niceLinearPair_0_10 : niceLinearPair (.fin 0, .fin 10) = (.fin 0, .fin 10) := by
  simp only [niceLinearPair]
  rw [if_neg (by norm_num), niceLoop_0_10]

/-- Evaluation: the y-domain of the witness dataset is `[0, 10]`. -/
theorem getYDomain_witness :
    getYDomain [[(("x"), JSVal.num (.fin 0)), (("y"), JSVal.num (.fin 0))],
        [(("x"), JSVal.num (.fin 10)), (("y"), JSVal.num (.fin 10))]]
      [⟨fun r => recGet r ("y"), ("y"), none⟩] = (.fin 0, .fin 10) := by
  have hxy : decide ((("x") : String) = (("y") : String)) = false := rfl
  have hyy : decide ((("y") : String) = (("y") : String)) = true := rfl
  norm_num [getYDomain, recGet, JSVal.toNumber, JSNum.listMin, JSNum.listMax,
    JSNum.min2, JSNum.max2, JSNum.le, JSNum.isNaN, List.find?, List.filter_cons,
    List.flatMap_cons, List.foldl_cons, hxy, hyy]

/-- Witness for C5: on the two-point dataset the y-scale stores the
niced `[0, 10]` domain over the inverted range, and the pixel for `y=7`
lies strictly above (smaller than) the pixel for `y=3`. -/
theorem C5_witness :
    ∃ c, construct 800 600
        [[(("x"), JSVal.num (.fin 0)), (("y"), JSVal.num (.fin 0))],
         [(("x"), JSVal.num (.fin 10)), (("y"), JSVal.num (.fin 10))]]
        ⟨some ⟨fun r => recGet r ("x"), ("x"), none⟩,
         [⟨fun r => recGet r ("y"), ("y"), none⟩]⟩ {} = Except.ok c ∧
      c.yScale = ⟨niceLinearPair (getYDomain
          [[(("x"), JSVal.num (.fin 0)), (("y"), JSVal.num (.fin 0))],
           [(("x"), JSVal.num (.fin 10)), (("y"), JSVal.num (.fin 10))]]
          [⟨fun r => recGet r ("y"), ("y"), none⟩]),
        (600 - (resolveOptions {}).margin.bottom, (resolveOptions {}).margin.top)⟩ ∧
      ((c.yScale.applyY (JSVal.num (.fin 7))).lt
        (c.yScale.applyY (JSVal.num (.fin 3)))) = true := by
  have hvals : (([[(("x"), JSVal.num (.fin 0)), (("y"), JSVal.num (.fin 0))],
      [(("x"), JSVal.num (.fin 10)), (("y"), JSVal.num (.fin 10))]] : List Rec).map
      (fun r => recGet r ("x"))).filter JSVal.isDefined
      = [JSVal.num (.fin 0), JSVal.num (.fin 10)] := rfl
  have hx := getXDomain_nums_eq _ (fun r => recGet r ("x")) _ _ hvals rfl rfl
  have hok := construct_ok_of_xdom 800 600 _ _ ⟨fun r => recGet r ("x"), ("x"), none⟩
      ⟨fun r => recGet r ("y"), ("y"), none⟩ [] {} _ hx
  obtain ⟨hy, hanti⟩ := C5_thm 800 600 _ _ {} _ hok
  refine ⟨_, hok, hy, ?_⟩
  refine hanti 0 10 3 7 ?_ (by norm_num) (by norm_num [resolveOptions]) (by norm_num)
  rw [hy]
  show niceLinearPair (getYDomain
      [[(("x"), JSVal.num (.fin 0)), (("y"), JSVal.num (.fin 0))],
       [(("x"), JSVal.num (.fin 10)), (("y"), JSVal.num (.fin 10))]]
      [⟨fun r => recGet r ("y"), ("y"), none⟩]) = (.fin 0, .fin 10)
  rw [getYDomain_witness, niceLinearPair_0_10]

/-! ## Claim C10 -/

/-- When every extraction of a record is `NaN` after coercion, the
per-record filtered value list is empty. -/
theorem filterNaN_eq_nil (d : Rec) (series : List SeriesOpt)
    (hall : ∀ s ∈ series, (((s.field d)).toNumber).isNaN = true) :
    ((series.map (fun s => ((s.field d)).toNumber)).filter (fun v => ¬ v.isNaN)) = [] := by
  induction series with
  | nil => rfl
  | cons s0 ss ih =>
    have h0 := hall s0 (List.mem_cons_self s0 ss)
    simp only [List.map_cons, List.filter_cons, h0]
    norm_num
    exact fun s hs => hall s (List.mem_cons_of_mem s0 hs)

/-- `getYDomain` over an all-NaN dataset degenerates to
`(Infinity, -Infinity)`: `Math.min`/`Math.max` of no values. -/
theorem getYDomain_allNaN (ds : List Rec) (series : List SeriesOpt)
    (hall : ∀ d ∈ ds, ∀ s ∈ series, (((s.field d)).toNumber).isNaN = true) :
    getYDomain ds series = (.posInf, .negInf) := by
  have hflat : ds.flatMap (fun d =>
      (series.map (fun s => ((s.field d)).toNumber)).filter (fun v => ¬ v.isNaN)) = [] := by
    induction ds with
    | nil => rfl
    | cons d0 ds' ih =>
      rw [List.flatMap_cons,
        filterNaN_eq_nil d0 series (hall d0 (List.mem_cons_self d0 ds')),
        List.nil_append]
      exact ih (fun d hd s hs => hall d (List.mem_cons_of_mem d0 hd) s hs)
  show (JSNum.listMin (ds.flatMap (fun d =>
      (series.map (fun s => ((s.field d)).toNumber)).filter (fun v => ¬ v.isNaN))),
    JSNum.listMax (ds.flatMap (fun d =>
      (series.map (fun s => ((s.field d)).toNumber)).filter (fun v => ¬ v.isNaN)))) =
    ((JSNum.posInf), (JSNum.negInf))
  rw [hflat]
  rfl

/-- Claim C10: for every non-empty dataset whose x side validates and
derives a domain, if every y descriptor's extraction on every record
coerces to `NaN`, construction still succeeds and the y-scale's domain
is the degenerate `[Infinity, -Infinity]` (which `nice()` leaves
unchanged), built silently. -/
theorem C10_thm (w h : ℚ) (d0 : Rec) (ds' : List Rec) (xs y0 : SeriesOpt)
    (ys' : List SeriesOpt) (optsIn : OptionsIn) (xdom : XDomain)
    (hx : getXDomain (d0 :: ds') xs.field = Except.ok xdom)
    (hall : ∀ d ∈ d0 :: ds', ∀ s ∈ y0 :: ys', (((s.field d)).toNumber).isNaN = true) :
    ∃ c, construct w h (d0 :: ds') ⟨some xs, y0 :: ys'⟩ optsIn = Except.ok c ∧
      c.yScale.domain = (.posInf, .negInf) := by
  have hcon := construct_ok_of_xdom w h d0 ds' xs y0 ys' optsIn xdom hx
  refine ⟨_, hcon, ?_⟩
  show niceLinearPair (getYDomain (d0 :: ds') (y0 :: ys')) = (.posInf, .negInf)
  rw [getYDomain_allNaN (d0 :: ds') (y0 :: ys') hall]
  rfl

/-- Witness for C10: a one-record dataset with a numeric x value and no
y key at all (so the extraction is `undefined`, coercing to `NaN`)
constructs successfully with the degenerate y-domain. -/
theorem C10_witness :
    ∃ c, construct 800 600 [[(("x"), JSVal.num (.fin 0))]]
        ⟨some ⟨fun r => recGet r ("x"), ("x"), none⟩,
         [⟨fun r => recGet r ("y"), ("y"), none⟩]⟩ {} = Except.ok c ∧
      c.yScale.domain = (.posInf, .negInf) := by
  have hvals : (([[(("x"), JSVal.num (.fin 0))]] : List Rec).map
      (fun r => recGet r ("x"))).filter JSVal.isDefined = [JSVal.num (.fin 0)] := rfl
  have hx := getXDomain_nums_eq _ (fun r => recGet r ("x")) _ _ hvals rfl rfl
  refine C10_thm 800 600 _ [] ⟨fun r => recGet r ("x"), ("x"), none⟩
      ⟨fun r => recGet r ("y"), ("y"), none⟩ [] {} _ hx ?_
  intro d hd s hs
  rw [List.mem_singleton] at hd hs
  subst hd
  subst hs
  rfl

/-! ## Claim C6 -/

/-- Every successful construction stores the resolved options. -/
theorem construct_ok_options (w h : ℚ) (ds : List Rec) (cfg : SeriesConfig)
    (optsIn : OptionsIn) (c : Chart) (hok : construct w h ds cfg optsIn = Except.ok c) :
    c.options = resolveOptions optsIn := by
  obtain ⟨oxs, ys⟩ := cfg
  cases ds with
  | nil => exact absurd hok (by simp [construct])
  | cons d0 ds' =>
    cases oxs with
    | none => exact absurd hok (by simp [construct])
    | some xs =>
      cases ys with
      | nil => exact absurd hok (by simp [construct])
      | cons y0 ys' =>
        rw [construct_cons] at hok
        cases hxd : getXDomain (d0 :: ds') xs.field with
        | error e =>
          simp only [hxd] at hok
          exact absurd hok (by simp)
        | ok xdom =>
          simp only [hxd] at hok
          rw [← Except.ok.inj hok]

/-- Claim C6: for every chart constructed with `isChartStatic: true`,
`renderCursor` is a no-op: the svg state comes back unchanged, so no
`mousemove` listener is registered and no cursor element appears on the
render target. -/
theorem C6_thm (w h : ℚ) (ds : List Rec) (cfg : SeriesConfig) (optsIn : OptionsIn)
    (c : Chart) (hok : construct w h ds cfg optsIn = Except.ok c)
    (hstat : optsIn.isChartStatic = some true) (s : SvgState) :
    renderCursor c s = s ∧ (renderCursor c s).mousemove = s.mousemove ∧
      (renderCursor c s).root = s.root := by
  have hopts := construct_ok_options w h ds cfg optsIn c hok
  have hcs : c.options.isChartStatic = true := by
    rw [hopts]
    simp [resolveOptions, hstat]
  have hmain : renderCursor c s = s := by
    unfold renderCursor
    rw [if_pos hcs]
  exact ⟨hmain, by rw [hmain], by rw [hmain]⟩

/-- Witness for C6: a concrete static chart leaves a concrete svg state
untouched when `renderCursor` runs. -/
theorem C6_witness :
    ∃ c, construct 800 600 [[(("x"), JSVal.num (.fin 0))]]
        ⟨some ⟨fun r => recGet r ("x"), ("x"), none⟩,
         [⟨fun r => recGet r ("y"), ("y"), none⟩]⟩
        ⟨none, none, none, none, none, some true⟩ = Except.ok c ∧
      renderCursor c ⟨Node.mk ("svg") [] [], none⟩ = ⟨Node.mk ("svg") [] [], none⟩ := by
  have hvals : (([[(("x"), JSVal.num (.fin 0))]] : List Rec).map
      (fun r => recGet r ("x"))).filter JSVal.isDefined = [JSVal.num (.fin 0)] := rfl
  have hx := getXDomain_nums_eq _ (fun r => recGet r ("x")) _ _ hvals rfl rfl
  have hok := construct_ok_of_xdom 800 600 _ _ ⟨fun r => recGet r ("x"), ("x"), none⟩
      ⟨fun r => recGet r ("y"), ("y"), none⟩ [] ⟨none, none, none, none, none, some true⟩ _ hx
  exact ⟨_, hok,
    (C6_thm 800 600 _ _ _ _ hok rfl ⟨Node.mk ("svg") [] [], none⟩).1⟩

/-! ## Claim C3 -/

/-- `find?` on a cons whose head satisfies the predicate (explicit
predicate, to steer unification). -/
theorem find?_cons_pos {α : Type} (p : α → Bool) (a : α) (l : List α) (h : p a = true) :
    (a :: l).find? p = some a :=
  List.find?_cons_of_pos l h

/-- `find?` on a cons whose head fails the predicate. -/
theorem find?_cons_neg {α : Type} (p : α → Bool) (a : α) (l : List α) (h : ¬ p a = true) :
    (a :: l).find? p = l.find? p :=
  List.find?_cons_of_neg l (by simpa using h)

/-- `find?` only depends on the predicate's values on the list. -/
theorem find?_congr_on {α : Type} (p q : α → Bool) :
    ∀ l : List α, (∀ a ∈ l, p a = q a) → l.find? p = l.find? q := by
  intro l
  induction l with
  | nil => intro _; rfl
  | cons a l ih =>
    intro hpq
    by_cases hqa : q a = true
    · have hpa : p a = true := by rw [hpq a (List.mem_cons_self a l)]; exact hqa
      rw [find?_cons_pos p a l hpa, find?_cons_pos q a l hqa]
    · have hpa : ¬ p a = true := by rw [hpq a (List.mem_cons_self a l)]; exact hqa
      rw [find?_cons_neg p a l hpa, find?_cons_neg q a l hqa]
      exact ih (fun b hb => hpq b (List.mem_cons_of_mem a hb))

/-- A seed already minimal survives the strict-improvement fold. -/
theorem foldl_min_keep (g : Rec → ℚ) :
    ∀ (l : List Rec) (s : Rec), (∀ e ∈ l, g s ≤ g e) →
      l.foldl (fun acc d => if g d < g acc then d else acc) s = s := by
  intro l
  induction l with
  | nil => intro s _; rfl
  | cons d l ih =>
    intro s hmin
    rw [List.foldl_cons]
    rw [if_neg (not_lt.mpr (hmin d (List.mem_cons_self d l)))]
    exact ih s (fun e he => hmin e (List.mem_cons_of_mem d he))

/-- The strict-improvement fold seeded with the head finds the earliest
global minimizer (ties keep the earlier record). -/
theorem argmin_foldl (g : Rec → ℚ) :
    ∀ (l : List Rec) (s : Rec),
      (s :: l).find? (fun e => decide (∀ e' ∈ s :: l, g e ≤ g e'))
        = some (l.foldl (fun acc d => if g d < g acc then d else acc) s) := by
  intro l
  induction l with
  | nil =>
    intro s
    have hs : (decide (∀ e' ∈ s :: ([] : List Rec), g s ≤ g e')) = true := by simp
    rw [find?_cons_pos (fun e => decide (∀ e' ∈ s :: ([] : List Rec), g e ≤ g e')) s [] hs]
    rfl
  | cons d l ih =>
    intro s
    by_cases hds : g d < g s
    · have hsneg : ¬ (decide (∀ e' ∈ s :: d :: l, g s ≤ g e')) = true := by
        simp only [decide_eq_true_eq]
        intro hall
        exact absurd (hall d (List.mem_cons_of_mem s (List.mem_cons_self d l)))
          (not_le.mpr hds)
      rw [find?_cons_neg (fun e => decide (∀ e' ∈ s :: d :: l, g e ≤ g e')) s (d :: l) hsneg]
      have hcong : ∀ a ∈ d :: l,
          (decide (∀ e' ∈ s :: d :: l, g a ≤ g e'))
            = (decide (∀ e' ∈ d :: l, g a ≤ g e')) := by
        intro a ha
        rw [decide_eq_decide]
        constructor
        · intro hall e' he'
          exact hall e' (List.mem_cons_of_mem s he')
        · intro hall e' he'
          rcases List.mem_cons.mp he' with h1 | h2
          · subst h1
            exact le_trans (hall d (List.mem_cons_self d l)) (le_of_lt hds)
          · exact hall e' h2
      rw [find?_congr_on _ _ (d :: l) hcong, ih d, List.foldl_cons]
      rw [if_pos hds]
    · have hsd : g s ≤ g d := not_lt.mp hds
      have hfold : (d :: l).foldl (fun acc d' => if g d' < g acc then d' else acc) s
          = l.foldl (fun acc d' => if g d' < g acc then d' else acc) s := by
        rw [List.foldl_cons]
        rw [if_neg hds]
      rw [hfold]
      by_cases hmin : ∀ e' ∈ s :: d :: l, g s ≤ g e'
      · rw [find?_cons_pos (fun e => decide (∀ e' ∈ s :: d :: l, g e ≤ g e')) s (d :: l)
          (by simpa using hmin)]
        rw [foldl_min_keep g l s (fun e he =>
          hmin e (List.mem_cons_of_mem s (List.mem_cons_of_mem d he)))]
      · rw [find?_cons_neg (fun e => decide (∀ e' ∈ s :: d :: l, g e ≤ g e')) s (d :: l)
          (by simpa using hmin)]
        have hdneg : ¬ (decide (∀ e' ∈ s :: d :: l, g d ≤ g e')) = true := by
          simp only [decide_eq_true_eq]
          intro hall
          exact hmin (fun e' he' => le_trans hsd (hall e' he'))
        rw [find?_cons_neg (fun e => decide (∀ e' ∈ s :: d :: l, g e ≤ g e')) d l hdneg]
        have hs_not : ¬ (decide (∀ e' ∈ s :: l, g s ≤ g e')) = true := by
          simp only [decide_eq_true_eq]
          intro hall
          apply hmin
          intro e' he'
          rcases List.mem_cons.mp he' with h1 | h2
          · subst h1
            exact le_refl _
          · rcases List.mem_cons.mp h2 with h3 | h4
            · subst h3
              exact hsd
            · exact hall e' (List.mem_cons_of_mem s h4)
        have hihs := ih s
        rw [find?_cons_neg (fun e => decide (∀ e' ∈ s :: l, g e ≤ g e')) s l hs_not] at hihs
        rw [← hihs]
        apply find?_congr_on
        intro a ha
        rw [decide_eq_decide]
        constructor
        · intro hall e' he'
          rcases List.mem_cons.mp he' with h1 | h2
          · rw [h1]
            exact hall s (List.mem_cons_self s (d :: l))
          · exact hall e' (List.mem_cons_of_mem s (List.mem_cons_of_mem d h2))
        · intro hall e' he'
          rcases List.mem_cons.mp he' with h1 | h2
          · rw [h1]
            exact hall s (List.mem_cons_self s l)
          · rcases List.mem_cons.mp h2 with h3 | h4
            · rw [h3]
              exact le_trans (hall s (List.mem_cons_self s l)) hsd
            · exact hall e' (List.mem_cons_of_mem s h4)

/-- Under everywhere-finite scores, the JS comparison in the reduce is
the rational comparison on `scoreQ`. -/
theorem foldl_scan_congr (c : Chart) (mx : ℚ) :
    ∀ (l : List Rec) (s : Rec), (cursorScore c mx s).isFin = true →
      (∀ d ∈ l, (cursorScore c mx d).isFin = true) →
      l.foldl (fun acc d =>
        if JSNum.lt (cursorScore c mx d) (cursorScore c mx acc) then d else acc) s
      = l.foldl (fun acc d =>
        if scoreQ c mx d < scoreQ c mx acc then d else acc) s := by
  intro l
  induction l with
  | nil => intro s _ _; rfl
  | cons d l ih =>
    intro s hs hl
    have hd := hl d (List.mem_cons_self d l)
    rw [List.foldl_cons, List.foldl_cons]
    obtain ⟨qs, hqs⟩ : ∃ q, cursorScore c mx s = .fin q := by
      cases hcs : cursorScore c mx s <;> simp_all [JSNum.isFin]
    obtain ⟨qd, hqd⟩ : ∃ q, cursorScore c mx d = .fin q := by
      cases hcd : cursorScore c mx d <;> simp_all [JSNum.isFin]
    have hsq : scoreQ c mx s = qs := by unfold scoreQ; rw [hqs]
    have hdq : scoreQ c mx d = qd := by unfold scoreQ; rw [hqd]
    have hcond : JSNum.lt (cursorScore c mx d) (cursorScore c mx s) = true
        ↔ scoreQ c mx d < scoreQ c mx s := by
      rw [hqs, hqd, hsq, hdq]
      simp [JSNum.lt]
    by_cases hlt : scoreQ c mx d < scoreQ c mx s
    · rw [if_pos (hcond.mpr hlt), if_pos hlt]
      exact ih d hd (fun e he => hl e (List.mem_cons_of_mem d he))
    · rw [if_neg (fun hc => hlt (hcond.mp hc)), if_neg hlt]
      exact ih s hs (fun e he => hl e (List.mem_cons_of_mem d he))

/-- The cursor reduce equals the spec's earliest-minimizer search on any
chart with everywhere-finite scores. -/
theorem cursorScan_eq_spec (c : Chart) (mx : ℚ)
    (hfin : ∀ d ∈ c.dataset, (cursorScore c mx d).isFin = true) :
    closestDatum c mx = specNearest c mx := by
  unfold closestDatum specNearest
  cases hds : c.dataset with
  | nil => rfl
  | cons x l =>
    rw [hds] at hfin
    have hx := hfin x (List.mem_cons_self x l)
    have hl : ∀ d ∈ l, (cursorScore c mx d).isFin = true :=
      fun d hd => hfin d (List.mem_cons_of_mem x hd)
    show some ((x :: l).foldl (fun acc d =>
        if JSNum.lt (cursorScore c mx d) (cursorScore c mx acc) then d else acc) x)
      = List.find? (fun d => decide (∀ e ∈ x :: l, scoreQ c mx d ≤ scoreQ c mx e)) (x :: l)
    rw [List.foldl_cons]
    rw [ite_self]
    rw [foldl_scan_congr c mx l x hx hl]
    rw [← argmin_foldl (scoreQ c mx) l x]

/-- Claim C3: within the plotted bounds the cursor-selected record is the
earliest record minimizing the pixel distance `|xScale(x(d)) - pointerX|`
over the full dataset (single linear scan, ties to the earlier record),
provided every record's pixel distance is a finite number. -/
theorem C3_thm (c : Chart) (mx my : ℚ) (hb : withinBounds c mx my = true)
    (hfin : ∀ d ∈ c.dataset, (cursorScore c mx d).isFin = true) :
    handleCursorSelect c mx my = specNearest c mx := by
  unfold handleCursorSelect
  rw [if_pos hb]
  exact cursorScan_eq_spec c mx hfin

/-- The chart a numeric x-domain derivation produces, with its stored
fields exposed. -/
theorem construct_ok_fields (w h : ℚ) (d0 : Rec) (ds' : List Rec) (xs y0 : SeriesOpt)
    (ys' : List SeriesOpt) (optsIn : OptionsIn) (lo hi : JSNum)
    (hx : getXDomain (d0 :: ds') xs.field = Except.ok (XDomain.nums lo hi)) :
    ∃ c, construct w h (d0 :: ds') ⟨some xs, y0 :: ys'⟩ optsIn = Except.ok c ∧
      c.xScale = XScale.linear ⟨niceLinearPair (lo, hi),
        ((resolveOptions optsIn).margin.left, w - (resolveOptions optsIn).margin.right)⟩ ∧
      c.yScale = ⟨niceLinearPair (getYDomain (d0 :: ds') (y0 :: ys')),
        (h - (resolveOptions optsIn).margin.bottom, (resolveOptions optsIn).margin.top)⟩ ∧
      c.dataset = d0 :: ds' ∧ c.xSerie = xs ∧ c.ySeries = y0 :: ys' :=
  ⟨_, construct_ok_of_xdom w h d0 ds' xs y0 ys' optsIn _ hx, rfl, rfl, rfl, rfl, rfl⟩

/-- Witness for C3: on the spec's own example, dataset `x = 0, 10` with
the pointer at pixel 700 (nearer `xScale 10 = 770` than `xScale 0 = 30`),
selection agrees with the spec scan and picks the `x = 10` record. -/
theorem C3_witness :
    ∃ c, construct 800 600
        [[(("x"), JSVal.num (.fin 0)), (("y"), JSVal.num (.fin 0))],
         [(("x"), JSVal.num (.fin 10)), (("y"), JSVal.num (.fin 10))]]
        ⟨some ⟨fun r => recGet r ("x"), ("x"), none⟩,
         [⟨fun r => recGet r ("y"), ("y"), none⟩]⟩ {} = Except.ok c ∧
      withinBounds c 700 300 = true ∧
      handleCursorSelect c 700 300 = specNearest c 700 ∧
      handleCursorSelect c 700 300
        = some [(("x"), JSVal.num (.fin 10)), (("y"), JSVal.num (.fin 10))] := by
  have hvals : (([[(("x"), JSVal.num (.fin 0)), (("y"), JSVal.num (.fin 0))],
      [(("x"), JSVal.num (.fin 10)), (("y"), JSVal.num (.fin 10))]] : List Rec).map
      (fun r => recGet r ("x"))).filter JSVal.isDefined
      = [JSVal.num (.fin 0), JSVal.num (.fin 10)] := rfl
  have hx := getXDomain_nums_eq _ (fun r => recGet r ("x")) _ _ hvals rfl rfl
  obtain ⟨c, hok, hxsc, hysc, hdset, hxser, hyser⟩ :=
    construct_ok_fields 800 600 _ _ ⟨fun r => recGet r ("x"), ("x"), none⟩
      ⟨fun r => recGet r ("y"), ("y"), none⟩ [] {} _ _ hx
  have hLM : JSNum.listMin
      ([JSVal.num (JSNum.fin 0), JSVal.num (JSNum.fin 10)].map JSVal.toNumber)
      = JSNum.fin 0 := by
    norm_num [JSVal.toNumber, JSNum.listMin, JSNum.min2, JSNum.le, JSNum.isNaN]
  have hLX : JSNum.listMax
      ([JSVal.num (JSNum.fin 0), JSVal.num (JSNum.fin 10)].map JSVal.toNumber)
      = JSNum.fin 10 := by
    norm_num [JSVal.toNumber, JSNum.listMax, JSNum.max2, JSNum.le, JSNum.isNaN]
  rw [hLM, hLX, niceLinearPair_0_10] at hxsc
  have hml : (resolveOptions ({} : OptionsIn)).margin = ⟨30, 30, 30, 30⟩ := rfl
  rw [hml] at hxsc hysc
  norm_num at hxsc hysc
  have hxr : c.xScale.range = (30, 770) := by
    rw [hxsc]
    rfl
  have hyr : c.yScale.range = (570, 30) := by
    rw [hysc]
  have hb : withinBounds c 700 300 = true := by
    unfold withinBounds
    rw [hxr, hyr]
    norm_num
  have happ0 : c.xScale.applyX (JSVal.num (JSNum.fin 0)) = JSNum.fin 30 := by
    rw [hxsc]
    show applyLinJS (JSNum.fin 0, JSNum.fin 10) ((30 : ℚ), (770 : ℚ))
      (JSVal.toNumber (JSVal.num (JSNum.fin 0))) = JSNum.fin 30
    rw [show JSVal.toNumber (JSVal.num (JSNum.fin 0)) = JSNum.fin 0 from rfl]
    rw [applyLinJS_fin 0 10 30 770 0 (by norm_num)]
    norm_num
  have happ10 : c.xScale.applyX (JSVal.num (JSNum.fin 10)) = JSNum.fin 770 := by
    rw [hxsc]
    show applyLinJS (JSNum.fin 0, JSNum.fin 10) ((30 : ℚ), (770 : ℚ))
      (JSVal.toNumber (JSVal.num (JSNum.fin 10))) = JSNum.fin 770
    rw [show JSVal.toNumber (JSVal.num (JSNum.fin 10)) = JSNum.fin 10 from rfl]
    rw [applyLinJS_fin 0 10 30 770 10 (by norm_num)]
    norm_num
  have hsc0 : cursorScore c 700 [(("x"), JSVal.num (.fin 0)), (("y"), JSVal.num (.fin 0))]
      = JSNum.fin 670 := by
    unfold cursorScore
    rw [hxser]
    rw [show (SeriesOpt.mk (fun r => recGet r ("x")) ("x") none).field
        [(("x"), JSVal.num (.fin 0)), (("y"), JSVal.num (.fin 0))]
        = JSVal.num (JSNum.fin 0) from rfl]
    rw [happ0]
    norm_num [JSNum.sub, JSNum.neg, JSNum.add, JSNum.abs]
  have hsc10 : cursorScore c 700 [(("x"), JSVal.num (.fin 10)), (("y"), JSVal.num (.fin 10))]
      = JSNum.fin 70 := by
    unfold cursorScore
    rw [hxser]
    rw [show (SeriesOpt.mk (fun r => recGet r ("x")) ("x") none).field
        [(("x"), JSVal.num (.fin 10)), (("y"), JSVal.num (.fin 10))]
        = JSVal.num (JSNum.fin 10) from rfl]
    rw [happ10]
    norm_num [JSNum.sub, JSNum.neg, JSNum.add, JSNum.abs]
  have hfin : ∀ d ∈ c.dataset, (cursorScore c 700 d).isFin = true := by
    rw [hdset]
    intro d hd
    rcases List.mem_cons.mp hd with h1 | h2
    · rw [h1, hsc0]
      rfl
    · rcases List.mem_cons.mp h2 with h3 | h4
      · rw [h3, hsc10]
        rfl
      · exact absurd h4 (List.not_mem_nil d)
  have hsel : handleCursorSelect c 700 300
      = some [(("x"), JSVal.num (.fin 10)), (("y"), JSVal.num (.fin 10))] := by
    unfold handleCursorSelect
    rw [if_pos hb]
    unfold closestDatum
    simp only [hdset]
    rw [List.foldl_cons, List.foldl_cons, List.foldl_nil]
    norm_num [JSNum.lt, hsc0, hsc10]
  exact ⟨c, hok, hb, C3_thm c 700 300 hb hfin, hsel⟩

/-! ## Claim C7 -/

/-- Counterexample to C7: `[...dataset]` copies the array but shares the
record objects, so a caller mutating a record it passed in changes the
data the chart subsequently reads, even though the array itself (and its
snapshot) is untouched. -/
theorem C7_counterexample :
    ∃ h h2 : JSHeap, h2.arrays = h.arrays ∧
      (∃ i ∈ datasetSnapshot h 0, h2.recs i ≠ h.recs i) ∧
      viewDataset (datasetSnapshot h 0) h2 ≠ viewDataset (datasetSnapshot h 0) h := by
  refine ⟨⟨fun _ => [0], fun _ => [(("x"), JSVal.num (.fin 1))]⟩,
    ⟨fun _ => [0], fun _ => [(("x"), JSVal.num (.fin 2))]⟩, rfl, ⟨0, by norm_num [datasetSnapshot], ?_⟩, ?_⟩
  all_goals intro hcontra
  case refine_1 =>
    have h1 : ([(("x"), JSVal.num (.fin 2))] : Rec) = [(("x"), JSVal.num (.fin 1))] := hcontra
    injection h1 with ha hb
    injection ha with h3 h4
    injection h4 with h5
    injection h5 with h6
    norm_num at h6
  case refine_2 =>
    have h1 : ([[(("x"), JSVal.num (.fin 2))]] : List Rec) = [[(("x"), JSVal.num (.fin 1))]] :=
      hcontra
    injection h1 with ha hb
    injection ha with h2 h4
    injection h2 with h3 h5
    injection h5 with h6
    injection h6 with h7
    norm_num at h7

/-- Claim C7 (amended): the array is copied on ingestion, so the chart's
view of its dataset is unaffected by any later caller-side change that
leaves the record objects intact (rebinding, push/splice on the passed
array, replacing its slots); record objects themselves are shared, not
copied. -/
theorem C7_amended_thm (h h2 : JSHeap) (r : ℕ) (hrecs : h2.recs = h.recs) :
    viewDataset (datasetSnapshot h r) h2 = viewDataset (datasetSnapshot h r) h := by
  unfold viewDataset
  rw [hrecs]

/-- Witness for C7 (amended): emptying the passed array after
construction leaves the chart's view unchanged. -/
theorem C7_witness :
    viewDataset (datasetSnapshot
        ⟨fun _ => [0], fun _ => [(("x"), JSVal.num (.fin 1))]⟩ 0)
      ⟨fun _ => [], fun _ => [(("x"), JSVal.num (.fin 1))]⟩
    = viewDataset (datasetSnapshot
        ⟨fun _ => [0], fun _ => [(("x"), JSVal.num (.fin 1))]⟩ 0)
      ⟨fun _ => [0], fun _ => [(("x"), JSVal.num (.fin 1))]⟩ :=
  C7_amended_thm ⟨fun _ => [0], fun _ => [(("x"), JSVal.num (.fin 1))]⟩
    ⟨fun _ => [], fun _ => [(("x"), JSVal.num (.fin 1))]⟩ 0 rfl

/-! ## The by-index join on clean targets (claims C4, C8, C9) -/

/-- `map` is the identity on a list it fixes pointwise. -/
theorem map_id_on {α : Type} (f : α → α) :
    ∀ l : List α, (∀ x ∈ l, f x = x) → l.map f = l := by
  intro l
  induction l with
  | nil => intro _; rfl
  | cons a l ih =>
    intro h
    rw [List.map_cons, h a (List.mem_cons_self a l),
      ih (fun x hx => h x (List.mem_cons_of_mem a hx))]

/-- A selector that matches nothing leaves the walk untouched: every
element survives and the whole data list is left for the enter phase. -/
theorem joinGo_none {δ : Type} (pred : Node → Bool) (upd : δ → Node → Node) :
    ∀ (cs : List Node) (ds : List δ), (∀ c ∈ cs, pred c = false) →
      joinGo pred upd cs ds = (cs, ds) := by
  intro cs
  induction cs with
  | nil => intro ds _; rfl
  | cons c cs ih =>
    intro ds hcs
    simp only [joinGo]
    rw [if_neg (by rw [hcs c (List.mem_cons_self c cs)]; exact Bool.false_ne_true)]
    rw [ih ds (fun c' hc' => hcs c' (List.mem_cons_of_mem c hc'))]

/-- A join against a selector that matches nothing appends one new
element per datum. -/
theorem joinByIndex_none {δ : Type} (cs : List Node) (pred : Node → Bool) (ds : List δ)
    (ent : δ → Node) (upd : δ → Node → Node) (h : ∀ c ∈ cs, pred c = false) :
    joinByIndex cs pred ds ent upd = cs ++ ds.map ent := by
  unfold joinByIndex
  rw [joinGo_none pred upd cs ds h]

/-- The walk over non-matching elements followed by a single matching
element, with a single datum: the element is updated in place. -/
theorem joinGo_append_one {δ : Type} (pred : Node → Bool) (upd : δ → Node → Node)
    (g : Node) (d : δ) :
    ∀ (cs : List Node), (∀ c ∈ cs, pred c = false) → pred g = true →
      joinGo pred upd (cs ++ [g]) [d] = (cs ++ [upd d g], []) := by
  intro cs
  induction cs with
  | nil =>
    intro _ hg
    simp only [List.nil_append, joinGo]
    rw [if_pos hg]
  | cons c cs ih =>
    intro hcs hg
    simp only [List.cons_append, joinGo]
    rw [if_neg (by rw [hcs c (List.mem_cons_self c cs)]; exact Bool.false_ne_true)]
    simp only [List.append_eq]
    rw [ih (fun c' hc' => hcs c' (List.mem_cons_of_mem c hc')) hg]

/-- The single-datum join against one matching trailing element updates
it in place and enters nothing. -/
theorem joinByIndex_append_one {δ : Type} (cs : List Node) (pred : Node → Bool)
    (g : Node) (d : δ) (ent : δ → Node) (upd : δ → Node → Node)
    (h : ∀ c ∈ cs, pred c = false) (hg : pred g = true) :
    joinByIndex (cs ++ [g]) pred [d] ent upd = cs ++ [upd d g] := by
  unfold joinByIndex
  rw [joinGo_append_one pred upd g d cs h hg]
  simp

/-- When the matching elements, in document order, pair off with the data
and every update fixes its element, the walk is the identity. -/
theorem joinGo_update_self {δ : Type} (pred : Node → Bool) (upd : δ → Node → Node) :
    ∀ (cs : List Node) (ds : List δ),
      List.Forall₂ (fun d e => upd d e = e) ds (cs.filter pred) →
      joinGo pred upd cs ds = (cs, []) := by
  intro cs
  induction cs with
  | nil =>
    intro ds h
    rw [List.filter_nil] at h
    cases h
    rfl
  | cons c cs ih =>
    intro ds h
    by_cases hc : pred c = true
    · rw [List.filter_cons_of_pos hc] at h
      cases h with
      | cons hupd htail =>
        simp only [joinGo]
        rw [if_pos hc]
        rw [ih _ htail]
        simp only []
        rw [hupd]
    · rw [List.filter_cons_of_neg (by simpa using hc)] at h
      simp only [joinGo]
      rw [if_neg hc]
      rw [ih _ h]

/-- Data pairing with its own entered elements under a self-fixing
update. -/
theorem forall₂_map_self {δ : Type} (upd : δ → Node → Node) (ent : δ → Node)
    (h : ∀ d, upd d (ent d) = ent d) :
    ∀ ds : List δ, List.Forall₂ (fun d e => upd d e = e) ds (ds.map ent) := by
  intro ds
  induction ds with
  | nil => exact List.Forall₂.nil
  | cons d ds ih => exact List.Forall₂.cons (h d) ih

/-- Joining data onto exactly its own previously entered elements (plus
non-matching siblings contributing nothing) is the identity. -/
theorem joinByIndex_update_self {δ : Type} (cs : List Node) (pred : Node → Bool)
    (ds : List δ) (ent : δ → Node) (upd : δ → Node → Node)
    (h : List.Forall₂ (fun d e => upd d e = e) ds (cs.filter pred)) :
    joinByIndex cs pred ds ent upd = cs := by
  unfold joinByIndex
  rw [joinGo_update_self pred upd cs ds h]
  simp

/-- The shared `.series` group join on a target with no `.series` child:
one fresh empty group is appended. -/
theorem seriesGroupJoin_clean (cs : List Node)
    (h : ∀ c ∈ cs, c.hasClass ("series") = false) :
    seriesGroupJoin cs = cs ++ [Node.mk ("g") [(("class"), AttrV.s ("series"))] []] := by
  unfold seriesGroupJoin
  rw [joinByIndex_none cs _ _ _ _ h]
  rfl

/-- The shared `.series` group join with the group already present (as
the trailing child): the update rewrites the same class, a no-op. -/
theorem seriesGroupJoin_stable (cs gcs : List Node)
    (h : ∀ c ∈ cs, c.hasClass ("series") = false) :
    seriesGroupJoin (cs ++ [Node.mk ("g") [(("class"), AttrV.s ("series"))] gcs])
      = cs ++ [Node.mk ("g") [(("class"), AttrV.s ("series"))] gcs] := by
  unfold seriesGroupJoin
  rw [joinByIndex_append_one cs _ _ () _ _ h (by rfl)]
  rfl

/-- The entered scatter circle exposes its bound label. -/
theorem scatterEnter_getLabel (c : Chart) (dat : ScatterDatum) :
    (scatterEnter c dat).getAttr ("data-label") = some (AttrV.s dat.label) := rfl

/-- The entered custom-scatter path exposes its bound label. -/
theorem customEnter_getLabel (c : Chart) (size : JSNum) (dat : CustomDatum) :
    (customEnter c size dat).getAttr ("data-label") = some (AttrV.s dat.label) := rfl

/-- `[data-label]` test against a node whose stored label differs. -/
theorem labelIs_of_getAttr_ne (nd : Node) (lab l : String)
    (hget : nd.getAttr ("data-label") = some (AttrV.s lab)) (hne : lab ≠ l) :
    nd.labelIs l = false := by
  unfold Node.labelIs
  rw [hget]
  simp [hne]

/-- `[data-label]` test against a node carrying exactly that label. -/
theorem labelIs_of_getAttr_self (nd : Node) (lab : String)
    (hget : nd.getAttr ("data-label") = some (AttrV.s lab)) :
    nd.labelIs lab = true := by
  unfold Node.labelIs
  rw [hget]
  simp

/-- One `ScatterChart.#renderSerie` pass on a target whose children hold
no `.series` group: appends the group holding one entered circle per
record. -/
theorem scatterRenderSerie_clean (c : Chart) (yField : Rec → JSVal) (color : String)
    (radii : ℚ) (label : String) (tag : String) (ats : List (String × AttrV))
    (cs : List Node) (hcs : ∀ nd ∈ cs, nd.hasClass ("series") = false) :
    scatterRenderSerie c yField color radii label (Node.mk tag ats cs)
      = Node.mk tag ats (cs ++ [Node.mk ("g") [(("class"), AttrV.s ("series"))]
          ((c.dataset.map (fun d => ScatterDatum.mk (c.xSerie.field d) (yField d) color
            (radiusOverride d radii) label)).map (scatterEnter c))]) := by
  simp only [scatterRenderSerie, Node.tag, Node.attrs, Node.children]
  rw [seriesGroupJoin_clean cs hcs]
  rw [List.map_append]
  rw [map_id_on _ cs (fun nd hnd => by simp [hcs nd hnd])]
  rfl

/-- One `ScatterChart.#renderSerie` pass with the group present and no
existing circle matching the pass's label: appends this pass's circles
after the existing ones. -/
theorem scatterRenderSerie_step (c : Chart) (yField : Rec → JSVal) (color : String)
    (radii : ℚ) (label : String) (tag : String) (ats : List (String × AttrV))
    (cs gcs : List Node) (hcs : ∀ nd ∈ cs, nd.hasClass ("series") = false)
    (hgcs : ∀ nd ∈ gcs, (nd.hasClass ("scatter-point") && nd.labelIs label) = false) :
    scatterRenderSerie c yField color radii label
        (Node.mk tag ats (cs ++ [Node.mk ("g") [(("class"), AttrV.s ("series"))] gcs]))
      = Node.mk tag ats (cs ++ [Node.mk ("g") [(("class"), AttrV.s ("series"))]
          (gcs ++ (c.dataset.map (fun d => ScatterDatum.mk (c.xSerie.field d) (yField d) color
            (radiusOverride d radii) label)).map (scatterEnter c))]) := by
  simp only [scatterRenderSerie, Node.tag, Node.attrs, Node.children]
  rw [seriesGroupJoin_stable cs gcs hcs]
  rw [List.map_append]
  rw [map_id_on _ cs (fun nd hnd => by simp [hcs nd hnd])]
  rw [List.map_cons, List.map_nil]
  rw [show (Node.mk ("g") [(("class"), AttrV.s ("series"))] gcs).hasClass ("series")
    = true from rfl]
  rw [if_pos rfl]
  simp only [Node.withChildren, Node.children, Node.tag, Node.attrs]
  rw [joinByIndex_none gcs _ _ _ _ hgcs]

/-- The full `ScatterChart.renderSeries` fold over the remaining
descriptors, with the group already present: under pairwise-distinct
labels (fresh with respect to the circles already drawn), each
descriptor appends one circle per record, in order. -/
theorem scatterRenderSeries_fold (c : Chart) :
    ∀ (series : List ScatterSeriesOpt) (tag : String) (ats : List (String × AttrV))
      (cs gcs : List Node),
      (∀ nd ∈ cs, nd.hasClass ("series") = false) →
      (∀ nd ∈ gcs, ∀ s ∈ series,
        (nd.hasClass ("scatter-point") && nd.labelIs s.label) = false) →
      (series.map (fun s => s.label)).Nodup →
      List.foldl (fun acc s => scatterRenderSerie c s.field (s.color.getD ("steelblue"))
          (s.radii.getD 4) s.label acc)
        (Node.mk tag ats (cs ++ [Node.mk ("g") [(("class"), AttrV.s ("series"))] gcs])) series
      = Node.mk tag ats (cs ++ [Node.mk ("g") [(("class"), AttrV.s ("series"))]
          (gcs ++ series.flatMap (fun s => (c.dataset.map (fun d =>
            ScatterDatum.mk (c.xSerie.field d) (s.field d) (s.color.getD ("steelblue"))
              (radiusOverride d (s.radii.getD 4)) s.label)).map (scatterEnter c)))]) := by
  intro series
  induction series with
  | nil =>
    intro tag ats cs gcs hcs hg hnd
    simp
  | cons s rest ih =>
    intro tag ats cs gcs hcs hg hnd
    rw [List.foldl_cons]
    rw [scatterRenderSerie_step c s.field (s.color.getD ("steelblue")) (s.radii.getD 4)
      s.label tag ats cs gcs hcs
      (fun nd hnd' => hg nd hnd' s (List.mem_cons_self s rest))]
    rw [ih tag ats cs _ hcs ?hg2 ?hnd2]
    case hnd2 =>
      rw [List.map_cons] at hnd
      exact hnd.of_cons
    case hg2 =>
      intro nd hnd' s' hs'
      rcases List.mem_append.mp hnd' with hold | hnew
      · exact hg nd hold s' (List.mem_cons_of_mem s hs')
      · obtain ⟨dat, hdat, rfl⟩ := List.mem_map.mp hnew
        obtain ⟨d, hd, rfl⟩ := List.mem_map.mp hdat
        have hlabne : s.label ≠ s'.label := by
          rw [List.map_cons] at hnd
          intro heq
          exact (List.nodup_cons.mp hnd).1 (heq ▸ List.mem_map_of_mem (fun t => t.label) hs')
        have hli := labelIs_of_getAttr_ne _ s.label s'.label
          (scatterEnter_getLabel c (ScatterDatum.mk (c.xSerie.field d) (s.field d)
            (s.color.getD ("steelblue")) (radiusOverride d (s.radii.getD 4)) s.label)) hlabne
        rw [hli]
        exact Bool.and_false _
    rw [List.append_assoc]
    rw [List.flatMap_cons]

/-- The children of the single `.series` group among clean siblings. -/
theorem seriesChildren_of (tag : String) (ats : List (String × AttrV)) (cs gcs : List Node)
    (hcs : ∀ nd ∈ cs, nd.hasClass ("series") = false) :
    seriesChildren (Node.mk tag ats
        (cs ++ [Node.mk ("g") [(("class"), AttrV.s ("series"))] gcs])) = gcs := by
  unfold seriesChildren
  simp only [Node.children]
  rw [List.filter_append]
  have h1 : cs.filter (fun c => c.hasClass ("series")) = [] := by
    rw [List.filter_eq_nil_iff]
    intro a ha
    simp [hcs a ha]
  rw [h1, List.nil_append]
  rw [List.filter_cons_of_pos (by rfl)]
  rw [List.filter_nil]
  simp [Node.children]

/-- A target with no `.series` child draws from an empty series list. -/
theorem seriesChildren_none (tag : String) (ats : List (String × AttrV)) (cs : List Node)
    (hcs : ∀ nd ∈ cs, nd.hasClass ("series") = false) :
    seriesChildren (Node.mk tag ats cs) = [] := by
  unfold seriesChildren
  simp only [Node.children]
  have h1 : cs.filter (fun c => c.hasClass ("series")) = [] := by
    rw [List.filter_eq_nil_iff]
    intro a ha
    simp [hcs a ha]
  rw [h1]
  rfl

/-- A clean target's own children carry none of the join marker
classes. -/
theorem cleanTarget_top (svg : Node) (h : cleanTarget svg = true) :
    ∀ nd ∈ svg.children, markedNode nd = false := by
  unfold cleanTarget at h
  rw [decide_eq_true_eq] at h
  unfold countDepth3 at h
  intro nd hnd
  have h0 := (List.sum_eq_zero_iff).mp h _
    (List.mem_map_of_mem (fun c => (if markedNode c then 1 else 0) +
      (c.children.map (fun cc =>
        (if markedNode cc then 1 else 0) + cc.children.countP markedNode)).sum) hnd)
  rcases Nat.add_eq_zero.mp h0 with ⟨h1, -⟩
  by_cases hm : markedNode nd = true
  · rw [if_pos hm] at h1
    exact absurd h1 one_ne_zero
  · simpa using hm

/-- Unfolding the marker-class disjunction. -/
theorem markedNode_false (nd : Node) (h : markedNode nd = false) :
    nd.hasClass ("series") = false ∧ nd.hasClass ("series-group") = false ∧
      nd.hasClass ("serie") = false ∧ nd.hasClass ("scatter-point") = false := by
  unfold markedNode at h
  simp only [Bool.or_eq_false_iff] at h
  exact ⟨h.1.1.1, h.1.1.2, h.1.2, h.2⟩

/-- Summing a constant over a list. -/
theorem sum_const_nat {α : Type} (n : ℕ) :
    ∀ l : List α, (l.map (fun _ => n)).sum = l.length * n := by
  intro l
  induction l with
  | nil => simp
  | cons a l ih =>
    rw [List.map_cons, List.sum_cons, ih, List.length_cons]
    ring

/-- Claim C9 (amended): on a clean render target, and with
pairwise-distinct descriptor labels, `ScatterChart.renderSeries` draws
exactly one circle per (descriptor, record) pair — the group's children
are the per-descriptor lists of entered circles, whose `r` attribute is
the record's `radii` field if it is a non-`NaN` number, else the
descriptor's configured radius, else the default `4` — so the element
count is `#descriptors * #records`. -/
theorem C9_amended_thm (sc : ScatterChart) (svg : Node)
    (hclean : cleanTarget svg = true)
    (hnd : (sc.ySeriesS.map (fun s => s.label)).Nodup) :
    seriesChildren (scatterRenderSeries sc svg)
      = sc.ySeriesS.flatMap (fun s => (sc.base.dataset.map (fun d =>
          ScatterDatum.mk (sc.base.xSerie.field d) (s.field d) (s.color.getD ("steelblue"))
            (radiusOverride d (s.radii.getD 4)) s.label)).map (scatterEnter sc.base)) ∧
    (seriesChildren (scatterRenderSeries sc svg)).length
      = sc.ySeriesS.length * sc.base.dataset.length := by
  cases svg with
  | mk tag ats cs =>
    have htop := cleanTarget_top _ hclean
    have hcs : ∀ nd ∈ cs, nd.hasClass ("series") = false :=
      fun nd hnd' => (markedNode_false nd (htop nd hnd')).1
    have hmain : seriesChildren (scatterRenderSeries sc (Node.mk tag ats cs))
        = sc.ySeriesS.flatMap (fun s => (sc.base.dataset.map (fun d =>
            ScatterDatum.mk (sc.base.xSerie.field d) (s.field d) (s.color.getD ("steelblue"))
              (radiusOverride d (s.radii.getD 4)) s.label)).map (scatterEnter sc.base)) := by
      unfold scatterRenderSeries
      cases hys : sc.ySeriesS with
      | nil =>
        rw [List.foldl_nil, List.flatMap_nil]
        exact seriesChildren_none tag ats cs hcs
      | cons s rest =>
        rw [List.foldl_cons]
        rw [scatterRenderSerie_clean sc.base s.field (s.color.getD ("steelblue"))
          (s.radii.getD 4) s.label tag ats cs hcs]
        rw [hys] at hnd
        rw [List.map_cons] at hnd
        rw [scatterRenderSeries_fold sc.base rest tag ats cs _ hcs ?hg hnd.of_cons]
        case hg =>
          intro nd hnd' s' hs'
          obtain ⟨dat, hdat, rfl⟩ := List.mem_map.mp hnd'
          obtain ⟨d, hd, rfl⟩ := List.mem_map.mp hdat
          have hlabne : s.label ≠ s'.label := by
            intro heq
            exact (List.nodup_cons.mp hnd).1
              (heq ▸ List.mem_map_of_mem (fun t => t.label) hs')
          have hli := labelIs_of_getAttr_ne _ s.label s'.label
            (scatterEnter_getLabel sc.base (ScatterDatum.mk (sc.base.xSerie.field d)
              (s.field d) (s.color.getD ("steelblue"))
              (radiusOverride d (s.radii.getD 4)) s.label)) hlabne
          rw [hli]
          exact Bool.and_false _
        rw [seriesChildren_of tag ats cs _ hcs]
        rw [List.flatMap_cons]
    refine ⟨hmain, ?_⟩
    rw [hmain, List.length_flatMap]
    have hc : ∀ s : ScatterSeriesOpt,
        ((sc.base.dataset.map (fun d =>
          ScatterDatum.mk (sc.base.xSerie.field d) (s.field d) (s.color.getD ("steelblue"))
            (radiusOverride d (s.radii.getD 4)) s.label)).map (scatterEnter sc.base)).length
        = sc.base.dataset.length := by
      intro s
      rw [List.length_map, List.length_map]
    calc (sc.ySeriesS.map (fun s => ((sc.base.dataset.map (fun d =>
          ScatterDatum.mk (sc.base.xSerie.field d) (s.field d) (s.color.getD ("steelblue"))
            (radiusOverride d (s.radii.getD 4)) s.label)).map (scatterEnter sc.base)).length)).sum
        = (sc.ySeriesS.map (fun _ => sc.base.dataset.length)).sum := by
          rw [List.map_congr_left (fun s _ => hc s)]
      _ = sc.ySeriesS.length * sc.base.dataset.length := sum_const_nat _ _

/-- Counterexample to C9 as stated: two descriptors that share the label
`a` on a one-record dataset give 2 (descriptor, record) pairs but only
one drawn circle — the second pass's join matches the first pass's
circle by label and updates it instead of adding one. -/
theorem C9_counterexample :
    ∃ c, construct 800 600 [[(("x"), JSVal.num (.fin 0))]]
        ⟨some ⟨fun r => recGet r ("x"), ("x"), none⟩,
         [(⟨⟨fun r => recGet r ("y"), ("a"), none⟩, none⟩ : ScatterSeriesOpt).toSeriesOpt,
          (⟨⟨fun r => recGet r ("z"), ("a"), none⟩, none⟩ : ScatterSeriesOpt).toSeriesOpt]⟩
        {} = Except.ok c ∧
      constructScatter 800 600 [[(("x"), JSVal.num (.fin 0))]]
        (some ⟨fun r => recGet r ("x"), ("x"), none⟩)
        [⟨⟨fun r => recGet r ("y"), ("a"), none⟩, none⟩,
         ⟨⟨fun r => recGet r ("z"), ("a"), none⟩, none⟩] {}
        = Except.ok (⟨c, [⟨⟨fun r => recGet r ("y"), ("a"), none⟩, none⟩,
          ⟨⟨fun r => recGet r ("z"), ("a"), none⟩, none⟩]⟩ : ScatterChart) ∧
      ((⟨c, [⟨⟨fun r => recGet r ("y"), ("a"), none⟩, none⟩,
          ⟨⟨fun r => recGet r ("z"), ("a"), none⟩, none⟩]⟩ : ScatterChart).ySeriesS.length *
        (⟨c, [⟨⟨fun r => recGet r ("y"), ("a"), none⟩, none⟩,
          ⟨⟨fun r => recGet r ("z"), ("a"), none⟩, none⟩]⟩ : ScatterChart).base.dataset.length
        = 2) ∧
      (seriesChildren (scatterRenderSeries
        ⟨c, [⟨⟨fun r => recGet r ("y"), ("a"), none⟩, none⟩,
          ⟨⟨fun r => recGet r ("z"), ("a"), none⟩, none⟩]⟩ (Node.mk ("svg") [] []))).length
        = 1 := by
  have hvals : (([[(("x"), JSVal.num (.fin 0))]] : List Rec).map
      (fun r => recGet r ("x"))).filter JSVal.isDefined = [JSVal.num (.fin 0)] := rfl
  have hx := getXDomain_nums_eq _ (fun r => recGet r ("x")) _ _ hvals rfl rfl
  have hok := construct_ok_of_xdom 800 600 _ _ ⟨fun r => recGet r ("x"), ("x"), none⟩
      ((⟨⟨fun r => recGet r ("y"), ("a"), none⟩, none⟩ : ScatterSeriesOpt).toSeriesOpt)
      [(⟨⟨fun r => recGet r ("z"), ("a"), none⟩, none⟩ : ScatterSeriesOpt).toSeriesOpt]
      {} _ hx
  refine ⟨_, hok, ?_, ?_, ?_⟩
  · unfold constructScatter
    simp only [List.map_cons, List.map_nil]
    rw [hok]
    rfl
  · rfl
  · rfl

/-- Witness for C9 (amended): one descriptor, one record, a clean empty
svg: exactly `1 * 1` circle is drawn. -/
theorem C9_witness :
    cleanTarget (Node.mk ("svg") [] []) = true ∧
    (seriesChildren (scatterRenderSeries
      ⟨⟨800, 600, [[(("x"), JSVal.num (.fin 0))]],
        ⟨fun r => recGet r ("x"), ("x"), none⟩,
        [⟨fun r => recGet r ("y"), ("y"), none⟩],
        ⟨⟨30, 30, 30, 30⟩, 3 / 2, false, 5, 10, false⟩,
        XScale.linear ⟨(.fin 0, .fin 10), (30, 770)⟩,
        ⟨(.fin 0, .fin 10), (570, 30)⟩⟩,
       [⟨⟨fun r => recGet r ("y"), ("a"), none⟩, none⟩]⟩
      (Node.mk ("svg") [] []))).length = 1 * 1 := by
  refine ⟨rfl, ?_⟩
  have h := C9_amended_thm
    ⟨⟨800, 600, [[(("x"), JSVal.num (.fin 0))]],
      ⟨fun r => recGet r ("x"), ("x"), none⟩,
      [⟨fun r => recGet r ("y"), ("y"), none⟩],
      ⟨⟨30, 30, 30, 30⟩, 3 / 2, false, 5, 10, false⟩,
      XScale.linear ⟨(.fin 0, .fin 10), (30, 770)⟩,
      ⟨(.fin 0, .fin 10), (570, 30)⟩⟩,
     [⟨⟨fun r => recGet r ("y"), ("a"), none⟩, none⟩]⟩
    (Node.mk ("svg") [] []) rfl (by simp)
  exact h.2

/-- One `CustomScatterChart.#renderSerie` pass on a target with no
`.series` group: appends the group holding one entered path per
record. -/
theorem customRenderSerie_clean (c : Chart) (yField : Rec → JSVal) (color : String)
    (iconParam : String) (size : JSNum) (label : String) (tag : String)
    (ats : List (String × AttrV)) (cs : List Node)
    (hcs : ∀ nd ∈ cs, nd.hasClass ("series") = false) :
    customRenderSerie c yField color iconParam size label (Node.mk tag ats cs)
      = Node.mk tag ats (cs ++ [Node.mk ("g") [(("class"), AttrV.s ("series"))]
          ((c.dataset.map (fun d => CustomDatum.mk (c.xSerie.field d) (yField d) color
            (radiusOverride d 4) (iconOverride d iconParam) label)).map
              (customEnter c size))]) := by
  simp only [customRenderSerie, Node.tag, Node.attrs, Node.children]
  rw [seriesGroupJoin_clean cs hcs]
  rw [List.map_append]
  rw [map_id_on _ cs (fun nd hnd => by simp [hcs nd hnd])]
  rfl

/-- One `CustomScatterChart.#renderSerie` pass with the group present and
no existing element matching the pass's label: appends its paths. -/
theorem customRenderSerie_step (c : Chart) (yField : Rec → JSVal) (color : String)
    (iconParam : String) (size : JSNum) (label : String) (tag : String)
    (ats : List (String × AttrV)) (cs gcs : List Node)
    (hcs : ∀ nd ∈ cs, nd.hasClass ("series") = false)
    (hgcs : ∀ nd ∈ gcs, (nd.hasClass ("scatter-point") && nd.labelIs label) = false) :
    customRenderSerie c yField color iconParam size label
        (Node.mk tag ats (cs ++ [Node.mk ("g") [(("class"), AttrV.s ("series"))] gcs]))
      = Node.mk tag ats (cs ++ [Node.mk ("g") [(("class"), AttrV.s ("series"))]
          (gcs ++ (c.dataset.map (fun d => CustomDatum.mk (c.xSerie.field d) (yField d) color
            (radiusOverride d 4) (iconOverride d iconParam) label)).map
              (customEnter c size))]) := by
  simp only [customRenderSerie, Node.tag, Node.attrs, Node.children]
  rw [seriesGroupJoin_stable cs gcs hcs]
  rw [List.map_append]
  rw [map_id_on _ cs (fun nd hnd => by simp [hcs nd hnd])]
  rw [List.map_cons, List.map_nil]
  rw [show (Node.mk ("g") [(("class"), AttrV.s ("series"))] gcs).hasClass ("series")
    = true from rfl]
  rw [if_pos rfl]
  simp only [Node.withChildren, Node.children, Node.tag, Node.attrs]
  rw [joinByIndex_none gcs _ _ _ _ hgcs]

/-- The full `CustomScatterChart.renderSeries` fold over the remaining
descriptors with the group present, under fresh pairwise-distinct
labels. -/
theorem customRenderSeries_fold (c : Chart) :
    ∀ (series : List CustomSeriesOpt) (tag : String) (ats : List (String × AttrV))
      (cs gcs : List Node),
      (∀ nd ∈ cs, nd.hasClass ("series") = false) →
      (∀ nd ∈ gcs, ∀ s ∈ series,
        (nd.hasClass ("scatter-point") && nd.labelIs s.label) = false) →
      (series.map (fun s => s.label)).Nodup →
      List.foldl (fun acc s => customRenderSerie c s.field (s.color.getD ("steelblue"))
          (s.icon.getD ("")) (customValidSize s.size) s.label acc)
        (Node.mk tag ats (cs ++ [Node.mk ("g") [(("class"), AttrV.s ("series"))] gcs])) series
      = Node.mk tag ats (cs ++ [Node.mk ("g") [(("class"), AttrV.s ("series"))]
          (gcs ++ series.flatMap (fun s => (c.dataset.map (fun d =>
            CustomDatum.mk (c.xSerie.field d) (s.field d) (s.color.getD ("steelblue"))
              (radiusOverride d 4) (iconOverride d (s.icon.getD (""))) s.label)).map
                (customEnter c (customValidSize s.size))))]) := by
  intro series
  induction series with
  | nil =>
    intro tag ats cs gcs hcs hg hnd
    simp
  | cons s rest ih =>
    intro tag ats cs gcs hcs hg hnd
    rw [List.foldl_cons]
    rw [customRenderSerie_step c s.field (s.color.getD ("steelblue")) (s.icon.getD (""))
      (customValidSize s.size) s.label tag ats cs gcs hcs
      (fun nd hnd' => hg nd hnd' s (List.mem_cons_self s rest))]
    rw [ih tag ats cs _ hcs ?hg2 ?hnd2]
    case hnd2 =>
      rw [List.map_cons] at hnd
      exact hnd.of_cons
    case hg2 =>
      intro nd hnd' s' hs'
      rcases List.mem_append.mp hnd' with hold | hnew
      · exact hg nd hold s' (List.mem_cons_of_mem s hs')
      · obtain ⟨dat, hdat, rfl⟩ := List.mem_map.mp hnew
        obtain ⟨d, hd, rfl⟩ := List.mem_map.mp hdat
        have hlabne : s.label ≠ s'.label := by
          rw [List.map_cons] at hnd
          intro heq
          exact (List.nodup_cons.mp hnd).1
            (heq ▸ List.mem_map_of_mem (fun t => t.label) hs')
        have hli := labelIs_of_getAttr_ne _ s.label s'.label
          (customEnter_getLabel c (customValidSize s.size)
            (CustomDatum.mk (c.xSerie.field d) (s.field d) (s.color.getD ("steelblue"))
              (radiusOverride d 4) (iconOverride d (s.icon.getD (""))) s.label)) hlabne
        rw [hli]
        exact Bool.and_false _
    rw [List.append_assoc]
    rw [List.flatMap_cons]

/-- Claim C8 (amended): on a clean target with pairwise-distinct labels,
`CustomScatterChart.renderSeries` draws one path per (descriptor,
record) pair whose path data follows the per-record rule `d.icon ??
descriptorIcon` — a nonempty icon string wins, else the generated circle
path of the scatter radius rule with fallback 4 — and whose transform is
`translate(mapped coordinate) scale(size)` with the descriptor's size
factor validated to 1 unless it is a positive number. -/
theorem C8_amended_thm (cc : CustomScatterChart) (svg : Node)
    (hclean : cleanTarget svg = true)
    (hnd : (cc.ySeriesC.map (fun s => s.label)).Nodup) :
    seriesChildren (customRenderSeries cc svg)
      = cc.ySeriesC.flatMap (fun s => (cc.base.dataset.map (fun d =>
          CustomDatum.mk (cc.base.xSerie.field d) (s.field d) (s.color.getD ("steelblue"))
            (radiusOverride d 4) (iconOverride d (s.icon.getD (""))) s.label)).map
              (customEnter cc.base (customValidSize s.size))) ∧
    ∀ s : CustomSeriesOpt, ∀ d : Rec,
      (customEnter cc.base (customValidSize s.size)
          (CustomDatum.mk (cc.base.xSerie.field d) (s.field d) (s.color.getD ("steelblue"))
            (radiusOverride d 4) (iconOverride d (s.icon.getD (""))) s.label)).getAttr ("d")
        = some (pathDAttr (iconOverride d (s.icon.getD (""))) (radiusOverride d 4)) ∧
      (customEnter cc.base (customValidSize s.size)
          (CustomDatum.mk (cc.base.xSerie.field d) (s.field d) (s.color.getD ("steelblue"))
            (radiusOverride d 4) (iconOverride d (s.icon.getD (""))) s.label)).getAttr
          ("transform")
        = some (AttrV.translateScale (cc.base.xScale.applyX (cc.base.xSerie.field d))
            (cc.base.yScale.applyY (s.field d)) (customValidSize s.size)) := by
  refine ⟨?_, fun s d => ⟨rfl, rfl⟩⟩
  cases svg with
  | mk tag ats cs =>
    have htop := cleanTarget_top _ hclean
    have hcs : ∀ nd ∈ cs, nd.hasClass ("series") = false :=
      fun nd hnd' => (markedNode_false nd (htop nd hnd')).1
    unfold customRenderSeries
    cases hys : cc.ySeriesC with
    | nil =>
      rw [List.foldl_nil, List.flatMap_nil]
      exact seriesChildren_none tag ats cs hcs
    | cons s rest =>
      rw [List.foldl_cons]
      rw [customRenderSerie_clean cc.base s.field (s.color.getD ("steelblue"))
        (s.icon.getD ("")) (customValidSize s.size) s.label tag ats cs hcs]
      rw [hys] at hnd
      rw [List.map_cons] at hnd
      rw [customRenderSeries_fold cc.base rest tag ats cs _ hcs ?hg hnd.of_cons]
      case hg =>
        intro nd hnd' s' hs'
        obtain ⟨dat, hdat, rfl⟩ := List.mem_map.mp hnd'
        obtain ⟨d, hd, rfl⟩ := List.mem_map.mp hdat
        have hlabne : s.label ≠ s'.label := by
          intro heq
          exact (List.nodup_cons.mp hnd).1
            (heq ▸ List.mem_map_of_mem (fun t => t.label) hs')
        have hli := labelIs_of_getAttr_ne _ s.label s'.label
          (customEnter_getLabel cc.base (customValidSize s.size)
            (CustomDatum.mk (cc.base.xSerie.field d) (s.field d) (s.color.getD ("steelblue"))
              (radiusOverride d 4) (iconOverride d (s.icon.getD (""))) s.label)) hlabne
        rw [hli]
        exact Bool.and_false _
      rw [seriesChildren_of tag ats cs _ hcs]
      rw [List.flatMap_cons]

/-- Counterexample to C8 as stated: the record's own `icon` field wins
over the descriptor's icon (`d.icon ?? icon`), so with descriptor icon
`M0 0` and record icon `override` the drawn path data is not the
descriptor's icon string. -/
theorem C8_counterexample :
    ((seriesChildren (customRenderSeries
        ⟨⟨800, 600, [[(("x"), JSVal.num (.fin 0)), (("icon"), JSVal.str ("override"))]],
          ⟨fun r => recGet r ("x"), ("x"), none⟩,
          [⟨fun r => recGet r ("y"), ("y"), none⟩],
          ⟨⟨30, 30, 30, 30⟩, 3 / 2, false, 5, 10, false⟩,
          XScale.linear ⟨(.fin 0, .fin 10), (30, 770)⟩,
          ⟨(.fin 0, .fin 10), (570, 30)⟩⟩,
         [⟨⟨fun r => recGet r ("y"), ("a"), none⟩, some ("M0 0"), none⟩]⟩
        (Node.mk ("svg") [] []))).map (fun nd => nd.getAttr ("d")))
      = [some (AttrV.pathIcon ("override"))] ∧
    some (AttrV.pathIcon ("override")) ≠ some (AttrV.pathIcon ("M0 0")) := by
  refine ⟨rfl, by decide⟩

/-- Witness for C8 (amended): one descriptor with icon `M2 2` and size
2, one record without a per-record icon: the single drawn path follows
the per-record rule (here falling back to the descriptor's icon) and
carries the translate-scale transform. -/
theorem C8_witness :
    cleanTarget (Node.mk ("svg") [] []) = true ∧
    seriesChildren (customRenderSeries
        ⟨⟨800, 600, [[(("x"), JSVal.num (.fin 0))]],
          ⟨fun r => recGet r ("x"), ("x"), none⟩,
          [⟨fun r => recGet r ("y"), ("y"), none⟩],
          ⟨⟨30, 30, 30, 30⟩, 3 / 2, false, 5, 10, false⟩,
          XScale.linear ⟨(.fin 0, .fin 10), (30, 770)⟩,
          ⟨(.fin 0, .fin 10), (570, 30)⟩⟩,
         [⟨⟨fun r => recGet r ("y"), ("a"), none⟩, some ("M2 2"), some (JSNum.fin 2)⟩]⟩
        (Node.mk ("svg") [] []))
      = ([⟨⟨fun r => recGet r ("y"), ("a"), none⟩, some ("M2 2"), some (JSNum.fin 2)⟩]
          : List CustomSeriesOpt).flatMap (fun s =>
          (([[(("x"), JSVal.num (.fin 0))]] : List Rec).map (fun d =>
            CustomDatum.mk (recGet d ("x")) (s.field d) (s.color.getD ("steelblue"))
              (radiusOverride d 4) (iconOverride d (s.icon.getD (""))) s.label)).map
                (customEnter
                  ⟨800, 600, [[(("x"), JSVal.num (.fin 0))]],
                    ⟨fun r => recGet r ("x"), ("x"), none⟩,
                    [⟨fun r => recGet r ("y"), ("y"), none⟩],
                    ⟨⟨30, 30, 30, 30⟩, 3 / 2, false, 5, 10, false⟩,
                    XScale.linear ⟨(.fin 0, .fin 10), (30, 770)⟩,
                    ⟨(.fin 0, .fin 10), (570, 30)⟩⟩
                  (customValidSize s.size))) := by
  refine ⟨rfl, ?_⟩
  have h := C8_amended_thm
    ⟨⟨800, 600, [[(("x"), JSVal.num (.fin 0))]],
      ⟨fun r => recGet r ("x"), ("x"), none⟩,
      [⟨fun r => recGet r ("y"), ("y"), none⟩],
      ⟨⟨30, 30, 30, 30⟩, 3 / 2, false, 5, 10, false⟩,
      XScale.linear ⟨(.fin 0, .fin 10), (30, 770)⟩,
      ⟨(.fin 0, .fin 10), (570, 30)⟩⟩,
     [⟨⟨fun r => recGet r ("y"), ("a"), none⟩, some ("M2 2"), some (JSNum.fin 2)⟩]⟩
    (Node.mk ("svg") [] []) rfl (by simp)
  exact h.1

/-- A filter that accepts everything in the list. -/
theorem filter_eq_self_on {α : Type} (p : α → Bool) :
    ∀ l : List α, (∀ a ∈ l, p a = true) → l.filter p = l := by
  intro l
  induction l with
  | nil => intro _; rfl
  | cons a l ih =>
    intro h
    rw [List.filter_cons_of_pos (h a (List.mem_cons_self a l))]
    rw [ih (fun b hb => h b (List.mem_cons_of_mem a hb))]

/-- A filter that rejects everything in the list. -/
theorem filter_eq_nil_on {α : Type} (p : α → Bool) :
    ∀ l : List α, (∀ a ∈ l, p a = false) → l.filter p = [] := by
  intro l
  induction l with
  | nil => intro _; rfl
  | cons a l ih =>
    intro h
    rw [List.filter_cons_of_neg (by rw [h a (List.mem_cons_self a l)]; exact Bool.false_ne_true)]
    exact ih (fun b hb => h b (List.mem_cons_of_mem a hb))

/-- A fold whose step fixes the accumulator on every listed element. -/
theorem foldl_fixed {α β : Type} (stepf : β → α → β) (b : β) :
    ∀ l : List α, (∀ x ∈ l, stepf b x = b) → l.foldl stepf b = b := by
  intro l
  induction l with
  | nil => intro _; rfl
  | cons a l ih =>
    intro h
    rw [List.foldl_cons, h a (List.mem_cons_self a l)]
    exact ih (fun x hx => h x (List.mem_cons_of_mem a hx))

/-- Iterating an idempotent-from-here function. -/
theorem iterate_idem {α : Type} (f : α → α) (x : α) (hf : f (f x) = f x) :
    ∀ N : ℕ, 1 ≤ N → f^[N] x = f x := by
  intro N
  induction N with
  | zero => intro h; exact absurd h (by norm_num)
  | succ k ih =>
    intro _
    rw [Function.iterate_succ_apply']
    rcases Nat.eq_zero_or_pos k with h0 | hpos
    · rw [h0]
      rfl
    · rw [ih hpos, hf]

/-- The nested-join walk over elements entered from the same data, when
every element matches the selector. -/
theorem mapMatchedWith_map {δ : Type} (pred : Node → Bool) (f : δ → Node → Node)
    (e : δ → Node) (he : ∀ d, pred (e d) = true) :
    ∀ l : List δ, mapMatchedWith pred f (l.map e) l = l.map (fun d => f d (e d)) := by
  intro l
  induction l with
  | nil => rfl
  | cons d l ih =>
    rw [List.map_cons]
    simp only [mapMatchedWith]
    rw [if_pos (he d)]
    rw [ih]
    rw [List.map_cons]

/-- Re-updating a scatter circle with its own datum rewrites `cx`/`cy`
with the same values: a no-op. -/
theorem scatterUpdate_enter_self (c : Chart) (dat : ScatterDatum) :
    scatterUpdate c dat (scatterEnter c dat) = scatterEnter c dat := rfl

/-- Re-updating a custom-scatter path with its own datum rewrites the
transform with the same value: a no-op. -/
theorem customUpdate_enter_self (c : Chart) (size : JSNum) (dat : CustomDatum) :
    customUpdate c size dat (customEnter c size dat) = customEnter c size dat := rfl

/-- Entered scatter circles carry the `scatter-point` marker class. -/
theorem scatterEnter_hasSP (c : Chart) (dat : ScatterDatum) :
    (scatterEnter c dat).hasClass ("scatter-point") = true := rfl

/-- Entered custom-scatter paths carry the `scatter-point` marker
class. -/
theorem customEnter_hasSP (c : Chart) (size : JSNum) (dat : CustomDatum) :
    (customEnter c size dat).hasClass ("scatter-point") = true := rfl

/-- The target shape `ScatterChart.renderSeries` leaves behind on a
clean target (non-empty descriptor list, distinct labels). -/
theorem scatterRenderSeries_cons_shape (sc : ScatterChart) (s : ScatterSeriesOpt)
    (rest : List ScatterSeriesOpt) (hys : sc.ySeriesS = s :: rest) (tag : String)
    (ats : List (String × AttrV)) (cs : List Node)
    (hcs : ∀ nd ∈ cs, nd.hasClass ("series") = false)
    (hnd : (sc.ySeriesS.map (fun t => t.label)).Nodup) :
    scatterRenderSeries sc (Node.mk tag ats cs)
      = Node.mk tag ats (cs ++ [Node.mk ("g") [(("class"), AttrV.s ("series"))]
          ((s :: rest).flatMap (fun t => (sc.base.dataset.map (fun d =>
            ScatterDatum.mk (sc.base.xSerie.field d) (t.field d) (t.color.getD ("steelblue"))
              (radiusOverride d (t.radii.getD 4)) t.label)).map (scatterEnter sc.base)))]) := by
  unfold scatterRenderSeries
  rw [hys] at hnd ⊢
  rw [List.map_cons] at hnd
  rw [List.foldl_cons]
  rw [scatterRenderSerie_clean sc.base s.field (s.color.getD ("steelblue"))
    (s.radii.getD 4) s.label tag ats cs hcs]
  rw [scatterRenderSeries_fold sc.base rest tag ats cs _ hcs ?hg hnd.of_cons]
  case hg =>
    intro nd hnd' s' hs'
    obtain ⟨dat, hdat, rfl⟩ := List.mem_map.mp hnd'
    obtain ⟨d, hd, rfl⟩ := List.mem_map.mp hdat
    have hlabne : s.label ≠ s'.label := by
      intro heq
      exact (List.nodup_cons.mp hnd).1
        (heq ▸ List.mem_map_of_mem (fun t => t.label) hs')
    have hli := labelIs_of_getAttr_ne _ s.label s'.label
      (scatterEnter_getLabel sc.base (ScatterDatum.mk (sc.base.xSerie.field d)
        (s.field d) (s.color.getD ("steelblue"))
        (radiusOverride d (s.radii.getD 4)) s.label)) hlabne
    rw [hli]
    exact Bool.and_false _
  rw [List.flatMap_cons]

/-- The target shape `CustomScatterChart.renderSeries` leaves behind on
a clean target. -/
theorem customRenderSeries_cons_shape (cc : CustomScatterChart) (s : CustomSeriesOpt)
    (rest : List CustomSeriesOpt) (hys : cc.ySeriesC = s :: rest) (tag : String)
    (ats : List (String × AttrV)) (cs : List Node)
    (hcs : ∀ nd ∈ cs, nd.hasClass ("series") = false)
    (hnd : (cc.ySeriesC.map (fun t => t.label)).Nodup) :
    customRenderSeries cc (Node.mk tag ats cs)
      = Node.mk tag ats (cs ++ [Node.mk ("g") [(("class"), AttrV.s ("series"))]
          ((s :: rest).flatMap (fun t => (cc.base.dataset.map (fun d =>
            CustomDatum.mk (cc.base.xSerie.field d) (t.field d) (t.color.getD ("steelblue"))
              (radiusOverride d 4) (iconOverride d (t.icon.getD (""))) t.label)).map
                (customEnter cc.base (customValidSize t.size))))]) := by
  unfold customRenderSeries
  rw [hys] at hnd ⊢
  rw [List.map_cons] at hnd
  rw [List.foldl_cons]
  rw [customRenderSerie_clean cc.base s.field (s.color.getD ("steelblue"))
    (s.icon.getD ("")) (customValidSize s.size) s.label tag ats cs hcs]
  rw [customRenderSeries_fold cc.base rest tag ats cs _ hcs ?hg hnd.of_cons]
  case hg =>
    intro nd hnd' s' hs'
    obtain ⟨dat, hdat, rfl⟩ := List.mem_map.mp hnd'
    obtain ⟨d, hd, rfl⟩ := List.mem_map.mp hdat
    have hlabne : s.label ≠ s'.label := by
      intro heq
      exact (List.nodup_cons.mp hnd).1
        (heq ▸ List.mem_map_of_mem (fun t => t.label) hs')
    have hli := labelIs_of_getAttr_ne _ s.label s'.label
      (customEnter_getLabel cc.base (customValidSize s.size)
        (CustomDatum.mk (cc.base.xSerie.field d) (s.field d) (s.color.getD ("steelblue"))
          (radiusOverride d 4) (iconOverride d (s.icon.getD (""))) s.label)) hlabne
    rw [hli]
    exact Bool.and_false _
  rw [List.flatMap_cons]

/-- Filtering the full circle list by one descriptor's label selects
exactly that descriptor's circles (labels pairwise distinct). -/
theorem filter_scatter_blocks (c : Chart) (s : ScatterSeriesOpt) :
    ∀ series : List ScatterSeriesOpt, (series.map (fun t => t.label)).Nodup → s ∈ series →
      (series.flatMap (fun t => (c.dataset.map (fun d =>
        ScatterDatum.mk (c.xSerie.field d) (t.field d) (t.color.getD ("steelblue"))
          (radiusOverride d (t.radii.getD 4)) t.label)).map (scatterEnter c))).filter
        (fun nd => nd.hasClass ("scatter-point") && nd.labelIs s.label)
      = (c.dataset.map (fun d => ScatterDatum.mk (c.xSerie.field d) (s.field d)
          (s.color.getD ("steelblue")) (radiusOverride d (s.radii.getD 4)) s.label)).map
          (scatterEnter c) := by
  intro series
  induction series with
  | nil =>
    intro _ hmem
    exact absurd hmem (List.not_mem_nil s)
  | cons t rest ih =>
    intro hnd hmem
    rw [List.map_cons] at hnd
    rw [List.flatMap_cons, List.filter_append]
    rcases List.mem_cons.mp hmem with h1 | h2
    · subst h1
      rw [filter_eq_self_on _ _ ?hall, filter_eq_nil_on _ _ ?hnone, List.append_nil]
      case hall =>
        intro nd hnd'
        obtain ⟨dat, hdat, rfl⟩ := List.mem_map.mp hnd'
        obtain ⟨d, hd, rfl⟩ := List.mem_map.mp hdat
        rw [scatterEnter_hasSP]
        rw [labelIs_of_getAttr_self _ s.label
          (scatterEnter_getLabel c (ScatterDatum.mk (c.xSerie.field d) (s.field d)
            (s.color.getD ("steelblue")) (radiusOverride d (s.radii.getD 4)) s.label))]
        rfl
      case hnone =>
        intro nd hnd'
        obtain ⟨t', ht', hblk⟩ := List.mem_flatMap.mp hnd'
        obtain ⟨dat, hdat, rfl⟩ := List.mem_map.mp hblk
        obtain ⟨d, hd, rfl⟩ := List.mem_map.mp hdat
        have hlabne : t'.label ≠ s.label := by
          intro heq
          exact (List.nodup_cons.mp hnd).1
            (heq ▸ List.mem_map_of_mem (fun u => u.label) ht')
        rw [labelIs_of_getAttr_ne _ t'.label s.label
          (scatterEnter_getLabel c (ScatterDatum.mk (c.xSerie.field d) (t'.field d)
            (t'.color.getD ("steelblue")) (radiusOverride d (t'.radii.getD 4)) t'.label))
          hlabne]
        exact Bool.and_false _
    · have hlabne : t.label ≠ s.label := by
        intro heq
        exact (List.nodup_cons.mp hnd).1
          (heq ▸ List.mem_map_of_mem (fun u => u.label) h2)
      rw [filter_eq_nil_on _ _ ?hnone2, List.nil_append]
      case hnone2 =>
        intro nd hnd'
        obtain ⟨dat, hdat, rfl⟩ := List.mem_map.mp hnd'
        obtain ⟨d, hd, rfl⟩ := List.mem_map.mp hdat
        rw [labelIs_of_getAttr_ne _ t.label s.label
          (scatterEnter_getLabel c (ScatterDatum.mk (c.xSerie.field d) (t.field d)
            (t.color.getD ("steelblue")) (radiusOverride d (t.radii.getD 4)) t.label))
          hlabne]
        exact Bool.and_false _
      exact ih (List.nodup_cons.mp hnd).2 h2

/-- Filtering the full path list by one descriptor's label selects
exactly that descriptor's paths (custom scatter, labels distinct). -/
theorem filter_custom_blocks (c : Chart) (s : CustomSeriesOpt) :
    ∀ series : List CustomSeriesOpt, (series.map (fun t => t.label)).Nodup → s ∈ series →
      (series.flatMap (fun t => (c.dataset.map (fun d =>
        CustomDatum.mk (c.xSerie.field d) (t.field d) (t.color.getD ("steelblue"))
          (radiusOverride d 4) (iconOverride d (t.icon.getD (""))) t.label)).map
            (customEnter c (customValidSize t.size)))).filter
        (fun nd => nd.hasClass ("scatter-point") && nd.labelIs s.label)
      = (c.dataset.map (fun d => CustomDatum.mk (c.xSerie.field d) (s.field d)
          (s.color.getD ("steelblue")) (radiusOverride d 4)
          (iconOverride d (s.icon.getD (""))) s.label)).map
          (customEnter c (customValidSize s.size)) := by
  intro series
  induction series with
  | nil =>
    intro _ hmem
    exact absurd hmem (List.not_mem_nil s)
  | cons t rest ih =>
    intro hnd hmem
    rw [List.map_cons] at hnd
    rw [List.flatMap_cons, List.filter_append]
    rcases List.mem_cons.mp hmem with h1 | h2
    · subst h1
      rw [filter_eq_self_on _ _ ?hall, filter_eq_nil_on _ _ ?hnone, List.append_nil]
      case hall =>
        intro nd hnd'
        obtain ⟨dat, hdat, rfl⟩ := List.mem_map.mp hnd'
        obtain ⟨d, hd, rfl⟩ := List.mem_map.mp hdat
        rw [customEnter_hasSP]
        rw [labelIs_of_getAttr_self _ s.label
          (customEnter_getLabel c (customValidSize s.size)
            (CustomDatum.mk (c.xSerie.field d) (s.field d) (s.color.getD ("steelblue"))
              (radiusOverride d 4) (iconOverride d (s.icon.getD (""))) s.label))]
        rfl
      case hnone =>
        intro nd hnd'
        obtain ⟨t', ht', hblk⟩ := List.mem_flatMap.mp hnd'
        obtain ⟨dat, hdat, rfl⟩ := List.mem_map.mp hblk
        obtain ⟨d, hd, rfl⟩ := List.mem_map.mp hdat
        have hlabne : t'.label ≠ s.label := by
          intro heq
          exact (List.nodup_cons.mp hnd).1
            (heq ▸ List.mem_map_of_mem (fun u => u.label) ht')
        rw [labelIs_of_getAttr_ne _ t'.label s.label
          (customEnter_getLabel c (customValidSize t'.size)
            (CustomDatum.mk (c.xSerie.field d) (t'.field d) (t'.color.getD ("steelblue"))
              (radiusOverride d 4) (iconOverride d (t'.icon.getD (""))) t'.label))
          hlabne]
        exact Bool.and_false _
    · have hlabne : t.label ≠ s.label := by
        intro heq
        exact (List.nodup_cons.mp hnd).1
          (heq ▸ List.mem_map_of_mem (fun u => u.label) h2)
      rw [filter_eq_nil_on _ _ ?hnone2, List.nil_append]
      case hnone2 =>
        intro nd hnd'
        obtain ⟨dat, hdat, rfl⟩ := List.mem_map.mp hnd'
        obtain ⟨d, hd, rfl⟩ := List.mem_map.mp hdat
        rw [labelIs_of_getAttr_ne _ t.label s.label
          (customEnter_getLabel c (customValidSize t.size)
            (CustomDatum.mk (c.xSerie.field d) (t.field d) (t.color.getD ("steelblue"))
              (radiusOverride d 4) (iconOverride d (t.icon.getD (""))) t.label))
          hlabne]
        exact Bool.and_false _
      exact ih (List.nodup_cons.mp hnd).2 h2

/-- A scatter pass whose data joins onto exactly its own circles is the
identity on the target. -/
theorem scatterRenderSerie_selfpass (c : Chart) (yField : Rec → JSVal) (color : String)
    (radii : ℚ) (label : String) (tag : String) (ats : List (String × AttrV))
    (cs L : List Node) (hcs : ∀ nd ∈ cs, nd.hasClass ("series") = false)
    (hfix : List.Forall₂ (fun d e => scatterUpdate c d e = e)
      (c.dataset.map (fun d => ScatterDatum.mk (c.xSerie.field d) (yField d) color
        (radiusOverride d radii) label))
      (L.filter (fun nd => nd.hasClass ("scatter-point") && nd.labelIs label))) :
    scatterRenderSerie c yField color radii label
        (Node.mk tag ats (cs ++ [Node.mk ("g") [(("class"), AttrV.s ("series"))] L]))
      = Node.mk tag ats (cs ++ [Node.mk ("g") [(("class"), AttrV.s ("series"))] L]) := by
  simp only [scatterRenderSerie, Node.tag, Node.attrs, Node.children]
  rw [seriesGroupJoin_stable cs L hcs]
  rw [List.map_append]
  rw [map_id_on _ cs (fun nd hnd => by simp [hcs nd hnd])]
  rw [List.map_cons, List.map_nil]
  rw [show (Node.mk ("g") [(("class"), AttrV.s ("series"))] L).hasClass ("series")
    = true from rfl]
  rw [if_pos rfl]
  simp only [Node.withChildren, Node.children, Node.tag, Node.attrs]
  rw [joinByIndex_update_self L _ _ _ _ hfix]

/-- A custom-scatter pass whose data joins onto exactly its own paths is
the identity on the target. -/
theorem customRenderSerie_selfpass (c : Chart) (yField : Rec → JSVal) (color : String)
    (iconParam : String) (size : JSNum) (label : String) (tag : String)
    (ats : List (String × AttrV)) (cs L : List Node)
    (hcs : ∀ nd ∈ cs, nd.hasClass ("series") = false)
    (hfix : List.Forall₂ (fun d e => customUpdate c size d e = e)
      (c.dataset.map (fun d => CustomDatum.mk (c.xSerie.field d) (yField d) color
        (radiusOverride d 4) (iconOverride d iconParam) label))
      (L.filter (fun nd => nd.hasClass ("scatter-point") && nd.labelIs label))) :
    customRenderSerie c yField color iconParam size label
        (Node.mk tag ats (cs ++ [Node.mk ("g") [(("class"), AttrV.s ("series"))] L]))
      = Node.mk tag ats (cs ++ [Node.mk ("g") [(("class"), AttrV.s ("series"))] L]) := by
  simp only [customRenderSerie, Node.tag, Node.attrs, Node.children]
  rw [seriesGroupJoin_stable cs L hcs]
  rw [List.map_append]
  rw [map_id_on _ cs (fun nd hnd => by simp [hcs nd hnd])]
  rw [List.map_cons, List.map_nil]
  rw [show (Node.mk ("g") [(("class"), AttrV.s ("series"))] L).hasClass ("series")
    = true from rfl]
  rw [if_pos rfl]
  simp only [Node.withChildren, Node.children, Node.tag, Node.attrs]
  rw [joinByIndex_update_self L _ _ _ _ hfix]

/-- `ScatterChart.renderSeries` is idempotent on a clean target with
distinct labels: the second call re-joins every circle onto itself. -/
theorem scatterRenderSeries_idem (sc : ScatterChart) (svg : Node)
    (hclean : cleanTarget svg = true)
    (hnd : (sc.ySeriesS.map (fun s => s.label)).Nodup) :
    scatterRenderSeries sc (scatterRenderSeries sc svg) = scatterRenderSeries sc svg := by
  cases svg with
  | mk tag ats cs =>
    have htop := cleanTarget_top _ hclean
    have hcs : ∀ nd ∈ cs, nd.hasClass ("series") = false :=
      fun nd hnd' => (markedNode_false nd (htop nd hnd')).1
    cases hys : sc.ySeriesS with
    | nil =>
      unfold scatterRenderSeries
      rw [hys, List.foldl_nil, List.foldl_nil]
    | cons s rest =>
      have hshape := scatterRenderSeries_cons_shape sc s rest hys tag ats cs hcs hnd
      rw [hshape]
      unfold scatterRenderSeries
      rw [hys]
      apply foldl_fixed
      intro t ht
      apply scatterRenderSerie_selfpass sc.base t.field (t.color.getD ("steelblue"))
        (t.radii.getD 4) t.label tag ats cs _ hcs
      rw [filter_scatter_blocks sc.base t (s :: rest) (by rw [← hys]; exact hnd) ht]
      exact forall₂_map_self _ _ (fun dat => scatterUpdate_enter_self sc.base dat) _

/-- `CustomScatterChart.renderSeries` is idempotent on a clean target
with distinct labels. -/
theorem customRenderSeries_idem (cc : CustomScatterChart) (svg : Node)
    (hclean : cleanTarget svg = true)
    (hnd : (cc.ySeriesC.map (fun s => s.label)).Nodup) :
    customRenderSeries cc (customRenderSeries cc svg) = customRenderSeries cc svg := by
  cases svg with
  | mk tag ats cs =>
    have htop := cleanTarget_top _ hclean
    have hcs : ∀ nd ∈ cs, nd.hasClass ("series") = false :=
      fun nd hnd' => (markedNode_false nd (htop nd hnd')).1
    cases hys : cc.ySeriesC with
    | nil =>
      unfold customRenderSeries
      rw [hys, List.foldl_nil, List.foldl_nil]
    | cons s rest =>
      have hshape := customRenderSeries_cons_shape cc s rest hys tag ats cs hcs hnd
      rw [hshape]
      unfold customRenderSeries
      rw [hys]
      apply foldl_fixed
      intro t ht
      apply customRenderSerie_selfpass cc.base t.field (t.color.getD ("steelblue"))
        (t.icon.getD ("")) (customValidSize t.size) t.label tag ats cs _ hcs
      rw [filter_custom_blocks cc.base t (s :: rest) (by rw [← hys]; exact hnd) ht]
      exact forall₂_map_self _ _
        (fun dat => customUpdate_enter_self cc.base (customValidSize t.size) dat) _

/-- `LineChart.renderSeries` on a clean target: one `g.series-group` per
descriptor, each holding a single freshly entered `.serie` path. -/
theorem lineRenderSeries_clean (c : Chart) (tag : String) (ats : List (String × AttrV))
    (cs : List Node) (hcs : ∀ nd ∈ cs, nd.hasClass ("series") = false) :
    lineRenderSeries c (Node.mk tag ats cs)
      = Node.mk tag ats (cs ++ [Node.mk ("g") [(("class"), AttrV.s ("series"))]
          (c.ySeries.map (fun s => Node.mk ("g")
            [(("class"), AttrV.s ("series-group")), (("data-label"), AttrV.s s.label)]
            [lineEnter c s]))]) := by
  simp only [lineRenderSeries, Node.tag, Node.attrs, Node.children]
  rw [seriesGroupJoin_clean cs hcs]
  rw [List.map_append]
  rw [map_id_on _ cs (fun nd hnd => by simp [hcs nd hnd])]
  rw [List.map_cons, List.map_nil]
  rw [show (Node.mk ("g") [(("class"), AttrV.s ("series"))] ([] : List Node)).hasClass
    ("series") = true from rfl]
  rw [if_pos rfl]
  simp only [Node.withChildren, Node.children, Node.tag, Node.attrs]
  rw [joinByIndex_none ([] : List Node) _ _ _ _
    (fun c' hc' => absurd hc' (List.not_mem_nil c'))]
  rw [List.nil_append]
  rw [mapMatchedWith_map _ _ lineGroupEnter (fun s => rfl) c.ySeries]
  rfl

/-- One further `LineChart.renderSeries` call on the grouped state: the
group and the series groups re-join onto themselves and each inner path
is run through the update phase. -/
theorem lineRenderSeries_step (c : Chart) (tag : String) (ats : List (String × AttrV))
    (cs : List Node) (inner : SeriesOpt → Node)
    (hcs : ∀ nd ∈ cs, nd.hasClass ("series") = false)
    (hinner : ∀ s, (inner s).hasClass ("serie") = true) :
    lineRenderSeries c (Node.mk tag ats (cs ++ [Node.mk ("g")
        [(("class"), AttrV.s ("series"))]
        (c.ySeries.map (fun s => Node.mk ("g")
          [(("class"), AttrV.s ("series-group")), (("data-label"), AttrV.s s.label)]
          [inner s]))]))
      = Node.mk tag ats (cs ++ [Node.mk ("g") [(("class"), AttrV.s ("series"))]
          (c.ySeries.map (fun s => Node.mk ("g")
            [(("class"), AttrV.s ("series-group")), (("data-label"), AttrV.s s.label)]
            [lineUpdate c s (inner s)]))]) := by
  simp only [lineRenderSeries, Node.tag, Node.attrs, Node.children]
  rw [seriesGroupJoin_stable cs _ hcs]
  rw [List.map_append]
  rw [map_id_on _ cs (fun nd hnd => by simp [hcs nd hnd])]
  rw [List.map_cons, List.map_nil]
  have hgser : (Node.mk ("g") [(("class"), AttrV.s ("series"))]
      (c.ySeries.map (fun s => Node.mk ("g")
        [(("class"), AttrV.s ("series-group")), (("data-label"), AttrV.s s.label)]
        [inner s]))).hasClass ("series") = true := rfl
  rw [hgser]
  rw [if_pos rfl]
  simp only [Node.withChildren, Node.children, Node.tag, Node.attrs]
  rw [joinByIndex_update_self _ _ _ _ _ ?hfix]
  case hfix =>
    have hf : (c.ySeries.map (fun s => Node.mk ("g")
        [(("class"), AttrV.s ("series-group")), (("data-label"), AttrV.s s.label)]
        [inner s])).filter (fun nd => nd.hasClass ("series-group"))
        = c.ySeries.map (fun s => Node.mk ("g")
          [(("class"), AttrV.s ("series-group")), (("data-label"), AttrV.s s.label)]
          [inner s]) := by
      apply filter_eq_self_on
      intro nd hnd
      obtain ⟨s, hs, rfl⟩ := List.mem_map.mp hnd
      rfl
    rw [hf]
    exact forall₂_map_self lineGroupUpdate
      (fun s => Node.mk ("g")
        [(("class"), AttrV.s ("series-group")), (("data-label"), AttrV.s s.label)]
        [inner s])
      (fun s => rfl) c.ySeries
  rw [mapMatchedWith_map (fun nd => nd.hasClass ("series-group")) (lineInnerJoin c)
    (fun s => Node.mk ("g")
      [(("class"), AttrV.s ("series-group")), (("data-label"), AttrV.s s.label)]
      [inner s])
    (fun s => rfl) c.ySeries]
  have hper : ∀ s ∈ c.ySeries, lineInnerJoin c s (Node.mk ("g")
      [(("class"), AttrV.s ("series-group")), (("data-label"), AttrV.s s.label)] [inner s])
      = Node.mk ("g")
        [(("class"), AttrV.s ("series-group")), (("data-label"), AttrV.s s.label)]
        [lineUpdate c s (inner s)] := by
    intro s _
    have h1 := joinByIndex_append_one ([] : List Node) (fun nd => nd.hasClass ("serie"))
      (inner s) s (fun s' => lineEnter c s') (fun s' nd => lineUpdate c s' nd)
      (fun x hx => absurd hx (List.not_mem_nil x)) (hinner s)
    rw [List.nil_append] at h1
    unfold lineInnerJoin
    simp only [Node.withChildren, Node.children, Node.tag, Node.attrs]
    rw [h1]
    rfl
  rw [List.map_congr_left hper]

/-- Splitting the depth-3 count over an appended child. -/
theorem countDepth3_state (pred : Node → Bool) (tag : String) (ats : List (String × AttrV))
    (cs : List Node) (g : Node) :
    countDepth3 pred (Node.mk tag ats (cs ++ [g]))
      = countDepth3 pred (Node.mk tag ats cs)
        + ((if pred g then 1 else 0) + (g.children.map (fun cc =>
            (if pred cc then 1 else 0) + cc.children.countP pred)).sum) := by
  unfold countDepth3
  simp only [Node.children]
  rw [List.map_append, List.sum_append]
  simp

/-- The marker count of a grouped line-chart state: the `.series` group,
one `.series-group` and one `.serie` path per descriptor, on top of the
original children's count. -/
theorem countDepth3_line_state (c : Chart) (tag : String) (ats : List (String × AttrV))
    (cs : List Node) (inner : SeriesOpt → Node)
    (hinner : ∀ s, markedNode (inner s) = true) :
    countDepth3 markedNode (Node.mk tag ats (cs ++ [Node.mk ("g")
        [(("class"), AttrV.s ("series"))]
        (c.ySeries.map (fun s => Node.mk ("g")
          [(("class"), AttrV.s ("series-group")), (("data-label"), AttrV.s s.label)]
          [inner s]))]))
      = countDepth3 markedNode (Node.mk tag ats cs) + (1 + c.ySeries.length * 2) := by
  rw [countDepth3_state]
  rw [show (Node.mk ("g") [(("class"), AttrV.s ("series"))]
      (c.ySeries.map (fun s => Node.mk ("g")
        [(("class"), AttrV.s ("series-group")), (("data-label"), AttrV.s s.label)]
        [inner s]))).children
      = c.ySeries.map (fun s => Node.mk ("g")
        [(("class"), AttrV.s ("series-group")), (("data-label"), AttrV.s s.label)]
        [inner s]) from rfl]
  rw [List.map_map]
  have h2 : ∀ s ∈ c.ySeries, ((fun cc => (if markedNode cc then 1 else 0) +
      cc.children.countP markedNode) ∘ (fun s => Node.mk ("g")
        [(("class"), AttrV.s ("series-group")), (("data-label"), AttrV.s s.label)]
        [inner s])) s = 2 := by
    intro s _
    simp only [Function.comp]
    rw [show markedNode (Node.mk ("g")
      [(("class"), AttrV.s ("series-group")), (("data-label"), AttrV.s s.label)]
      [inner s]) = true from rfl]
    rw [show (Node.mk ("g")
      [(("class"), AttrV.s ("series-group")), (("data-label"), AttrV.s s.label)]
      [inner s]).children = [inner s] from rfl]
    rw [List.countP_cons, List.countP_nil, hinner s]
    rfl
  rw [List.map_congr_left h2]
  rw [sum_const_nat 2 c.ySeries]
  rw [show markedNode (Node.mk ("g") [(("class"), AttrV.s ("series"))]
    (c.ySeries.map (fun s => Node.mk ("g")
      [(("class"), AttrV.s ("series-group")), (("data-label"), AttrV.s s.label)]
      [inner s]))) = true from rfl]
  rfl

/-- Repeated `LineChart.renderSeries` calls keep the marker-element
count of the first call: the second call strips the dash-reveal
attributes (same count), every later call is a fixed point. -/
theorem line_count_eq (c : Chart) (tag : String) (ats : List (String × AttrV))
    (cs : List Node) (hcs : ∀ nd ∈ cs, nd.hasClass ("series") = false) :
    ∀ N : ℕ, 1 ≤ N →
      countDepth3 markedNode ((lineRenderSeries c)^[N] (Node.mk tag ats cs))
        = countDepth3 markedNode (lineRenderSeries c (Node.mk tag ats cs)) := by
  have h1 := lineRenderSeries_clean c tag ats cs hcs
  have h2 := lineRenderSeries_step c tag ats cs (fun s => lineEnter c s) hcs (fun s => rfl)
  have h3 : lineRenderSeries c (Node.mk tag ats (cs ++ [Node.mk ("g")
      [(("class"), AttrV.s ("series"))]
      (c.ySeries.map (fun s => Node.mk ("g")
        [(("class"), AttrV.s ("series-group")), (("data-label"), AttrV.s s.label)]
        [lineUpdate c s (lineEnter c s)]))]))
      = Node.mk tag ats (cs ++ [Node.mk ("g") [(("class"), AttrV.s ("series"))]
        (c.ySeries.map (fun s => Node.mk ("g")
          [(("class"), AttrV.s ("series-group")), (("data-label"), AttrV.s s.label)]
          [lineUpdate c s (lineEnter c s)]))]) := by
    rw [lineRenderSeries_step c tag ats cs (fun s => lineUpdate c s (lineEnter c s)) hcs
      (fun s => rfl)]
    rfl
  intro N hN
  rcases Nat.lt_or_ge N 2 with hlt | hge
  · have hN1 : N = 1 := by omega
    rw [hN1, Function.iterate_one]
  · have hst : ∀ k : ℕ, (lineRenderSeries c)^[k + 1] (Node.mk tag ats (cs ++ [Node.mk ("g")
        [(("class"), AttrV.s ("series"))]
        (c.ySeries.map (fun s => Node.mk ("g")
          [(("class"), AttrV.s ("series-group")), (("data-label"), AttrV.s s.label)]
          [lineEnter c s]))]))
        = Node.mk tag ats (cs ++ [Node.mk ("g") [(("class"), AttrV.s ("series"))]
          (c.ySeries.map (fun s => Node.mk ("g")
            [(("class"), AttrV.s ("series-group")), (("data-label"), AttrV.s s.label)]
            [lineUpdate c s (lineEnter c s)]))]) := by
      intro k
      induction k with
      | zero => rw [Function.iterate_one]; exact h2
      | succ m ih => rw [Function.iterate_succ_apply', ih]; exact h3
    obtain ⟨k, hk⟩ : ∃ k, N = k + 2 := ⟨N - 2, by omega⟩
    rw [hk]
    rw [show k + 2 = (k + 1) + 1 from rfl]
    rw [Function.iterate_succ_apply]
    rw [h1]
    rw [hst k]
    rw [countDepth3_line_state c tag ats cs (fun s => lineUpdate c s (lineEnter c s))
      (fun s => rfl)]
    rw [countDepth3_line_state c tag ats cs (fun s => lineEnter c s) (fun s => rfl)]

/-- Claim C4: for every chart variant (scatter, custom scatter, and
line — `TimeChart` inherits `LineChart.renderSeries` unchanged) and
every `N ≥ 1`, calling `renderSeries` `N` times on a clean target with
an unchanged dataset and series configuration (pairwise-distinct labels
for the label-keyed scatter joins) leaves the same drawn elements as
calling it once: the scatter variants are literally idempotent, and the
line variant keeps the marker-element count (its second call only
strips the dash-reveal attributes). -/
theorem C4_thm (N : ℕ) (hN : 1 ≤ N) (sc : ScatterChart) (cc : CustomScatterChart)
    (lc : Chart) (svgS svgC svgL : Node)
    (hcleanS : cleanTarget svgS = true)
    (hndS : (sc.ySeriesS.map (fun s => s.label)).Nodup)
    (hcleanC : cleanTarget svgC = true)
    (hndC : (cc.ySeriesC.map (fun s => s.label)).Nodup)
    (hcleanL : cleanTarget svgL = true) :
    ((scatterRenderSeries sc)^[N] svgS = scatterRenderSeries sc svgS ∧
      countDepth3 markedNode ((scatterRenderSeries sc)^[N] svgS)
        = countDepth3 markedNode (scatterRenderSeries sc svgS)) ∧
    ((customRenderSeries cc)^[N] svgC = customRenderSeries cc svgC ∧
      countDepth3 markedNode ((customRenderSeries cc)^[N] svgC)
        = countDepth3 markedNode (customRenderSeries cc svgC)) ∧
    countDepth3 markedNode ((lineRenderSeries lc)^[N] svgL)
      = countDepth3 markedNode (lineRenderSeries lc svgL) := by
  have hsc := iterate_idem _ svgS (scatterRenderSeries_idem sc svgS hcleanS hndS) N hN
  have hcc := iterate_idem _ svgC (customRenderSeries_idem cc svgC hcleanC hndC) N hN
  refine ⟨⟨hsc, by rw [hsc]⟩, ⟨hcc, by rw [hcc]⟩, ?_⟩
  cases svgL with
  | mk tag ats cs =>
    have htop := cleanTarget_top _ hcleanL
    have hcs : ∀ nd ∈ cs, nd.hasClass ("series") = false :=
      fun nd hnd' => (markedNode_false nd (htop nd hnd')).1
    exact line_count_eq lc tag ats cs hcs N hN

/-- Witness for C4 at `N = 2` on concrete charts and an empty svg. -/
theorem C4_witness :
    (1 : ℕ) ≤ 2 ∧ cleanTarget (Node.mk ("svg") [] []) = true ∧
    (scatterRenderSeries
        ⟨⟨800, 600, [[(("x"), JSVal.num (.fin 0))]],
          ⟨fun r => recGet r ("x"), ("x"), none⟩,
          [⟨fun r => recGet r ("y"), ("y"), none⟩],
          ⟨⟨30, 30, 30, 30⟩, 3 / 2, false, 5, 10, false⟩,
          XScale.linear ⟨(.fin 0, .fin 10), (30, 770)⟩,
          ⟨(.fin 0, .fin 10), (570, 30)⟩⟩,
         [⟨⟨fun r => recGet r ("y"), ("a"), none⟩, none⟩]⟩)^[2] (Node.mk ("svg") [] [])
      = scatterRenderSeries
        ⟨⟨800, 600, [[(("x"), JSVal.num (.fin 0))]],
          ⟨fun r => recGet r ("x"), ("x"), none⟩,
          [⟨fun r => recGet r ("y"), ("y"), none⟩],
          ⟨⟨30, 30, 30, 30⟩, 3 / 2, false, 5, 10, false⟩,
          XScale.linear ⟨(.fin 0, .fin 10), (30, 770)⟩,
          ⟨(.fin 0, .fin 10), (570, 30)⟩⟩,
         [⟨⟨fun r => recGet r ("y"), ("a"), none⟩, none⟩]⟩ (Node.mk ("svg") [] []) ∧
    (customRenderSeries
        ⟨⟨800, 600, [[(("x"), JSVal.num (.fin 0))]],
          ⟨fun r => recGet r ("x"), ("x"), none⟩,
          [⟨fun r => recGet r ("y"), ("y"), none⟩],
          ⟨⟨30, 30, 30, 30⟩, 3 / 2, false, 5, 10, false⟩,
          XScale.linear ⟨(.fin 0, .fin 10), (30, 770)⟩,
          ⟨(.fin 0, .fin 10), (570, 30)⟩⟩,
         [⟨⟨fun r => recGet r ("y"), ("a"), none⟩, some ("M2 2"), some (JSNum.fin 2)⟩]⟩)^[2]
        (Node.mk ("svg") [] [])
      = customRenderSeries
        ⟨⟨800, 600, [[(("x"), JSVal.num (.fin 0))]],
          ⟨fun r => recGet r ("x"), ("x"), none⟩,
          [⟨fun r => recGet r ("y"), ("y"), none⟩],
          ⟨⟨30, 30, 30, 30⟩, 3 / 2, false, 5, 10, false⟩,
          XScale.linear ⟨(.fin 0, .fin 10), (30, 770)⟩,
          ⟨(.fin 0, .fin 10), (570, 30)⟩⟩,
         [⟨⟨fun r => recGet r ("y"), ("a"), none⟩, some ("M2 2"), some (JSNum.fin 2)⟩]⟩
        (Node.mk ("svg") [] []) ∧
    countDepth3 markedNode ((lineRenderSeries
        ⟨800, 600, [[(("x"), JSVal.num (.fin 0))]],
          ⟨fun r => recGet r ("x"), ("x"), none⟩,
          [⟨fun r => recGet r ("y"), ("y"), none⟩],
          ⟨⟨30, 30, 30, 30⟩, 3 / 2, false, 5, 10, false⟩,
          XScale.linear ⟨(.fin 0, .fin 10), (30, 770)⟩,
          ⟨(.fin 0, .fin 10), (570, 30)⟩⟩)^[2] (Node.mk ("svg") [] []))
      = countDepth3 markedNode (lineRenderSeries
        ⟨800, 600, [[(("x"), JSVal.num (.fin 0))]],
          ⟨fun r => recGet r ("x"), ("x"), none⟩,
          [⟨fun r => recGet r ("y"), ("y"), none⟩],
          ⟨⟨30, 30, 30, 30⟩, 3 / 2, false, 5, 10, false⟩,
          XScale.linear ⟨(.fin 0, .fin 10), (30, 770)⟩,
          ⟨(.fin 0, .fin 10), (570, 30)⟩⟩ (Node.mk ("svg") [] [])) := by
  have h := C4_thm 2 (by norm_num)
    ⟨⟨800, 600, [[(("x"), JSVal.num (.fin 0))]],
      ⟨fun r => recGet r ("x"), ("x"), none⟩,
      [⟨fun r => recGet r ("y"), ("y"), none⟩],
      ⟨⟨30, 30, 30, 30⟩, 3 / 2, false, 5, 10, false⟩,
      XScale.linear ⟨(.fin 0, .fin 10), (30, 770)⟩,
      ⟨(.fin 0, .fin 10), (570, 30)⟩⟩,
     [⟨⟨fun r => recGet r ("y"), ("a"), none⟩, none⟩]⟩
    ⟨⟨800, 600, [[(("x"), JSVal.num (.fin 0))]],
      ⟨fun r => recGet r ("x"), ("x"), none⟩,
      [⟨fun r => recGet r ("y"), ("y"), none⟩],
      ⟨⟨30, 30, 30, 30⟩, 3 / 2, false, 5, 10, false⟩,
      XScale.linear ⟨(.fin 0, .fin 10), (30, 770)⟩,
      ⟨(.fin 0, .fin 10), (570, 30)⟩⟩,
     [⟨⟨fun r => recGet r ("y"), ("a"), none⟩, some ("M2 2"), some (JSNum.fin 2)⟩]⟩
    ⟨800, 600, [[(("x"), JSVal.num (.fin 0))]],
      ⟨fun r => recGet r ("x"), ("x"), none⟩,
      [⟨fun r => recGet r ("y"), ("y"), none⟩],
      ⟨⟨30, 30, 30, 30⟩, 3 / 2, false, 5, 10, false⟩,
      XScale.linear ⟨(.fin 0, .fin 10), (30, 770)⟩,
      ⟨(.fin 0, .fin 10), (570, 30)⟩⟩
    (Node.mk ("svg") [] []) (Node.mk ("svg") [] []) (Node.mk ("svg") [] [])
    rfl (by simp) rfl (by simp) rfl
  exact ⟨by norm_num, rfl, h.1.1, h.2.1.1, h.2.2⟩
